import Mathlib

/-!
Timer multiplexing and interrupt dispatch (`src/main/drivers/timer_atbsp.c`).

A shallow embedding of the AT32 timer driver: the sparse-to-dense timer index
mapping, the callback directory with its active overflow chain, channel
allocation with priority escalation, the forced overflow and the interrupt
dispatchers.

Conventions of the embedding.
* Pointers to callback records are natural numbers, `0` being `NULL`.
* A `tmr_type *` is the address of the device, a natural number.
* C arrays are functions from the index; every access the C code performs
  without a bound check is guarded here and yields a `Fault` when the index is
  outside the array (undefined behaviour in C).
* Machine integers are natural numbers reduced modulo `2 ^ width` where the C
  code can wrap or truncate.
* Every store the driver performs and every callback it invokes is appended to
  `State.trace`, so the order of the writes can be stated.
* Callback functions are consumer code: an invocation is recorded in the trace
  and has no effect on the driver state.
-/

namespace TimerAtbsp

/-! ## Data model -/

/-- Address of a callback record, `0` is the null pointer. -/
abbrev Ptr := Nat

/-- Ways in which an execution of the C code is undefined or does not finish. -/
inductive Fault where
  | nullDeref
  | outOfBounds
  | badShift
  | outOfFuel
  deriving DecidableEq, Repr

/-- Every store performed by the driver and every callback invocation. -/
inductive Event where
  | interrupt_enable (tim mask : Nat) (en : Bool)
  | storeEdge (timer ch : Nat) (cb : Ptr)
  | storeOverflow (timer ch : Nat) (cb : Ptr)
  | storeUpdate (timer : Nat) (cb : Ptr)
  | storeActive (timer : Nat) (cb : Ptr)
  | storeNext (record : Ptr) (cb : Ptr)
  | storeForced (timer v : Nat)
  | storeIsts (tim mask : Nat)
  | callOvr (cb : Ptr) (capture : Nat)
  | callEdge (cb : Ptr) (capture : Nat)
  | storeType (channel type : Nat)
  | storePriority (timer p : Nat)
  | base_init (tim pr div : Nat)
  | clock_source_div_set (tim : Nat)
  | cnt_dir_set (tim : Nat)
  | counter_enable (tim : Nat)
  | nvic_irq_enable (irq : Nat) (pre sub : Int)
  | swevt (tim : Nat)
  | memsetConfig
  deriving DecidableEq, Repr

/-- The registers of one timer device that the driver reads or writes. -/
structure tmr_type where
  ists : Nat
  iden : Nat
  pr : Nat
  div : Nat
  cval : Nat
  c1dt : Nat
  c2dt : Nat
  c3dt : Nat
  c4dt : Nat
  tmren : Bool
  clkdiv : Nat
  cnt_dir : Nat
  ovfswtr : Bool

/-- The per-timer callback directory `timerConfig_t`. -/
structure timerConfig_t where
  updateCallback : Ptr
  edgeCallback : Nat → Ptr
  overflowCallback : Nat → Ptr
  overflowCallbackActive : Ptr
  forcedOverflowTimerValue : Nat

/-- The fields of `timerHardware_t` that the driver uses. -/
structure timerHardware_t where
  tim : Nat
  channel : Nat

/-- Build-time configuration that is not part of the driver file: the device
mask `USED_TIMERS`, the device base addresses `TMRi_BASE`, the channel table
`TIMER_HARDWARE`, the clock of a device and the two priority macros. -/
structure Target where
  USED_TIMERS : Nat
  TMR_BASE : Nat → Nat
  TIMER_HARDWARE : List timerHardware_t
  timerClock : Nat → Nat
  NVIC_PRIORITY_BASE : Int → Int
  NVIC_PRIORITY_SUB : Int → Int

/-- The global state of the driver together with the hardware it drives. -/
structure State where
  timerConfig : Nat → timerConfig_t
  timerChannelInfo : Nat → Nat
  timerInfo : Nat → Nat
  next : Ptr → Ptr
  regs : Nat → tmr_type
  nvic : Nat → Option (Int × Int)
  trace : List Event

/-- Pointwise update of an array or memory. -/
def setAt {α : Type} (f : Nat → α) (i : Nat) (v : α) : Nat → α :=
  fun j => if j = i then v else f j

/-! ## Constants -/

def CC_CHANNELS_PER_TIMER : Nat := 4

/-- Bit 0 of `iden`, see the register layout comment of the source. -/
def TMR_OVF_INT : Nat := 0x01
/-- Bit 1 of `iden`, see the register layout comment of the source. -/
def TMR_C1_INT : Nat := 0x02
def TMR_OVF_FLAG : Nat := 0x01
def TMR_C1_FLAG : Nat := 0x02
def TMR_C2_FLAG : Nat := 0x04
def TMR_C3_FLAG : Nat := 0x08
def TMR_C4_FLAG : Nat := 0x10

/-- First enumerator of `channelType_t`. -/
def TYPE_FREE : Nat := 0

/-! ## Identifier compactor -/

def TIM_N (n : Nat) : Nat := 1 <<< n

/-- Modelled from the spec: the macro `BITCOUNT` of `common/utils.h` is not
part of the driver file; the dense index is "computed by counting set bits", so
`BITCOUNT x` is the number of set bits of the 32-bit value `x`. -/
def BITCOUNT (x : Nat) : Nat := ((List.range 32).filter (fun b => x.testBit b)).length

def USED_TIMER_COUNT (T : Target) : Nat := BITCOUNT T.USED_TIMERS

def TIMER_INDEX (T : Target) (i : Nat) : Nat := BITCOUNT ((TIM_N i - 1) &&& T.USED_TIMERS)

/-- The test `USED_TIMERS & TIM_N(i)` of the preprocessor conditionals. -/
def timerUsed (T : Target) (i : Nat) : Bool := decide (T.USED_TIMERS &&& TIM_N i ≠ 0)

/-- The identifiers that have a `_CASE` in `lookupTimerIndex`. -/
def lookupCases : List Nat := [1, 2, 3, 4, 5, 6, 7, 8, 9, 10, 11, 12, 13, 14, 15, 16, 17]

/-- The identifiers that have a `_DEF` in `usedTimers` and `timerNumbers`. -/
def tableIds : List Nat := [1, 2, 3, 4, 5, 6, 7, 8, 9, 10, 11, 12, 13, 14, 15, 16, 17, 20]

def _CASE_SHF : Nat := 10

/-- The `switch` of `lookupTimerIndex`: the cases compiled in are those of the
used timers; the default returns `~1` as `uint8_t`. -/
def lookupTimerIndex (T : Target) (tim : Nat) : Nat :=
  match (lookupCases.filter (timerUsed T)).find?
      (fun i => decide (tim >>> _CASE_SHF = T.TMR_BASE i >>> _CASE_SHF)) with
  | some i => TIMER_INDEX T i % 256
  | none => 254

/-- The initialiser list of `usedTimers`. -/
def usedTimers (T : Target) : List Nat := (tableIds.filter (timerUsed T)).map T.TMR_BASE

/-- The initialiser list of `timerNumbers`. -/
def timerNumbers (T : Target) : List Nat := tableIds.filter (timerUsed T)

def timerGetNumberByIndex (T : Target) (index : Nat) : Nat :=
  if index < USED_TIMER_COUNT T then (timerNumbers T).getD index 0 else 0

def timerGetTIMNumber (T : Target) (tim : Nat) : Nat :=
  let index := lookupTimerIndex T tim
  timerGetNumberByIndex T index

def lookupChannelIndex (channel : Nat) : Nat := channel >>> 2

def TIMER_CHANNEL_COUNT (T : Target) : Nat := T.TIMER_HARDWARE.length

/-! ## Primitive stores, each recorded in the trace -/

def logEvent (e : Event) (s : State) : State := { s with trace := s.trace ++ [e] }

/-- Modelled from the spec: the vendor call `tmr_interrupt_enable` is not part
of the driver file ("enableChannelCompareInterrupt(timer, channel, bool)"); it
sets the bits of the mask in `iden` when enabling and clears them when
disabling. -/
def tmr_interrupt_enable (tim mask : Nat) (en : Bool) (s : State) : State :=
  let r := s.regs tim
  let iden := if en then (r.iden ||| mask) % 2 ^ 32 else r.iden &&& (0xFFFFFFFF ^^^ mask)
  logEvent (Event.interrupt_enable tim mask en) { s with regs := setAt s.regs tim { r with iden := iden } }

def storeEdge (timer ch : Nat) (cb : Ptr) (s : State) : State :=
  let c := s.timerConfig timer
  logEvent (Event.storeEdge timer ch cb)
    { s with timerConfig := setAt s.timerConfig timer { c with edgeCallback := setAt c.edgeCallback ch cb } }

def storeOverflow (timer ch : Nat) (cb : Ptr) (s : State) : State :=
  let c := s.timerConfig timer
  logEvent (Event.storeOverflow timer ch cb)
    { s with timerConfig := setAt s.timerConfig timer { c with overflowCallback := setAt c.overflowCallback ch cb } }

def storeUpdate (timer : Nat) (cb : Ptr) (s : State) : State :=
  let c := s.timerConfig timer
  logEvent (Event.storeUpdate timer cb)
    { s with timerConfig := setAt s.timerConfig timer { c with updateCallback := cb } }

def storeActive (timer : Nat) (cb : Ptr) (s : State) : State :=
  let c := s.timerConfig timer
  logEvent (Event.storeActive timer cb)
    { s with timerConfig := setAt s.timerConfig timer { c with overflowCallbackActive := cb } }

def storeNext (record : Ptr) (cb : Ptr) (s : State) : State :=
  logEvent (Event.storeNext record cb) { s with next := setAt s.next record cb }

def storeForced (timer v : Nat) (s : State) : State :=
  let c := s.timerConfig timer
  logEvent (Event.storeForced timer v)
    { s with timerConfig := setAt s.timerConfig timer { c with forcedOverflowTimerValue := v } }

/-- Modelled from the spec: the status register is hardware; a store to `ists`
clears the flags whose written bit is zero and leaves the others
("clearEventFlag(timer, eventBit)", "Clear exactly that bit in the status
register"). -/
def storeIsts (tim mask : Nat) (s : State) : State :=
  let r := s.regs tim
  logEvent (Event.storeIsts tim mask) { s with regs := setAt s.regs tim { r with ists := r.ists &&& mask } }

/-! ## Chain builder -/

/-- The location `chain` points to: the head field of the directory or the
`next` field of a record. -/
inductive ChainLoc where
  | active
  | next (record : Ptr)
  deriving DecidableEq, Repr

/-- The store `*chain = v`. -/
def storeChain (timer : Nat) (chain : ChainLoc) (v : Ptr) (s : State) : State :=
  match chain with
  | ChainLoc.active => storeActive timer v s
  | ChainLoc.next r => storeNext r v s

/-- One iteration of the loop over the per-channel overflow slots. -/
def overflowStep (timer : Nat) (acc : State × ChainLoc) (i : Nat) : State × ChainLoc :=
  if (acc.1.timerConfig timer).overflowCallback i ≠ 0 then
    (storeChain timer acc.2 ((acc.1.timerConfig timer).overflowCallback i) acc.1,
      ChainLoc.next ((acc.1.timerConfig timer).overflowCallback i))
  else acc

/-- The body of the `ATOMIC_BLOCK` of `timerChConfig_UpdateOverflow`. -/
def rebuildChain (timer : Nat) (s : State) : State :=
  let acc0 : State × ChainLoc :=
    if (s.timerConfig timer).updateCallback ≠ 0 then
      (storeChain timer ChainLoc.active (s.timerConfig timer).updateCallback s,
        ChainLoc.next (s.timerConfig timer).updateCallback)
    else (s, ChainLoc.active)
  let acc := (List.range CC_CHANNELS_PER_TIMER).foldl (overflowStep timer) acc0
  storeChain timer acc.2 0 acc.1

def timerChConfig_UpdateOverflow (timer tim : Nat) (s : State) : State :=
  let s1 := rebuildChain timer s
  tmr_interrupt_enable tim TMR_OVF_INT (decide ((s1.timerConfig timer).overflowCallbackActive ≠ 0)) s1

/-- The macro `TIM_IT_CCx`, as a 32-bit value. -/
def TIM_IT_CCx (ch : Nat) : Nat := (TMR_C1_INT <<< (ch - 1)) % 2 ^ 32

/-- The stores of `timerChConfigCallbacks` after the index checks and before
the call of `timerChConfig_UpdateOverflow`. -/
def timerChConfigCallbacksSlots (timerIndex : Nat) (timHw : timerHardware_t)
    (edgeCallback overflowCallback : Ptr) (s : State) : State :=
  let channelIndex := lookupChannelIndex timHw.channel
  let s1 := if edgeCallback = 0 then tmr_interrupt_enable timHw.tim (TIM_IT_CCx timHw.channel) false s else s
  let s2 := storeEdge timerIndex channelIndex edgeCallback s1
  let s3 := storeOverflow timerIndex channelIndex overflowCallback s2
  if edgeCallback ≠ 0 then tmr_interrupt_enable timHw.tim (TIM_IT_CCx timHw.channel) true s3 else s3

/-- The stores of `timerChConfigCallbacks` after the index checks. -/
def timerChConfigCallbacksBody (timerIndex : Nat) (timHw : timerHardware_t)
    (edgeCallback overflowCallback : Ptr) (s : State) : State :=
  timerChConfig_UpdateOverflow timerIndex timHw.tim
    (timerChConfigCallbacksSlots timerIndex timHw edgeCallback overflowCallback s)

/-- The function `timerChConfigCallbacks`. The shift of `TIM_IT_CCx` is
undefined for channel 0 and for a shift of 32 or more; the slot index
`channel >> 2` is outside the four-element arrays from channel 16 on. -/
def timerChConfigCallbacks (T : Target) (timHw : timerHardware_t)
    (edgeCallback overflowCallback : Ptr) (s : State) : Except Fault State :=
  let timerIndex := lookupTimerIndex T timHw.tim
  if timerIndex ≥ USED_TIMER_COUNT T then Except.ok s
  else if timHw.channel = 0 ∨ 32 < timHw.channel then Except.error Fault.badShift
  else if CC_CHANNELS_PER_TIMER ≤ lookupChannelIndex timHw.channel then Except.error Fault.outOfBounds
  else Except.ok (timerChConfigCallbacksBody timerIndex timHw edgeCallback overflowCallback s)

def timerConfigUpdateCallback (T : Target) (tim : Nat) (updateCallback : Ptr) (s : State) : State :=
  let timerIndex := lookupTimerIndex T tim
  if timerIndex ≥ USED_TIMER_COUNT T then s
  else timerChConfig_UpdateOverflow timerIndex tim (storeUpdate timerIndex updateCallback s)

/-! ## Start-up and channel allocation -/

/-- The directory after `memset(timerConfig, 0, sizeof(timerConfig))`. -/
def zeroConfig : timerConfig_t :=
  { updateCallback := 0, edgeCallback := fun _ => 0, overflowCallback := fun _ => 0,
    overflowCallbackActive := 0, forcedOverflowTimerValue := 0 }

/-- The registers of a device after reset: everything zero, nothing enabled. -/
def zeroRegs : tmr_type :=
  { ists := 0, iden := 0, pr := 0, div := 0, cval := 0, c1dt := 0, c2dt := 0, c3dt := 0, c4dt := 0,
    tmren := false, clkdiv := 0, cnt_dir := 0, ovfswtr := false }

/-- The machine before the driver runs: zeroed memory, devices in reset, no
interrupt line enabled. -/
def resetState : State :=
  { timerConfig := fun _ => zeroConfig, timerChannelInfo := fun _ => 0, timerInfo := fun _ => 0,
    next := fun _ => 0, regs := fun _ => zeroRegs, nvic := fun _ => none, trace := [] }

/-- The function `timerInit`. The clock enabling of the peripherals
(`RCC_ClockCmd`) touches no state of this model. The priority `~0` stored in a
`uint8_t` is 255. -/
def timerInit (T : Target) (s : State) : State :=
  logEvent Event.memsetConfig
    { s with
      timerConfig := fun i => if i < USED_TIMER_COUNT T then zeroConfig else s.timerConfig i
      timerChannelInfo := fun i => if i < TIMER_CHANNEL_COUNT T then TYPE_FREE else s.timerChannelInfo i
      timerInfo := fun i => if i < USED_TIMER_COUNT T then 255 else s.timerInfo i }

/-- Modelled from the spec: the vendor call `tmr_base_init` is not part of the
driver file ("startCounter(timer, period, prescaler)"); it programs the period
and the divider registers. -/
def tmr_base_init (tim pr div : Nat) (s : State) : State :=
  let r := s.regs tim
  logEvent (Event.base_init tim pr div) { s with regs := setAt s.regs tim { r with pr := pr, div := div } }

/-- Modelled from the spec: vendor call, selects the clock division
`TMR_CLOCK_DIV1`, which is 0. -/
def tmr_clock_source_div_set (tim : Nat) (s : State) : State :=
  let r := s.regs tim
  logEvent (Event.clock_source_div_set tim) { s with regs := setAt s.regs tim { r with clkdiv := 0 } }

/-- Modelled from the spec: vendor call ("setCounterDirection"), selects
`TMR_COUNT_UP`, which is 0. -/
def tmr_cnt_dir_set (tim : Nat) (s : State) : State :=
  let r := s.regs tim
  logEvent (Event.cnt_dir_set tim) { s with regs := setAt s.regs tim { r with cnt_dir := 0 } }

/-- Modelled from the spec: vendor call, starts the counter. -/
def tmr_counter_enable (tim : Nat) (s : State) : State :=
  let r := s.regs tim
  logEvent (Event.counter_enable tim) { s with regs := setAt s.regs tim { r with tmren := true } }

/-- Modelled from the spec: the interrupt controller is not part of the driver
file ("enableInterruptLine(irqId, priorityLevel)"); the line is recorded as
enabled with the two priority fields it was given. -/
def nvic_irq_enable (irq : Nat) (pre sub : Int) (s : State) : State :=
  logEvent (Event.nvic_irq_enable irq pre sub) { s with nvic := setAt s.nvic irq (some (pre, sub)) }

/-- The function `configTimeBase`: `(period - 1) & 0xFFFF` on a `uint16_t`
period and the 32-bit `timerClock(tim) / hz - 1`. The caller passes `hz ≠ 0`. -/
def configTimeBase (T : Target) (tim period hz : Nat) (s : State) : State :=
  let s1 := tmr_base_init tim ((period % 2 ^ 16 + 2 ^ 16 - 1) % 2 ^ 16)
    ((T.timerClock tim / hz + 2 ^ 32 - 1) % 2 ^ 32) s
  let s2 := tmr_clock_source_div_set tim s1
  tmr_cnt_dir_set tim s2

def storeType (channel type : Nat) (s : State) : State :=
  logEvent (Event.storeType channel type) { s with timerChannelInfo := setAt s.timerChannelInfo channel type }

def storePriority (timer p : Nat) (s : State) : State :=
  logEvent (Event.storePriority timer p) { s with timerInfo := setAt s.timerInfo timer p }

/-- The function `timerChInit`. The argument `channel` is the pointer
difference `timHw - TIMER_HARDWARE` as `unsigned`; `irqPriority` is an `int`,
compared as `int` with the `uint8_t` committed priority and truncated to
`uint8_t` when stored. -/
def timerChInit (T : Target) (channel type : Nat) (irqPriority : Int) (irq : Nat) (s : State) : State :=
  if channel ≥ TIMER_CHANNEL_COUNT T then s
  else
    match T.TIMER_HARDWARE.get? channel with
    | none => s
    | some timHw =>
      let s1 := storeType channel type s
      let timer := lookupTimerIndex T timHw.tim
      if timer ≥ USED_TIMER_COUNT T then s1
      else if irqPriority < (s1.timerInfo timer : Int) then
        let s2 := configTimeBase T ((usedTimers T).getD timer 0) 0 1 s1
        let s3 := tmr_counter_enable ((usedTimers T).getD timer 0) s2
        let s4 := nvic_irq_enable irq (T.NVIC_PRIORITY_BASE irqPriority) (T.NVIC_PRIORITY_SUB irqPriority) s3
        storePriority timer (irqPriority % 256).toNat s4
      else s1

/-! ## Forced overflow -/

/-- The function `timerForceOverflow`. The C code indexes `timerConfig` with
the result of `lookupTimerIndex` without a check; an index outside the array
is a fault. `tim->cval + 1` is a 32-bit sum. -/
def timerForceOverflow (T : Target) (tim : Nat) (s : State) : Except Fault State :=
  let timerIndex := lookupTimerIndex T tim
  if timerIndex < USED_TIMER_COUNT T then
    let s1 := storeForced timerIndex (((s.regs tim).cval + 1) % 2 ^ 32) s
    let r := s1.regs tim
    Except.ok (logEvent (Event.swevt tim) { s1 with regs := setAt s1.regs tim { r with ovfswtr := true } })
  else Except.error Fault.outOfBounds

/-! ## Dispatchers -/

/-- Number of zero bits of `x` above its most significant set bit among the low
`k` bits. -/
def clzFrom : Nat → Nat → Nat
  | 0, _ => 0
  | k + 1, x => if x.testBit k then 0 else clzFrom k x + 1

/-- The compiler builtin `__builtin_clz` on a non-zero 32-bit value. -/
def builtin_clz (x : Nat) : Nat := clzFrom 32 x

/-- The loop `while (cb) { cb->fn(cb, capture); cb = cb->next; }`. -/
def overflowChainLoop (capture : Nat) : Nat → Ptr → State → Except Fault State
  | 0, cb, s => if cb = 0 then Except.ok s else Except.error Fault.outOfFuel
  | fuel + 1, cb, s =>
    if cb = 0 then Except.ok s
    else overflowChainLoop capture fuel (s.next cb) (logEvent (Event.callOvr cb capture) s)

/-- The overflow case of the dispatchers; `capture` is a `uint16_t`. -/
def overflowCase (fuel tim timer : Nat) (s : State) : Except Fault State :=
  let forced := (s.timerConfig timer).forcedOverflowTimerValue
  let capture := if forced ≠ 0 then (forced - 1) % 2 ^ 16 else (s.regs tim).pr % 2 ^ 16
  let s1 := if forced ≠ 0 then storeForced timer 0 s else s
  overflowChainLoop capture fuel (s1.timerConfig timer).overflowCallbackActive s1

/-- A compare case of `timCCxHandler`: `cb->fn(cb, capture)` on the slot. -/
def edgeCase (cb : Ptr) (capture : Nat) (s : State) : Except Fault State :=
  if cb = 0 then Except.error Fault.nullDeref else Except.ok (logEvent (Event.callEdge cb capture) s)

/-- The `switch (bit)` of `timCCxHandler`. -/
def timCCxSwitch (fuel tim timer bit : Nat) (s : State) : Except Fault State :=
  if bit = builtin_clz TMR_OVF_FLAG then overflowCase fuel tim timer s
  else if bit = builtin_clz TMR_C1_FLAG then
    edgeCase ((s.timerConfig timer).edgeCallback 0) (s.regs tim).c1dt s
  else if bit = builtin_clz TMR_C2_FLAG then
    edgeCase ((s.timerConfig timer).edgeCallback 1) (s.regs tim).c2dt s
  else if bit = builtin_clz TMR_C3_FLAG then
    edgeCase ((s.timerConfig timer).edgeCallback 2) (s.regs tim).c3dt s
  else if bit = builtin_clz TMR_C4_FLAG then
    edgeCase ((s.timerConfig timer).edgeCallback 3) (s.regs tim).c4dt s
  else Except.ok s

/-- The loop `while (tim_status)` of `timCCxHandler`; the first argument bounds
the chain walk, the fourth the number of iterations. -/
def timCCxLoop (fuel tim timer : Nat) : Nat → Nat → State → Except Fault State
  | 0, tim_status, s => if tim_status = 0 then Except.ok s else Except.error Fault.outOfFuel
  | n + 1, tim_status, s =>
    if tim_status = 0 then Except.ok s
    else
      let bit := builtin_clz tim_status
      let mask := 0xFFFFFFFF ^^^ (0x80000000 >>> bit)
      match timCCxSwitch fuel tim timer bit (storeIsts tim mask s) with
      | Except.ok s2 => timCCxLoop fuel tim timer n (tim_status &&& mask) s2
      | Except.error f => Except.error f

/-- The function `timCCxHandler` on the device `tim` and the directory of dense
index `timer`. -/
def timCCxHandler (fuel tim timer : Nat) (s : State) : Except Fault State :=
  timCCxLoop fuel tim timer fuel (((s.regs tim).ists &&& (s.regs tim).iden) % 2 ^ 32) s

/-- The `switch (bit)` of `timUpdateHandler`. -/
def timUpdateSwitch (fuel tim timer bit : Nat) (s : State) : Except Fault State :=
  if bit = builtin_clz TMR_OVF_FLAG then overflowCase fuel tim timer s else Except.ok s

/-- The loop `while (tim_status)` of `timUpdateHandler`. -/
def timUpdateLoop (fuel tim timer : Nat) : Nat → Nat → State → Except Fault State
  | 0, tim_status, s => if tim_status = 0 then Except.ok s else Except.error Fault.outOfFuel
  | n + 1, tim_status, s =>
    if tim_status = 0 then Except.ok s
    else
      let bit := builtin_clz tim_status
      let mask := 0xFFFFFFFF ^^^ (0x80000000 >>> bit)
      match timUpdateSwitch fuel tim timer bit (storeIsts tim mask s) with
      | Except.ok s2 => timUpdateLoop fuel tim timer n (tim_status &&& mask) s2
      | Except.error f => Except.error f

def timUpdateHandler (fuel tim timer : Nat) (s : State) : Except Fault State :=
  timUpdateLoop fuel tim timer fuel (((s.regs tim).ists &&& (s.regs tim).iden) % 2 ^ 32) s

/-! ## Reading the chain -/

/-- Traversal of a chain through the `next` links until the null pointer, as
the dispatcher walks it; `none` when the bound is reached first. -/
def chainList (next : Ptr → Ptr) : Nat → Ptr → Option (List Ptr)
  | 0, cb => if cb = 0 then some [] else none
  | fuel + 1, cb =>
    if cb = 0 then some []
    else (chainList next fuel (next cb)).map (fun l => cb :: l)

/-- The slots of a directory that feed the chain, in the order of the spec:
the update callback, then the overflow callbacks of channel index 0 to 3. -/
def overflowSlots (c : timerConfig_t) : List Ptr :=
  [c.updateCallback, c.overflowCallback 0, c.overflowCallback 1, c.overflowCallback 2,
    c.overflowCallback 3]

/-- The present (non-null) overflow records of a directory, in slot order. -/
def presentOverflow (c : timerConfig_t) : List Ptr := (overflowSlots c).filter (fun p => decide (p ≠ 0))

/-- The stores of a rebuild that links the records `l` starting at the location
`loc` and ends with the null terminator (closed form of the rebuild loop). -/
def linkFrom (timer : Nat) : ChainLoc → List Ptr → State → State
  | loc, [], s => storeChain timer loc 0 s
  | loc, a :: l, s => linkFrom timer (ChainLoc.next a) l (storeChain timer loc a s)

/-- The overflow interrupt enable bit of the device `tim` agrees with the
directory of dense index `timer`: the bit is set exactly when the active chain
is non-empty, which is exactly when some overflow slot is non-empty. -/
def overflowEnableMatches (timer tim : Nat) (s : State) : Prop :=
  ((s.regs tim).iden &&& TMR_OVF_INT ≠ 0 ↔ (s.timerConfig timer).overflowCallbackActive ≠ 0)
  ∧ ((s.timerConfig timer).overflowCallbackActive ≠ 0 ↔
      ((s.timerConfig timer).updateCallback ≠ 0
        ∨ ∃ i, i < CC_CHANNELS_PER_TIMER ∧ (s.timerConfig timer).overflowCallback i ≠ 0))

/-! ## Example configurations and states -/

/-- A directory with an update callback at 7 and overflow callbacks at 3 and 5
on channel indices 0 and 2 of timer 0. -/
def exampleChainState : State :=
  { resetState with
    timerConfig := fun _ =>
      { zeroConfig with
        updateCallback := 7
        overflowCallback := fun i => if i = 0 then 3 else if i = 2 then 5 else 0 } }

/-- An example target with the timers 2 and 3 configured, one kilobyte of
address space per device, and channels 1 and 2 of timer 3 and channel 1 of
timer 2 in the channel table. -/
def exampleTarget : Target :=
  { USED_TIMERS := 12
    TMR_BASE := fun i => 0x40000000 + i * 0x400
    TIMER_HARDWARE := [{ tim := 0x40000C00, channel := 1 }, { tim := 0x40000C00, channel := 2 },
      { tim := 0x40000800, channel := 1 }]
    timerClock := fun _ => 1000000
    NVIC_PRIORITY_BASE := fun p => p / 16
    NVIC_PRIORITY_SUB := fun p => p % 16 }

/-- The state after power-on and `timerInit` on the example target. -/
def exampleInitState : State := timerInit exampleTarget resetState

/-- The trace entry of the store `*chain = v`. -/
def chainEvent (timer : Nat) : ChainLoc → Ptr → Event
  | ChainLoc.active, v => Event.storeActive timer v
  | ChainLoc.next r, v => Event.storeNext r v

/-- The trace entries of `linkFrom`, in the order of the stores. -/
def linkEvents (timer : Nat) : ChainLoc → List Ptr → List Event
  | loc, [] => [chainEvent timer loc 0]
  | loc, a :: l => chainEvent timer loc a :: linkEvents timer (ChainLoc.next a) l

/-- Trace entries that store into an edge-callback slot. -/
def isEdgeStore : Event → Bool
  | Event.storeEdge _ _ _ => true
  | _ => false

/-- Trace entries that change interrupt enable bits of the given mask. -/
def isEnableOf (mask : Nat) : Event → Bool
  | Event.interrupt_enable _ m _ => decide (m = mask)
  | _ => false

/-- Modelled from the spec: the hardware raises event flags by setting bits of
the status register of a device. -/
def raiseFlags (tim flags : Nat) (s : State) : State :=
  { s with regs := setAt s.regs tim { s.regs tim with ists := ((s.regs tim).ists ||| flags) % 2 ^ 32 } }

/-- One call of `timerChInit`. -/
structure ChInitCall where
  channel : Nat
  type : Nat
  irqPriority : Int
  irq : Nat

/-- A sequence of `timerChInit` calls, in order. -/
def runChInit (T : Target) (calls : List ChInitCall) (s : State) : State :=
  calls.foldl (fun st c => timerChInit T c.channel c.type c.irqPriority c.irq st) s

/-- A call on a valid channel whose timer resolves to the dense index `timer`. -/
def validOn (T : Target) (timer : Nat) (c : ChInitCall) : Prop :=
  c.channel < TIMER_CHANNEL_COUNT T
    ∧ ∃ hw, T.TIMER_HARDWARE.get? c.channel = some hw ∧ lookupTimerIndex T hw.tim = timer

/-- The `capture` value of an overflow dispatch in the state `s`. -/
def overflowCapture (tim timer : Nat) (s : State) : Nat :=
  if (s.timerConfig timer).forcedOverflowTimerValue ≠ 0 then
    ((s.timerConfig timer).forcedOverflowTimerValue - 1) % 2 ^ 16
  else (s.regs tim).pr % 2 ^ 16

/-- The trace entries of servicing the status bit `b` once, for a dispatch
entered in the state `s` whose active chain is the list `chain`: the flag clear,
then the invocations of that bit. -/
def serviceEvents (tim timer : Nat) (s : State) (chain : List Ptr) (b : Nat) : List Event :=
  Event.storeIsts tim (0xFFFFFFFF ^^^ 2 ^ b) ::
    (if b = 0 then
      (if (s.timerConfig timer).forcedOverflowTimerValue ≠ 0 then [Event.storeForced timer 0] else [])
        ++ chain.map (fun cb => Event.callOvr cb (overflowCapture tim timer s))
    else if b = 1 then [Event.callEdge ((s.timerConfig timer).edgeCallback 0) (s.regs tim).c1dt]
    else if b = 2 then [Event.callEdge ((s.timerConfig timer).edgeCallback 1) (s.regs tim).c2dt]
    else if b = 3 then [Event.callEdge ((s.timerConfig timer).edgeCallback 2) (s.regs tim).c3dt]
    else if b = 4 then [Event.callEdge ((s.timerConfig timer).edgeCallback 3) (s.regs tim).c4dt]
    else [])

/-- The set bits of `p` among the positions below `k`, most significant first. -/
def bitsBelow (k p : Nat) : List Nat := ((List.range k).reverse).filter (fun b => p.testBit b)

/-- The pending-and-enabled events of a device at dispatcher entry. -/
def pendingEvents (tim : Nat) (s : State) : Nat := ((s.regs tim).ists &&& (s.regs tim).iden) % 2 ^ 32

/-- What a dispatch leaves alone: the record links, the slots and the chain
head of the directory, the other directories, and every register of the device
except the status register. -/
def dispatchFrame (tim timer : Nat) (s s1 : State) : Prop :=
  s1.next = s.next
  ∧ (s1.timerConfig timer).overflowCallbackActive = (s.timerConfig timer).overflowCallbackActive
  ∧ (s1.timerConfig timer).edgeCallback = (s.timerConfig timer).edgeCallback
  ∧ (s1.timerConfig timer).overflowCallback = (s.timerConfig timer).overflowCallback
  ∧ (s1.timerConfig timer).updateCallback = (s.timerConfig timer).updateCallback
  ∧ (s1.regs tim).pr = (s.regs tim).pr
  ∧ (s1.regs tim).iden = (s.regs tim).iden
  ∧ (s1.regs tim).c1dt = (s.regs tim).c1dt
  ∧ (s1.regs tim).c2dt = (s.regs tim).c2dt
  ∧ (s1.regs tim).c3dt = (s.regs tim).c3dt
  ∧ (s1.regs tim).c4dt = (s.regs tim).c4dt

/-- A state after `timerInit` in which timer 3 has the edge callback record 21
in slot 1, an active chain of the single record 7, and both the overflow and
the channel-2 compare event pending and enabled. -/
def exampleDispatchState : State :=
  { exampleInitState with
    timerConfig := fun _ =>
      { zeroConfig with
        updateCallback := 7
        overflowCallbackActive := 7
        edgeCallback := fun i => if i = 1 then 21 else 0 }
    regs := fun _ => { zeroRegs with ists := 5, iden := 5, pr := 0xFFFF, c2dt := 1234 } }

/-- The state after `timerInit` with the channel-2 compare event of every
device pending and enabled, all callback slots being empty. -/
def exampleEmptySlotState : State :=
  { exampleInitState with regs := fun _ => { zeroRegs with ists := 4, iden := 4 } }

/-- The overflow callback invocations of a trace, in order, each with the
record invoked and the `capture` value passed. -/
def ovrCalls (es : List Event) : List (Ptr × Nat) :=
  es.filterMap (fun e => match e with
    | Event.callOvr cb capture => some (cb, capture)
    | _ => none)

/-- A state after `timerInit` in which timer 3 has the overflow interrupt
enabled, an active chain of the single record 7, the period register 0xFFFF
and the live counter value 1000. -/
def exampleForceState : State :=
  { exampleInitState with
    timerConfig := fun _ => { zeroConfig with updateCallback := 7, overflowCallbackActive := 7 }
    regs := fun _ => { zeroRegs with iden := 1, pr := 0xFFFF, cval := 1000 } }

/-- The same state on a counter that has reached 0x10000. -/
def exampleForceWideState : State :=
  { exampleInitState with
    timerConfig := fun _ => { zeroConfig with updateCallback := 7, overflowCallbackActive := 7 }
    regs := fun _ => { zeroRegs with iden := 1, pr := 0xFFFF, cval := 0x10000 } }

/-- The same state with a period register of 0x1FFFF and no forced value. -/
def exampleWidePeriodState : State :=
  { exampleInitState with
    timerConfig := fun _ => { zeroConfig with updateCallback := 7, overflowCallbackActive := 7 }
    regs := fun _ => { zeroRegs with ists := 1, iden := 1, pr := 0x1FFFF } }

/-- An example target with the timers 3 and 20 configured. -/
def exampleTarget20 : Target :=
  { exampleTarget with USED_TIMERS := 0x100008 }

/-- The example target with a fourth entry in the channel table: channel 1 of
timer 4, a timer that is not configured. -/
def exampleStrayTarget : Target :=
  { exampleTarget with
    TIMER_HARDWARE := exampleTarget.TIMER_HARDWARE ++ [{ tim := 0x40001000, channel := 1 }] }

/-- Trace entries that are callback invocations. -/
def isCall : Event → Bool
  | Event.callOvr _ _ => true
  | Event.callEdge _ _ => true
  | _ => false

/-- The callback invocations of a trace, in order. -/
def invocations (es : List Event) : List Event := es.filter isCall

/-- The edge callback invocations of a trace, in order, each with the record
invoked and the value passed. -/
def edgeCalls (es : List Event) : List (Ptr × Nat) :=
  es.filterMap (fun e => match e with
    | Event.callEdge cb capture => some (cb, capture)
    | _ => none)

/-- The trace entries of servicing the status bit `b` once in the update-only
dispatcher: the flag clear and, for the overflow bit, the invocations of the
chain. -/
def updateEvents (tim timer : Nat) (s : State) (chain : List Ptr) (b : Nat) : List Event :=
  Event.storeIsts tim (0xFFFFFFFF ^^^ 2 ^ b) ::
    (if b = 0 then
      (if (s.timerConfig timer).forcedOverflowTimerValue ≠ 0 then [Event.storeForced timer 0] else [])
        ++ chain.map (fun cb => Event.callOvr cb (overflowCapture tim timer s))
    else [])

/-- A state after `timerInit` in which timer 3 has the edge callback records
21 to 24 in the slots 0 to 3, an active chain of the records 7 and 3, and the
overflow event and all four compare events pending and enabled. -/
def exampleAllPendingState : State :=
  { exampleInitState with
    timerConfig := fun _ =>
      { zeroConfig with
        updateCallback := 7
        overflowCallbackActive := 7
        overflowCallback := fun i => if i = 0 then 3 else 0
        edgeCallback := fun i => 21 + i }
    next := fun p => if p = 7 then 3 else 0
    regs := fun _ =>
      { zeroRegs with ists := 31, iden := 31, pr := 0xFFFF, c1dt := 101, c2dt := 102, c3dt := 103,
                      c4dt := 104 } }

/-! ## Input filter and prescaler -/

/-- The table `ftab` of `getFilter`. -/
def ftab : List Nat := [1 * 1, 1 * 2, 1 * 4, 1 * 8, 2 * 6, 2 * 8, 4 * 6, 4 * 8, 8 * 6, 8 * 8,
  16 * 5, 16 * 6, 16 * 8, 32 * 5, 32 * 6, 32 * 8]

/-- The loop `for (i = 1; i < ARRAYLEN(ftab); i++) if (ftab[i] > ticks) return i - 1;`
of `getFilter` followed by `return 0x0f`; the first argument is the number of
iterations left, the second the loop variable `i`. -/
def getFilterLoop (ticks : Nat) : Nat → Nat → Nat
  | 0, _ => 0x0f
  | n + 1, i => if ftab.getD i 0 > ticks then i - 1 else getFilterLoop ticks n (i + 1)

/-- The function `getFilter`: the loop runs for `i` from 1 to 15. -/
def getFilter (ticks : Nat) : Nat := getFilterLoop ticks (ftab.length - 1) 1

/-- The function `timerGetPrescalerByDesiredHertz`, on 32-bit `hz` and
`timerClock(tim)`: `(uint16_t)((timerClock(tim) + hz / 2) / hz) - 1`, converted
to the `uint16_t` return type. The result is `none` when the C code divides by
zero. -/
def timerGetPrescalerByDesiredHertz (T : Target) (tim hz : Nat) : Option Nat :=
  if hz > T.timerClock tim then some 0
  else if hz = 0 then none
  else some (((((T.timerClock tim + hz / 2) % 2 ^ 32) / hz) % 2 ^ 16 + 2 ^ 16 - 1) % 2 ^ 16)

/-- A directory in which the record 7 is both the update callback and the
overflow callback of channel index 1, the record 3 is the overflow callback of
channel indices 0 and 2, and every `next` link points to the record 7 before
the rebuild. -/
def exampleDuplicateState : State :=
  { resetState with
    timerConfig := fun _ =>
      { zeroConfig with
        updateCallback := 7
        overflowCallback := fun i => if i = 0 then 3 else if i = 1 then 7 else if i = 2 then 3 else 0 }
    next := fun _ => 7 }

/-! # Theorems -/

/-! ## The chain builder: lemmas -/

theorem storeChain_slots (timer : Nat) (loc : ChainLoc) (v : Ptr) (s : State) (t : Nat) :
    ((storeChain timer loc v s).timerConfig t).overflowCallback = (s.timerConfig t).overflowCallback
    ∧ ((storeChain timer loc v s).timerConfig t).updateCallback = (s.timerConfig t).updateCallback
    ∧ ((storeChain timer loc v s).timerConfig t).edgeCallback = (s.timerConfig t).edgeCallback
    ∧ ((storeChain timer loc v s).timerConfig t).forcedOverflowTimerValue
        = (s.timerConfig t).forcedOverflowTimerValue := by
  cases loc <;> simp only [storeChain, storeActive, storeNext, logEvent, setAt] <;>
    (try split) <;> simp_all

theorem foldl_overflowStep (timer : Nat) (is : List Nat) (acc : State × ChainLoc) :
    storeChain timer (is.foldl (overflowStep timer) acc).2 0 (is.foldl (overflowStep timer) acc).1
      = linkFrom timer acc.2
          ((is.map (fun i => (acc.1.timerConfig timer).overflowCallback i)).filter
            (fun p => decide (p ≠ 0))) acc.1 := by
  induction is generalizing acc with
  | nil => simp [linkFrom]
  | cons i is ih =>
    rw [List.foldl_cons, ih]
    by_cases h : (acc.1.timerConfig timer).overflowCallback i = 0
    · simp [overflowStep, h]
    · simp [overflowStep, h, linkFrom, (storeChain_slots timer acc.2 _ acc.1 timer).1]

theorem rebuildChain_eq (timer : Nat) (s : State) :
    rebuildChain timer s = linkFrom timer ChainLoc.active (presentOverflow (s.timerConfig timer)) s := by
  unfold rebuildChain
  simp only []
  rw [foldl_overflowStep]
  by_cases h : (s.timerConfig timer).updateCallback = 0
  · simp [h, presentOverflow, overflowSlots, CC_CHANNELS_PER_TIMER, List.range_succ]
  · simp [h, presentOverflow, overflowSlots, CC_CHANNELS_PER_TIMER, List.range_succ, linkFrom,
      (storeChain_slots timer ChainLoc.active _ s timer).1, List.filter_cons]

theorem chainList_null (next : Ptr → Ptr) (fuel : Nat) : chainList next fuel 0 = some [] := by
  cases fuel <;> simp [chainList]

theorem linkFrom_next_config (timer : Nat) (l : List Ptr) (r : Ptr) (s : State) :
    (linkFrom timer (ChainLoc.next r) l s).timerConfig = s.timerConfig := by
  induction l generalizing r s with
  | nil => simp [linkFrom, storeChain, storeNext, logEvent]
  | cons a l ih => simp [linkFrom, ih, storeChain, storeNext, logEvent]

theorem linkFrom_next_other (timer : Nat) (l : List Ptr) (r : Ptr) (s : State) (x : Ptr)
    (hx : x ≠ r) (hl : x ∉ l) : (linkFrom timer (ChainLoc.next r) l s).next x = s.next x := by
  induction l generalizing r s with
  | nil => simp [linkFrom, storeChain, storeNext, logEvent, setAt, hx]
  | cons a l ih =>
    simp only [List.mem_cons, not_or] at hl
    rw [linkFrom, ih a _ hl.1 hl.2]
    simp [storeChain, storeNext, logEvent, setAt, hx]

theorem linkFrom_next_chain (timer : Nat) (l : List Ptr) (r : Ptr) (s : State)
    (hd : (r :: l).Nodup) (h0 : ∀ x ∈ r :: l, x ≠ 0) (fuel : Nat) (hf : l.length < fuel) :
    chainList (linkFrom timer (ChainLoc.next r) l s).next fuel r = some (r :: l) := by
  induction l generalizing r s fuel with
  | nil =>
    obtain ⟨k, rfl⟩ : ∃ k, fuel = k + 1 := ⟨fuel - 1, by simp at hf; omega⟩
    have hr : r ≠ 0 := h0 r (by simp)
    simp [chainList, hr, linkFrom, storeChain, storeNext, logEvent, setAt, chainList_null]
  | cons a l ih =>
    obtain ⟨k, rfl⟩ : ∃ k, fuel = k + 1 := ⟨fuel - 1, by simp at hf; omega⟩
    have hr : r ≠ 0 := h0 r (by simp)
    have hra : r ≠ a := by
      intro h
      simp [h] at hd
    have hrl : r ∉ l := by
      intro h
      simp [h] at hd
    have hn : (linkFrom timer (ChainLoc.next r) (a :: l) s).next r = a := by
      rw [linkFrom, linkFrom_next_other timer l a _ r hra hrl]
      simp [storeChain, storeNext, logEvent, setAt]
    have hrec := ih a (storeChain timer (ChainLoc.next r) a s) (List.nodup_cons.mp hd).2
      (fun x hx => h0 x (List.mem_cons_of_mem r hx)) k (by simp at hf; omega)
    rw [chainList, if_neg hr, hn]
    rw [linkFrom, hrec]
    rfl

theorem linkFrom_active_head (timer : Nat) (l : List Ptr) (s : State) :
    ((linkFrom timer ChainLoc.active l s).timerConfig timer).overflowCallbackActive = l.headD 0 := by
  cases l with
  | nil => simp [linkFrom, storeChain, storeActive, logEvent, setAt]
  | cons a l =>
    rw [linkFrom, linkFrom_next_config]
    simp [storeChain, storeActive, logEvent, setAt]

theorem linkFrom_slots (timer : Nat) (loc : ChainLoc) (l : List Ptr) (s : State) (t : Nat) :
    ((linkFrom timer loc l s).timerConfig t).overflowCallback = (s.timerConfig t).overflowCallback
    ∧ ((linkFrom timer loc l s).timerConfig t).updateCallback = (s.timerConfig t).updateCallback
    ∧ ((linkFrom timer loc l s).timerConfig t).edgeCallback = (s.timerConfig t).edgeCallback
    ∧ ((linkFrom timer loc l s).timerConfig t).forcedOverflowTimerValue
        = (s.timerConfig t).forcedOverflowTimerValue := by
  induction l generalizing loc s with
  | nil => exact storeChain_slots timer loc 0 s t
  | cons a l ih =>
    rw [linkFrom]
    have h1 := ih (ChainLoc.next a) (storeChain timer loc a s)
    have h2 := storeChain_slots timer loc a s t
    exact ⟨h1.1.trans h2.1, h1.2.1.trans h2.2.1, h1.2.2.1.trans h2.2.2.1, h1.2.2.2.trans h2.2.2.2⟩

theorem linkFrom_regs (timer : Nat) (loc : ChainLoc) (l : List Ptr) (s : State) :
    (linkFrom timer loc l s).regs = s.regs := by
  induction l generalizing loc s with
  | nil => cases loc <;> simp [linkFrom, storeChain, storeActive, storeNext, logEvent]
  | cons a l ih =>
    rw [linkFrom, ih]
    cases loc <;> simp [storeChain, storeActive, storeNext, logEvent]

theorem linkFrom_active_chain (timer : Nat) (l : List Ptr) (s : State)
    (hd : l.Nodup) (h0 : ∀ x ∈ l, x ≠ 0) (fuel : Nat) (hf : l.length ≤ fuel) :
    chainList (linkFrom timer ChainLoc.active l s).next fuel
      ((linkFrom timer ChainLoc.active l s).timerConfig timer).overflowCallbackActive = some l := by
  rw [linkFrom_active_head]
  cases l with
  | nil => simp [chainList_null]
  | cons a l =>
    rw [linkFrom]
    exact linkFrom_next_chain timer l a _ hd h0 fuel (by simpa using hf)

theorem presentOverflow_ne_zero (c : timerConfig_t) : ∀ x ∈ presentOverflow c, x ≠ 0 := by
  intro x hx
  simpa using (List.mem_filter.mp hx).2

theorem presentOverflow_length (c : timerConfig_t) : (presentOverflow c).length ≤ 5 := by
  unfold presentOverflow
  exact (List.length_filter_le _ _).trans (by simp [overflowSlots])

theorem updateOverflow_config (timer tim : Nat) (s : State) :
    (timerChConfig_UpdateOverflow timer tim s).timerConfig = (rebuildChain timer s).timerConfig
    ∧ (timerChConfig_UpdateOverflow timer tim s).next = (rebuildChain timer s).next := by
  simp [timerChConfig_UpdateOverflow, tmr_interrupt_enable, logEvent]

/-! ## Claims -/

/-- C1. For a directory whose present overflow records (the update callback and
the per-channel overflow callbacks of slots 0 to 3) are pairwise distinct, after
the chain rebuild of `timerChConfig_UpdateOverflow` the traversal from
`overflowCallbackActive` through the `next` links reaches the null pointer and
yields exactly the update callback if present followed by the present
per-channel overflow callbacks in ascending slot order; the slots themselves
are left as they were. -/
theorem chain_rebuild_traversal (timer tim : Nat) (s : State)
    (hd : (presentOverflow (s.timerConfig timer)).Nodup) (fuel : Nat) (hf : 5 ≤ fuel) :
    chainList (timerChConfig_UpdateOverflow timer tim s).next fuel
        ((timerChConfig_UpdateOverflow timer tim s).timerConfig timer).overflowCallbackActive
      = some (presentOverflow (s.timerConfig timer))
    ∧ presentOverflow ((timerChConfig_UpdateOverflow timer tim s).timerConfig timer)
      = presentOverflow (s.timerConfig timer) := by
  have hc := updateOverflow_config timer tim s
  rw [hc.1, hc.2, rebuildChain_eq]
  refine ⟨linkFrom_active_chain timer _ s hd (presentOverflow_ne_zero _) fuel
    ((presentOverflow_length _).trans hf), ?_⟩
  have hs := linkFrom_slots timer ChainLoc.active (presentOverflow (s.timerConfig timer)) s timer
  unfold presentOverflow overflowSlots at hs ⊢
  rw [hs.1, hs.2.1]

theorem chain_rebuild_traversal_witness :
    chainList (timerChConfig_UpdateOverflow 0 1024 exampleChainState).next 5
        ((timerChConfig_UpdateOverflow 0 1024 exampleChainState).timerConfig 0).overflowCallbackActive
      = some [7, 3, 5] :=
  (chain_rebuild_traversal 0 1024 exampleChainState (by decide) 5 (le_refl 5)).1

/-! ## Bit lemmas -/

theorem and_two_pow_ne_zero (x k : Nat) : x &&& 2 ^ k ≠ 0 ↔ x.testBit k = true := by
  constructor
  · intro h
    by_contra hb
    apply h
    apply Nat.eq_of_testBit_eq
    intro i
    rw [Nat.testBit_and, Nat.testBit_two_pow]
    by_cases hik : k = i
    · subst hik
      simp [hb]
    · simp [hik]
  · intro hb h
    have := congrArg (fun y => Nat.testBit y k) h
    simp [Nat.testBit_and, Nat.testBit_two_pow, hb] at this

theorem testBit_all_ones (c : Nat) (h : c < 32) : Nat.testBit 0xFFFFFFFF c = true := by
  have h1 : (0xFFFFFFFF : Nat) = 2 ^ 32 - 1 := by norm_num
  rw [h1, Nat.testBit_two_pow_sub_one]
  simpa using h

theorem testBit_and_not (x m c : Nat) (h : c < 32) :
    (x &&& (0xFFFFFFFF ^^^ m)).testBit c = (x.testBit c && !m.testBit c) := by
  rw [Nat.testBit_and, Nat.testBit_xor, testBit_all_ones c h]
  simp

theorem testBit_or_mod (x m c : Nat) (h : c < 32) :
    ((x ||| m) % 2 ^ 32).testBit c = (x.testBit c || m.testBit c) := by
  rw [Nat.testBit_mod_two_pow, Nat.testBit_or]
  simp [h]

/-! ## The interrupt enable register -/

theorem interrupt_enable_fields (tim mask : Nat) (en : Bool) (s : State) :
    (tmr_interrupt_enable tim mask en s).timerConfig = s.timerConfig
    ∧ (tmr_interrupt_enable tim mask en s).next = s.next
    ∧ (tmr_interrupt_enable tim mask en s).timerInfo = s.timerInfo
    ∧ (tmr_interrupt_enable tim mask en s).timerChannelInfo = s.timerChannelInfo := by
  simp [tmr_interrupt_enable, logEvent]

theorem interrupt_enable_iden (tim mask : Nat) (en : Bool) (s : State) (c : Nat) (h : c < 32) :
    ((tmr_interrupt_enable tim mask en s).regs tim).iden.testBit c
      = if en then ((s.regs tim).iden.testBit c || mask.testBit c)
        else ((s.regs tim).iden.testBit c && !mask.testBit c) := by
  cases en
  · simp [tmr_interrupt_enable, logEvent, setAt, testBit_and_not _ _ _ h]
  · have h1 := testBit_or_mod (s.regs tim).iden mask c h
    simpa [tmr_interrupt_enable, logEvent, setAt] using h1

theorem presentOverflow_head (c : timerConfig_t) :
    (presentOverflow c).headD 0 ≠ 0 ↔
      (c.updateCallback ≠ 0 ∨ ∃ i, i < CC_CHANNELS_PER_TIMER ∧ c.overflowCallback i ≠ 0) := by
  constructor
  · intro h
    have hne : presentOverflow c ≠ [] := by
      intro h0
      simp [h0] at h
    obtain ⟨x, hx⟩ := List.exists_mem_of_ne_nil _ hne
    have hx0 := presentOverflow_ne_zero c x hx
    have hm := (List.mem_filter.mp hx).1
    simp only [overflowSlots, List.mem_cons, List.mem_singleton, List.not_mem_nil, or_false] at hm
    rcases hm with h1 | h1 | h1 | h1 | h1
    · exact Or.inl (h1 ▸ hx0)
    · exact Or.inr ⟨0, by decide, h1 ▸ hx0⟩
    · exact Or.inr ⟨1, by decide, h1 ▸ hx0⟩
    · exact Or.inr ⟨2, by decide, h1 ▸ hx0⟩
    · exact Or.inr ⟨3, by decide, h1 ▸ hx0⟩
  · intro h
    have hmem : ∃ x, x ∈ presentOverflow c := by
      rcases h with h | ⟨i, hi, h⟩
      · exact ⟨c.updateCallback, List.mem_filter.mpr ⟨by simp [overflowSlots], by simpa using h⟩⟩
      · refine ⟨c.overflowCallback i, List.mem_filter.mpr ⟨?_, by simpa using h⟩⟩
        have hi4 : i < 4 := hi
        interval_cases i <;> simp [overflowSlots]
    obtain ⟨x, hx⟩ := hmem
    cases hl : presentOverflow c with
    | nil => simp [hl] at hx
    | cons a l =>
      have := presentOverflow_ne_zero c a (by simp [hl])
      simpa using this

theorem updateOverflow_matches (timer tim : Nat) (s : State) :
    overflowEnableMatches timer tim (timerChConfig_UpdateOverflow timer tim s) := by
  have hc := updateOverflow_config timer tim s
  have hs := linkFrom_slots timer ChainLoc.active (presentOverflow (s.timerConfig timer)) s timer
  have hh := linkFrom_active_head timer (presentOverflow (s.timerConfig timer)) s
  have hact : ((timerChConfig_UpdateOverflow timer tim s).timerConfig timer).overflowCallbackActive
      = (presentOverflow (s.timerConfig timer)).headD 0 := by
    rw [hc.1, rebuildChain_eq, hh]
  have hr : ((rebuildChain timer s).timerConfig timer).overflowCallbackActive
      = (presentOverflow (s.timerConfig timer)).headD 0 := by
    rw [rebuildChain_eq, hh]
  have hiden : ((timerChConfig_UpdateOverflow timer tim s).regs tim).iden.testBit 0
      = decide ((presentOverflow (s.timerConfig timer)).headD 0 ≠ 0) := by
    unfold timerChConfig_UpdateOverflow
    simp only []
    rw [interrupt_enable_iden _ _ _ _ 0 (by decide), hr]
    by_cases h : (presentOverflow (s.timerConfig timer)).headD 0 = 0
    · simp [h, TMR_OVF_INT]
    · simp [h, TMR_OVF_INT]
  constructor
  · have hp : TMR_OVF_INT = 2 ^ 0 := rfl
    rw [hp, and_two_pow_ne_zero, hiden, hact]
    simp
  · rw [hact, presentOverflow_head, hc.1, rebuildChain_eq, hs.1, hs.2.1]

/-- C2. After every call of `timerChConfigCallbacks` that returns, and after
every call of `timerConfigUpdateCallback`, on a resolvable timer, the overflow
interrupt enable bit `TMR_OVF_INT` of the device is set if and only if the
active overflow chain is non-empty, which holds if and only if the update
callback or one of the four per-channel overflow slots is non-empty; the call
of `timerChConfigCallbacks` returns for every channel number from 1 to 15. -/
theorem overflow_enable_iff_chain (T : Target) (timHw : timerHardware_t)
    (edgeCallback overflowCallback updateCallback : Ptr) (s : State)
    (hres : lookupTimerIndex T timHw.tim < USED_TIMER_COUNT T) :
    (∀ s1, timerChConfigCallbacks T timHw edgeCallback overflowCallback s = Except.ok s1 →
        overflowEnableMatches (lookupTimerIndex T timHw.tim) timHw.tim s1)
    ∧ (1 ≤ timHw.channel → timHw.channel ≤ 15 →
        ∃ s1, timerChConfigCallbacks T timHw edgeCallback overflowCallback s = Except.ok s1)
    ∧ overflowEnableMatches (lookupTimerIndex T timHw.tim) timHw.tim
        (timerConfigUpdateCallback T timHw.tim updateCallback s) := by
  have hnot : ¬ lookupTimerIndex T timHw.tim ≥ USED_TIMER_COUNT T := by omega
  refine ⟨?_, ?_, ?_⟩
  · intro s1 h
    unfold timerChConfigCallbacks at h
    simp only [] at h
    rw [if_neg hnot] at h
    split at h
    · cases h
    · split at h
      · cases h
      · injection h with h
        subst h
        exact updateOverflow_matches _ _ _
  · intro h1 h15
    have hidx : ¬ CC_CHANNELS_PER_TIMER ≤ lookupChannelIndex timHw.channel := by
      have : timHw.channel >>> 2 < 4 := by
        rw [Nat.shiftRight_eq_div_pow]
        omega
      simpa [CC_CHANNELS_PER_TIMER, lookupChannelIndex] using this
    have hch : ¬ (timHw.channel = 0 ∨ 32 < timHw.channel) := by omega
    unfold timerChConfigCallbacks
    simp only []
    rw [if_neg hnot, if_neg hch, if_neg hidx]
    exact ⟨_, rfl⟩
  · unfold timerConfigUpdateCallback
    simp only []
    rw [if_neg hnot]
    exact updateOverflow_matches _ _ _

theorem overflow_enable_iff_chain_witness :
    overflowEnableMatches 1 0x40000C00
      (timerConfigUpdateCallback exampleTarget 0x40000C00 9 exampleInitState) :=
  (overflow_enable_iff_chain exampleTarget { tim := 0x40000C00, channel := 1 } 0 0 9
    exampleInitState (by decide)).2.2

/-! ## Traces of the chain builder -/

theorem storeChain_trace (timer : Nat) (loc : ChainLoc) (v : Ptr) (s : State) :
    (storeChain timer loc v s).trace = s.trace ++ [chainEvent timer loc v] := by
  cases loc <;> simp [storeChain, storeActive, storeNext, logEvent, chainEvent]

theorem linkFrom_trace (timer : Nat) (loc : ChainLoc) (l : List Ptr) (s : State) :
    (linkFrom timer loc l s).trace = s.trace ++ linkEvents timer loc l := by
  induction l generalizing loc s with
  | nil => simp [linkFrom, linkEvents, storeChain_trace]
  | cons a l ih => simp [linkFrom, linkEvents, ih, storeChain_trace]

theorem linkEvents_kind (timer : Nat) (loc : ChainLoc) (l : List Ptr) :
    ∀ e ∈ linkEvents timer loc l, isEdgeStore e = false ∧ ∀ m, isEnableOf m e = false := by
  induction l generalizing loc with
  | nil =>
    intro e he
    cases loc <;> simp [linkEvents, chainEvent] at he <;> subst he <;> simp [isEdgeStore, isEnableOf]
  | cons a l ih =>
    intro e he
    simp only [linkEvents, List.mem_cons] at he
    rcases he with he | he
    · cases loc <;> simp [chainEvent] at he <;> subst he <;> simp [isEdgeStore, isEnableOf]
    · exact ih _ e he

theorem updateOverflow_trace (timer tim : Nat) (s : State) :
    (timerChConfig_UpdateOverflow timer tim s).trace
      = s.trace ++ (linkEvents timer ChainLoc.active (presentOverflow (s.timerConfig timer))
          ++ [Event.interrupt_enable tim TMR_OVF_INT
                (decide ((presentOverflow (s.timerConfig timer)).headD 0 ≠ 0))]) := by
  have hh := linkFrom_active_head timer (presentOverflow (s.timerConfig timer)) s
  unfold timerChConfig_UpdateOverflow
  simp only [tmr_interrupt_enable, logEvent]
  rw [rebuildChain_eq, linkFrom_trace, hh, List.append_assoc]

theorem updateOverflow_regs (timer tim : Nat) (s : State) (c : Nat) (hc : c < 32) (hc0 : c ≠ 0) :
    ((timerChConfig_UpdateOverflow timer tim s).regs tim).iden.testBit c
      = (s.regs tim).iden.testBit c := by
  unfold timerChConfig_UpdateOverflow
  simp only []
  rw [interrupt_enable_iden _ _ _ _ c hc, rebuildChain_eq, linkFrom_regs]
  have h1 : Nat.testBit TMR_OVF_INT c = false := by
    have hp : TMR_OVF_INT = 2 ^ 0 := rfl
    rw [hp, Nat.testBit_two_pow]
    simpa using fun h => hc0 h.symm
  rw [h1]
  split <;> simp

theorem TIM_IT_CCx_eq (c : Nat) (h1 : 1 ≤ c) (h4 : c ≤ 4) : TIM_IT_CCx c = 2 ^ c := by
  interval_cases c <;> rfl

theorem storeSlots_regs (timer ch : Nat) (cb : Ptr) (s : State) :
    (storeEdge timer ch cb s).regs = s.regs ∧ (storeOverflow timer ch cb s).regs = s.regs
    ∧ (storeUpdate timer cb s).regs = s.regs := by
  simp [storeEdge, storeOverflow, storeUpdate, logEvent]

theorem configCallbacks_ok (T : Target) (timHw : timerHardware_t) (cb ovf : Ptr) (s : State)
    (hres : lookupTimerIndex T timHw.tim < USED_TIMER_COUNT T)
    (h1 : 1 ≤ timHw.channel) (h15 : timHw.channel ≤ 15) :
    timerChConfigCallbacks T timHw cb ovf s
      = Except.ok (timerChConfigCallbacksBody (lookupTimerIndex T timHw.tim) timHw cb ovf s) := by
  have hnot : ¬ lookupTimerIndex T timHw.tim ≥ USED_TIMER_COUNT T := by omega
  have hidx : ¬ CC_CHANNELS_PER_TIMER ≤ lookupChannelIndex timHw.channel := by
    have : timHw.channel >>> 2 < 4 := by
      rw [Nat.shiftRight_eq_div_pow]
      omega
    simpa [CC_CHANNELS_PER_TIMER, lookupChannelIndex] using this
  have hch : ¬ (timHw.channel = 0 ∨ 32 < timHw.channel) := by omega
  unfold timerChConfigCallbacks
  simp only []
  rw [if_neg hnot, if_neg hch, if_neg hidx]

theorem configSlots_trace (timer : Nat) (timHw : timerHardware_t) (cb ovf : Ptr) (s : State) :
    (timerChConfigCallbacksSlots timer timHw cb ovf s).trace = s.trace ++
      (if cb = 0 then
        [Event.interrupt_enable timHw.tim (TIM_IT_CCx timHw.channel) false,
          Event.storeEdge timer (lookupChannelIndex timHw.channel) cb,
          Event.storeOverflow timer (lookupChannelIndex timHw.channel) ovf]
      else
        [Event.storeEdge timer (lookupChannelIndex timHw.channel) cb,
          Event.storeOverflow timer (lookupChannelIndex timHw.channel) ovf,
          Event.interrupt_enable timHw.tim (TIM_IT_CCx timHw.channel) true]) := by
  unfold timerChConfigCallbacksSlots
  by_cases hcb : cb = 0
  · simp [hcb, storeOverflow, storeEdge, tmr_interrupt_enable, logEvent]
  · simp [hcb, storeOverflow, storeEdge, tmr_interrupt_enable, logEvent]

theorem configSlots_iden (timer : Nat) (timHw : timerHardware_t) (cb ovf : Ptr) (s : State)
    (c : Nat) (hc : c < 32) :
    ((timerChConfigCallbacksSlots timer timHw cb ovf s).regs timHw.tim).iden.testBit c
      = if cb = 0 then ((s.regs timHw.tim).iden.testBit c && !(TIM_IT_CCx timHw.channel).testBit c)
        else ((s.regs timHw.tim).iden.testBit c || (TIM_IT_CCx timHw.channel).testBit c) := by
  unfold timerChConfigCallbacksSlots
  by_cases hcb : cb = 0
  · simp only [hcb, if_true, ne_eq, not_true_eq_false, if_false]
    rw [(storeSlots_regs _ _ _ _).2.1, (storeSlots_regs _ _ _ _).1,
      interrupt_enable_iden _ _ _ _ _ hc]
    simp
  · simp only [hcb, if_false, ne_eq, not_false_eq_true, if_true]
    rw [interrupt_enable_iden _ _ _ _ _ hc, (storeSlots_regs _ _ _ _).2.1,
      (storeSlots_regs _ _ _ _).1]
    simp

/-- C3. For a resolvable timer, a channel number `c` from 1 to 4 and an edge
callback `cb` (possibly null), `timerChConfigCallbacks` returns; afterwards the
compare interrupt enable bit `TIM_IT_CCx(c)` is set if and only if `cb` is not
null; and the stores of the call begin with: the disable of the compare
interrupt, then the store of the edge slot, when `cb` is null; the store of the
edge slot and later the enable of the compare interrupt, when `cb` is present.
No later store of the call touches an edge slot or that enable bit. -/
theorem edge_callback_enable_order (T : Target) (timHw : timerHardware_t) (cb ovf : Ptr) (s : State)
    (hres : lookupTimerIndex T timHw.tim < USED_TIMER_COUNT T)
    (h1 : 1 ≤ timHw.channel) (h4 : timHw.channel ≤ 4) :
    ∃ s1 rest, timerChConfigCallbacks T timHw cb ovf s = Except.ok s1
      ∧ ((s1.regs timHw.tim).iden &&& TIM_IT_CCx timHw.channel ≠ 0 ↔ cb ≠ 0)
      ∧ s1.trace = s.trace ++
          (if cb = 0 then
            [Event.interrupt_enable timHw.tim (TIM_IT_CCx timHw.channel) false,
              Event.storeEdge (lookupTimerIndex T timHw.tim) (lookupChannelIndex timHw.channel) cb,
              Event.storeOverflow (lookupTimerIndex T timHw.tim) (lookupChannelIndex timHw.channel) ovf]
          else
            [Event.storeEdge (lookupTimerIndex T timHw.tim) (lookupChannelIndex timHw.channel) cb,
              Event.storeOverflow (lookupTimerIndex T timHw.tim) (lookupChannelIndex timHw.channel) ovf,
              Event.interrupt_enable timHw.tim (TIM_IT_CCx timHw.channel) true]) ++ rest
      ∧ ∀ e ∈ rest, isEdgeStore e = false ∧ isEnableOf (TIM_IT_CCx timHw.channel) e = false := by
  have hc32 : timHw.channel < 32 := by omega
  have hc0 : timHw.channel ≠ 0 := by omega
  have hpow := TIM_IT_CCx_eq timHw.channel h1 h4
  have hbit : Nat.testBit (TIM_IT_CCx timHw.channel) timHw.channel = true := by
    rw [hpow, Nat.testBit_two_pow]
    simp
  have hne : TMR_OVF_INT ≠ TIM_IT_CCx timHw.channel := by
    rw [hpow]
    intro h
    have h2 : (2 : Nat) ^ 1 ≤ 2 ^ timHw.channel := Nat.pow_le_pow_right (by decide) h1
    rw [← h] at h2
    exact absurd h2 (by decide)
  refine ⟨_, linkEvents (lookupTimerIndex T timHw.tim) ChainLoc.active
      (presentOverflow ((timerChConfigCallbacksSlots (lookupTimerIndex T timHw.tim) timHw cb ovf
        s).timerConfig (lookupTimerIndex T timHw.tim)))
      ++ [Event.interrupt_enable timHw.tim TMR_OVF_INT
            (decide ((presentOverflow ((timerChConfigCallbacksSlots (lookupTimerIndex T timHw.tim)
              timHw cb ovf s).timerConfig (lookupTimerIndex T timHw.tim))).headD 0 ≠ 0))],
    configCallbacks_ok T timHw cb ovf s hres h1 (by omega), ?_, ?_, ?_⟩
  · rw [hpow, and_two_pow_ne_zero]
    unfold timerChConfigCallbacksBody
    rw [updateOverflow_regs _ _ _ _ hc32 hc0, configSlots_iden _ _ _ _ _ _ hc32]
    by_cases hcb : cb = 0
    · simp [hcb, hbit]
    · simp [hcb, hbit]
  · unfold timerChConfigCallbacksBody
    rw [updateOverflow_trace, configSlots_trace, List.append_assoc]
  · intro e he
    rcases List.mem_append.mp he with he | he
    · exact ⟨(linkEvents_kind _ _ _ e he).1, (linkEvents_kind _ _ _ e he).2 _⟩
    · simp only [List.mem_singleton] at he
      subst he
      simp [isEdgeStore, isEnableOf, hne]

theorem edge_callback_enable_order_witness :
    ∃ s1 rest, timerChConfigCallbacks exampleTarget { tim := 0x40000C00, channel := 2 } 0 0
        exampleInitState = Except.ok s1
      ∧ ((s1.regs 0x40000C00).iden &&& TIM_IT_CCx 2 ≠ 0 ↔ (0 : Ptr) ≠ 0)
      ∧ s1.trace = exampleInitState.trace ++
          (if (0 : Ptr) = 0 then
            [Event.interrupt_enable 0x40000C00 (TIM_IT_CCx 2) false,
              Event.storeEdge (lookupTimerIndex exampleTarget 0x40000C00) (lookupChannelIndex 2) 0,
              Event.storeOverflow (lookupTimerIndex exampleTarget 0x40000C00) (lookupChannelIndex 2) 0]
          else
            [Event.storeEdge (lookupTimerIndex exampleTarget 0x40000C00) (lookupChannelIndex 2) 0,
              Event.storeOverflow (lookupTimerIndex exampleTarget 0x40000C00) (lookupChannelIndex 2) 0,
              Event.interrupt_enable 0x40000C00 (TIM_IT_CCx 2) true]) ++ rest
      ∧ ∀ e ∈ rest, isEdgeStore e = false ∧ isEnableOf (TIM_IT_CCx 2) e = false :=
  edge_callback_enable_order exampleTarget { tim := 0x40000C00, channel := 2 } 0 0
    exampleInitState (by decide) (by decide) (by decide)

/-- C4, evaluation of the code at the failing input. After `timerInit`, the
call `timerChConfigCallbacks` for channel 2 of timer 3 with the edge callback
record 21 enables the channel-2 compare interrupt, stores the record in
`edgeCallback[2 >> 2]`, that is slot 0, and leaves `edgeCallback[1]`, the slot
the dispatcher reads for a channel-2 compare event, null; the dispatcher then
dereferences the null slot when that event is pending. -/
theorem compare_enabled_with_empty_slot :
    ∃ s1, timerChConfigCallbacks exampleTarget { tim := 0x40000C00, channel := 2 } 21 0
        exampleInitState = Except.ok s1
      ∧ (s1.regs 0x40000C00).iden &&& TIM_IT_CCx 2 ≠ 0
      ∧ (s1.timerConfig 1).edgeCallback 1 = 0
      ∧ (s1.timerConfig 1).edgeCallback 0 = 21
      ∧ ∀ fuel, timCCxHandler (fuel + 1) 0x40000C00 1 (raiseFlags 0x40000C00 TMR_C2_FLAG s1)
          = Except.error Fault.nullDeref :=
  ⟨_, rfl, by decide, by decide, by decide, fun _ => rfl⟩

/-! ## Channel allocation -/

theorem escalation_timerInfo (T : Target) (tim : Nat) (irq : Nat) (p : Int) (timer : Nat) (s : State) :
    (storePriority timer (p % 256).toNat
      (nvic_irq_enable irq (T.NVIC_PRIORITY_BASE p) (T.NVIC_PRIORITY_SUB p)
        (tmr_counter_enable tim (configTimeBase T tim 0 1 s)))).timerInfo
      = setAt s.timerInfo timer (p % 256).toNat := by
  simp [storePriority, nvic_irq_enable, tmr_counter_enable, configTimeBase, tmr_cnt_dir_set,
    tmr_clock_source_div_set, tmr_base_init, logEvent]

theorem timerChInit_timerInfo (T : Target) (channel type : Nat) (irqPriority : Int) (irq : Nat)
    (s : State) (t : Nat) :
    (timerChInit T channel type irqPriority irq s).timerInfo t = s.timerInfo t
    ∨ (irqPriority < (s.timerInfo t : Int)
        ∧ (timerChInit T channel type irqPriority irq s).timerInfo t = (irqPriority % 256).toNat) := by
  unfold timerChInit
  split
  · exact Or.inl rfl
  · split
    · exact Or.inl rfl
    · rename_i timHw _
      simp only []
      split
      · exact Or.inl rfl
      · split
        · rename_i hlt
          rw [escalation_timerInfo]
          by_cases ht : t = lookupTimerIndex T timHw.tim
          · subst ht
            right
            refine ⟨by simpa [storeType, logEvent] using hlt, by simp [setAt]⟩
          · left
            simp [setAt, ht, storeType, logEvent]
        · exact Or.inl rfl

theorem timerChInit_priority (T : Target) (c : ChInitCall) (s : State) (timer : Nat)
    (hw : timerHardware_t) (hch : c.channel < TIMER_CHANNEL_COUNT T)
    (hget : T.TIMER_HARDWARE.get? c.channel = some hw)
    (hl : lookupTimerIndex T hw.tim = timer) (hres : timer < USED_TIMER_COUNT T) :
    (timerChInit T c.channel c.type c.irqPriority c.irq s).timerInfo timer
      = if c.irqPriority < (s.timerInfo timer : Int) then (c.irqPriority % 256).toNat
        else s.timerInfo timer := by
  have h1 : ¬ c.channel ≥ TIMER_CHANNEL_COUNT T := by omega
  have h2 : ¬ lookupTimerIndex T hw.tim ≥ USED_TIMER_COUNT T := by omega
  unfold timerChInit
  rw [if_neg h1, hget]
  simp only []
  rw [if_neg h2]
  have h3 : (storeType c.channel c.type s).timerInfo = s.timerInfo := by
    simp [storeType, logEvent]
  rw [h3, hl]
  split
  · rw [escalation_timerInfo, h3]
    simp [setAt]
  · rw [h3]

theorem runChInit_priority (T : Target) (timer : Nat) (hres : timer < USED_TIMER_COUNT T)
    (calls : List ChInitCall) (s : State)
    (hv : ∀ c ∈ calls, validOn T timer c ∧ 0 ≤ c.irqPriority ∧ c.irqPriority ≤ 255) :
    (runChInit T calls s).timerInfo timer ≤ s.timerInfo timer
    ∧ (∀ c ∈ calls, ((runChInit T calls s).timerInfo timer : Int) ≤ c.irqPriority)
    ∧ ((runChInit T calls s).timerInfo timer = s.timerInfo timer
        ∨ ∃ c ∈ calls, ((runChInit T calls s).timerInfo timer : Int) = c.irqPriority) := by
  induction calls generalizing s with
  | nil => simp [runChInit]
  | cons c cs ih =>
    have hc := hv c (List.mem_cons_self c cs)
    obtain ⟨⟨hch, hw, hget, hl⟩, hp0, hp255⟩ := hc
    have h1 := timerChInit_priority T c s timer hw hch hget hl hres
    have hrec := ih (timerChInit T c.channel c.type c.irqPriority c.irq s)
      (fun x hx => hv x (List.mem_cons_of_mem c hx))
    have hrun : runChInit T (c :: cs) s
        = runChInit T cs (timerChInit T c.channel c.type c.irqPriority c.irq s) := rfl
    rw [hrun]
    obtain ⟨ha, hb, hd⟩ := hrec
    have hmod : ((c.irqPriority % 256).toNat : Int) = c.irqPriority := by
      rw [Int.toNat_of_nonneg (Int.emod_nonneg _ (by decide))]
      exact Int.emod_eq_of_lt hp0 (by omega)
    have hq : ((timerChInit T c.channel c.type c.irqPriority c.irq s).timerInfo timer : Int)
          ≤ c.irqPriority
        ∧ (timerChInit T c.channel c.type c.irqPriority c.irq s).timerInfo timer ≤ s.timerInfo timer
        ∧ ((timerChInit T c.channel c.type c.irqPriority c.irq s).timerInfo timer = s.timerInfo timer
          ∨ ((timerChInit T c.channel c.type c.irqPriority c.irq s).timerInfo timer : Int)
              = c.irqPriority) := by
      rw [h1]
      split
      · rename_i hlt
        rw [hmod]
        refine ⟨le_refl _, ?_, Or.inr rfl⟩
        have : ((c.irqPriority % 256).toNat : Int) < (s.timerInfo timer : Int) := by
          rw [hmod]
          exact hlt
        omega
      · rename_i hge
        exact ⟨by omega, le_refl _, Or.inl rfl⟩
    refine ⟨ha.trans hq.2.1, ?_, ?_⟩
    · intro x hx
      rcases List.mem_cons.mp hx with hx | hx
      · subst hx
        have : ((runChInit T cs (timerChInit T x.channel x.type x.irqPriority x.irq s)).timerInfo timer
            : Int) ≤ ((timerChInit T x.channel x.type x.irqPriority x.irq s).timerInfo timer : Int) := by
          exact_mod_cast ha
        exact this.trans hq.1
      · exact hb x hx
    · rcases hd with hd | ⟨x, hx, hd⟩
      · rcases hq.2.2 with h2 | h2
        · left
          rw [hd, h2]
        · right
          exact ⟨c, List.mem_cons_self c cs, by rw [hd]; exact h2⟩
      · right
        exact ⟨x, List.mem_cons_of_mem c hx, hd⟩

theorem timerInit_timerInfo (T : Target) (s : State) (timer : Nat) (h : timer < USED_TIMER_COUNT T) :
    (timerInit T s).timerInfo timer = 255 := by
  simp [timerInit, logEvent, h]

theorem runChInit_from_init (T : Target) (timer : Nat) (hres : timer < USED_TIMER_COUNT T)
    (calls : List ChInitCall) (hne : calls ≠ []) (s0 : State)
    (hv : ∀ c ∈ calls, validOn T timer c ∧ 0 ≤ c.irqPriority ∧ c.irqPriority ≤ 255) :
    (∃ c ∈ calls, ((runChInit T calls (timerInit T s0)).timerInfo timer : Int) = c.irqPriority)
    ∧ (∀ c ∈ calls, ((runChInit T calls (timerInit T s0)).timerInfo timer : Int) ≤ c.irqPriority) := by
  obtain ⟨ha, hb, hd⟩ := runChInit_priority T timer hres calls (timerInit T s0) hv
  refine ⟨?_, hb⟩
  rcases hd with hd | hd
  · obtain ⟨c, hc⟩ := List.exists_mem_of_ne_nil calls hne
    refine ⟨c, hc, ?_⟩
    have h1 := hb c hc
    have h2 := (hv c hc).2.2
    rw [hd, timerInit_timerInfo T s0 timer hres] at h1 ⊢
    omega
  · exact hd

/-- C5, amended. For every non-empty sequence of `timerChInit` calls on valid
channels of one resolvable timer, started from the state left by `timerInit`,
with requested priorities in the range 0 to 255 of the `uint8_t` priority
field, the committed priority after the sequence is one of the requested
priorities and is numerically less than or equal to each of them, and every
permutation of the calls ends with the same committed priority. -/
theorem committed_priority_most_urgent (T : Target) (timer : Nat)
    (hres : timer < USED_TIMER_COUNT T) (calls : List ChInitCall) (hne : calls ≠ []) (s0 : State)
    (hv : ∀ c ∈ calls, validOn T timer c ∧ 0 ≤ c.irqPriority ∧ c.irqPriority ≤ 255) :
    (∃ c ∈ calls, ((runChInit T calls (timerInit T s0)).timerInfo timer : Int) = c.irqPriority)
    ∧ (∀ c ∈ calls, ((runChInit T calls (timerInit T s0)).timerInfo timer : Int) ≤ c.irqPriority)
    ∧ ∀ calls2, calls2.Perm calls →
        (runChInit T calls2 (timerInit T s0)).timerInfo timer
          = (runChInit T calls (timerInit T s0)).timerInfo timer := by
  have h1 := runChInit_from_init T timer hres calls hne s0 hv
  refine ⟨h1.1, h1.2, ?_⟩
  intro calls2 hperm
  have hne2 : calls2 ≠ [] := by
    intro h
    rw [h] at hperm
    exact hne (List.Perm.nil_eq hperm).symm
  have hv2 : ∀ c ∈ calls2, validOn T timer c ∧ 0 ≤ c.irqPriority ∧ c.irqPriority ≤ 255 :=
    fun c hc => hv c (hperm.mem_iff.mp hc)
  have h2 := runChInit_from_init T timer hres calls2 hne2 s0 hv2
  obtain ⟨c1, hc1, e1⟩ := h1.1
  obtain ⟨c2, hc2, e2⟩ := h2.1
  have le1 := h1.2 c2 (hperm.mem_iff.mp hc2)
  have le2 := h2.2 c1 (hperm.mem_iff.mpr hc1)
  omega

theorem committed_priority_most_urgent_witness :
    (runChInit exampleTarget
        [{ channel := 0, type := 1, irqPriority := 5, irq := 29 },
          { channel := 1, type := 1, irqPriority := 2, irq := 29 }]
        (timerInit exampleTarget resetState)).timerInfo 1 = 2 := by
  have h := committed_priority_most_urgent exampleTarget 1 (by decide)
    [{ channel := 0, type := 1, irqPriority := 5, irq := 29 },
      { channel := 1, type := 1, irqPriority := 2, irq := 29 }] (by simp) resetState
    (by
      intro c hc
      simp only [List.mem_cons, List.mem_singleton, List.not_mem_nil, or_false] at hc
      rcases hc with hc | hc <;> subst hc
      · exact ⟨⟨by decide, _, rfl, by decide⟩, by decide, by decide⟩
      · exact ⟨⟨by decide, _, rfl, by decide⟩, by decide, by decide⟩)
  have h2 := h.2.1 { channel := 1, type := 1, irqPriority := 2, irq := 29 } (by simp)
  obtain ⟨c, hc, e⟩ := h.1
  simp only [List.mem_cons, List.mem_singleton, List.not_mem_nil, or_false] at hc
  rcases hc with hc | hc <;> subst hc <;> simp only [] at e h2 <;> omega

/-- C5, counterexample. A single `timerChInit` call on channel 1 of timer 3
after `timerInit` with the requested priority 300 leaves the committed
priority at 255, and with the requested priority -1 stores 255: in both cases
the committed priority is not the requested one. -/
theorem committed_priority_counterexample :
    (runChInit exampleTarget [{ channel := 0, type := 1, irqPriority := 300, irq := 29 }]
        (timerInit exampleTarget resetState)).timerInfo 1 = 255
    ∧ (255 : Int) ≠ 300
    ∧ (runChInit exampleTarget [{ channel := 0, type := 1, irqPriority := -1, irq := 29 }]
        (timerInit exampleTarget resetState)).timerInfo 1 = 255
    ∧ (255 : Int) ≠ -1 := by
  refine ⟨?_, ?_, ?_, ?_⟩ <;> decide

/-- C6, amended. For every state and every `timerChInit` call whose
`irqPriority` is not negative (any channel reference, consumer type and irq),
the committed priority of every timer after the call is numerically less than
or equal to its committed priority before the call. -/
theorem committed_priority_never_relaxed (T : Target) (channel type : Nat) (irqPriority : Int)
    (irq : Nat) (s : State) (t : Nat) (h0 : 0 ≤ irqPriority) :
    (timerChInit T channel type irqPriority irq s).timerInfo t ≤ s.timerInfo t := by
  rcases timerChInit_timerInfo T channel type irqPriority irq s t with h | ⟨hlt, h⟩
  · exact le_of_eq h
  · rw [h]
    have h1 : ((irqPriority % 256).toNat : Int) = irqPriority % 256 :=
      Int.toNat_of_nonneg (Int.emod_nonneg _ (by decide))
    omega

theorem committed_priority_never_relaxed_witness :
    (timerChInit exampleTarget 1 1 2 29 (timerChInit exampleTarget 0 1 5 29 exampleInitState)).timerInfo 1
      ≤ (timerChInit exampleTarget 0 1 5 29 exampleInitState).timerInfo 1 :=
  committed_priority_never_relaxed exampleTarget 1 1 2 29
    (timerChInit exampleTarget 0 1 5 29 exampleInitState) 1 (by decide)

/-- C6, counterexample. Timer 3 has the committed priority 5; a `timerChInit`
call with `irqPriority = -1` passes the comparison `-1 < 5` and stores -1
truncated to `uint8_t`, so the committed priority becomes 255, which is
numerically greater than 5. -/
theorem committed_priority_relaxed_counterexample :
    (timerChInit exampleTarget 0 1 5 29 exampleInitState).timerInfo 1 = 5
    ∧ (timerChInit exampleTarget 1 1 (-1) 29
        (timerChInit exampleTarget 0 1 5 29 exampleInitState)).timerInfo 1 = 255 := by
  constructor <;> decide

/-! ## Identifier compactor: lemmas -/

theorem TIM_N_eq (n : Nat) : TIM_N n = 2 ^ n := by
  simp [TIM_N, Nat.shiftLeft_eq]

theorem timerUsed_eq (T : Target) (i : Nat) : timerUsed T i = T.USED_TIMERS.testBit i := by
  unfold timerUsed
  rw [TIM_N_eq]
  by_cases h : T.USED_TIMERS.testBit i = true
  · rw [h]
    exact decide_eq_true ((and_two_pow_ne_zero _ _).mpr h)
  · have h2 : ¬ (T.USED_TIMERS &&& 2 ^ i ≠ 0) := fun hh => h ((and_two_pow_ne_zero _ _).mp hh)
    rw [decide_eq_false h2]
    simpa using h

theorem filter_range_succ (p : Nat → Bool) (n : Nat) :
    ((List.range (n + 1)).filter p).length
      = ((List.range n).filter p).length + (if p n = true then 1 else 0) := by
  rw [List.range_succ, List.filter_append, List.length_append]
  by_cases h : p n = true <;> simp [h]

theorem filter_range_mono (p : Nat → Bool) (m n : Nat) (h : m ≤ n) :
    ((List.range m).filter p).length ≤ ((List.range n).filter p).length := by
  induction n with
  | zero =>
    have : m = 0 := by omega
    subst this
    exact le_refl _
  | succ n ih =>
    rcases Nat.lt_or_ge m (n + 1) with hlt | hge
    · rw [filter_range_succ]
      exact (ih (by omega)).trans (Nat.le_add_right _ _)
    · have : m = n + 1 := by omega
      subst this
      exact le_refl _

theorem filter_range_lt (p : Nat → Bool) (m n : Nat) (h : m < n) (hp : p m = true) :
    ((List.range m).filter p).length < ((List.range n).filter p).length := by
  have h1 := filter_range_mono p (m + 1) n h
  rw [filter_range_succ, if_pos hp] at h1
  omega

theorem filter_range_onto (p : Nat → Bool) (n k : Nat) (hk : k < ((List.range n).filter p).length) :
    ∃ i, i < n ∧ p i = true ∧ ((List.range i).filter p).length = k := by
  induction n with
  | zero => simp at hk
  | succ n ih =>
    rw [filter_range_succ] at hk
    rcases Nat.lt_or_ge k ((List.range n).filter p).length with hlt | hge
    · obtain ⟨i, hi, hpi, hc⟩ := ih hlt
      exact ⟨i, by omega, hpi, hc⟩
    · by_cases hp : p n = true
      · rw [if_pos hp] at hk
        exact ⟨n, by omega, hp, by omega⟩
      · rw [if_neg hp] at hk
        omega

theorem filter_range_below (p : Nat → Bool) (i n : Nat) (h : i ≤ n) :
    (List.range n).filter (fun b => decide (b < i) && p b) = (List.range i).filter p := by
  induction n with
  | zero =>
    have : i = 0 := by omega
    subst this
    rfl
  | succ n ih =>
    rcases Nat.lt_or_ge i (n + 1) with hlt | hge
    · rw [List.range_succ, List.filter_append, ih (by omega)]
      have : ¬ n < i := by omega
      simp [this]
    · have : i = n + 1 := by omega
      subst this
      apply List.filter_congr
      intro x hx
      simp [List.mem_range.mp hx]

theorem filter_range_getD (p : Nat → Bool) (i n : Nat) (h : i < n) (hp : p i = true) :
    ((List.range n).filter p).getD ((List.range i).filter p).length 0 = i := by
  induction n with
  | zero => omega
  | succ n ih =>
    rw [List.range_succ, List.filter_append]
    rcases Nat.lt_or_ge i n with hlt | hge
    · have hlen := filter_range_lt p i n hlt hp
      rw [List.getD_append _ _ _ _ hlen]
      exact ih hlt
    · have : i = n := by omega
      subst this
      rw [List.getD_append_right _ _ _ _ (le_refl _)]
      simp [hp]

theorem BITCOUNT_below (x i : Nat) (h : i ≤ 32) :
    BITCOUNT ((TIM_N i - 1) &&& x) = ((List.range i).filter (fun b => x.testBit b)).length := by
  unfold BITCOUNT
  rw [TIM_N_eq]
  have : (fun b => ((2 ^ i - 1) &&& x).testBit b) = fun b => decide (b < i) && x.testBit b := by
    funext b
    rw [Nat.testBit_and, Nat.testBit_two_pow_sub_one]
  rw [this, filter_range_below _ i 32 h]

theorem tableIds_le (b : Nat) (h : b ∈ tableIds) : b ≤ 20 := by
  simp only [tableIds, List.mem_cons, List.mem_singleton, List.not_mem_nil, or_false] at h
  omega

theorem timerNumbers_eq (T : Target) (hmask : ∀ b, T.USED_TIMERS.testBit b = true → b ∈ tableIds) :
    timerNumbers T = (List.range 32).filter (fun b => T.USED_TIMERS.testBit b) := by
  have h1 : tableIds = (List.range 32).filter (fun b => decide (b ∈ tableIds)) := by decide
  have h2 : timerUsed T = fun b => T.USED_TIMERS.testBit b := funext (timerUsed_eq T)
  unfold timerNumbers
  rw [h2]
  conv_lhs => rw [h1]
  rw [List.filter_filter]
  apply List.filter_congr
  intro b _
  by_cases hb : T.USED_TIMERS.testBit b = true
  · simp [hb, hmask b hb]
  · simp [hb]

theorem exampleTarget_mask (b : Nat) (h : exampleTarget.USED_TIMERS.testBit b = true) :
    b ∈ tableIds := by
  have hb : b < 4 := by
    by_contra hge
    have h1 : (12 : Nat) < 2 ^ b :=
      lt_of_lt_of_le (by decide) (Nat.pow_le_pow_right (by decide) (Nat.le_of_not_lt hge))
    have h2 : exampleTarget.USED_TIMERS.testBit b = false := Nat.testBit_lt_two_pow h1
    rw [h2] at h
    exact absurd h (by decide)
  interval_cases b
  · exact absurd h (by decide)
  · exact absurd h (by decide)
  · decide
  · decide

/-- C9. For every device mask `USED_TIMERS` whose set bits are among the
identifiers the tables enumerate (1 to 17 and 20) and every identifier `id` in
the mask: `TIMER_INDEX(id)` is the number of set bits of the mask below bit
`id`; it is below `USED_TIMER_COUNT`; it is injective on the mask; every index
below `USED_TIMER_COUNT` is the index of an identifier of the mask; and
`timerGetNumberByIndex(TIMER_INDEX(id)) = id`. -/
theorem dense_index_bijection (T : Target)
    (hmask : ∀ b, T.USED_TIMERS.testBit b = true → b ∈ tableIds)
    (id : Nat) (hid : T.USED_TIMERS.testBit id = true) :
    TIMER_INDEX T id = ((List.range id).filter (fun b => T.USED_TIMERS.testBit b)).length
    ∧ TIMER_INDEX T id < USED_TIMER_COUNT T
    ∧ (∀ id2, T.USED_TIMERS.testBit id2 = true → TIMER_INDEX T id2 = TIMER_INDEX T id → id2 = id)
    ∧ (∀ k, k < USED_TIMER_COUNT T →
        ∃ id2, T.USED_TIMERS.testBit id2 = true ∧ TIMER_INDEX T id2 = k)
    ∧ timerGetNumberByIndex T (TIMER_INDEX T id) = id
    ∧ TIMER_INDEX T (timerGetNumberByIndex T (TIMER_INDEX T id)) = TIMER_INDEX T id := by
  have hle : ∀ b, T.USED_TIMERS.testBit b = true → b ≤ 20 := fun b hb => tableIds_le b (hmask b hb)
  have hidx : ∀ b, T.USED_TIMERS.testBit b = true →
      TIMER_INDEX T b = ((List.range b).filter (fun c => T.USED_TIMERS.testBit c)).length := by
    intro b hb
    exact BITCOUNT_below _ b (by have := hle b hb; omega)
  have hlt : ∀ b, T.USED_TIMERS.testBit b = true → TIMER_INDEX T b < USED_TIMER_COUNT T := by
    intro b hb
    rw [hidx b hb]
    exact filter_range_lt _ b 32 (by have := hle b hb; omega) hb
  have hget : timerGetNumberByIndex T (TIMER_INDEX T id) = id := by
    unfold timerGetNumberByIndex
    rw [if_pos (hlt id hid), timerNumbers_eq T hmask, hidx id hid]
    exact filter_range_getD _ id 32 (by have := hle id hid; omega) hid
  refine ⟨hidx id hid, hlt id hid, ?_, ?_, hget, by rw [hget]⟩
  · intro id2 hid2 heq
    rw [hidx id hid, hidx id2 hid2] at heq
    rcases Nat.lt_trichotomy id2 id with h | h | h
    · have := filter_range_lt (fun c => T.USED_TIMERS.testBit c) id2 id h hid2
      omega
    · exact h
    · have := filter_range_lt (fun c => T.USED_TIMERS.testBit c) id id2 h hid
      omega
  · intro k hk
    obtain ⟨i, _, hpi, hc⟩ := filter_range_onto (fun c => T.USED_TIMERS.testBit c) 32 k hk
    exact ⟨i, hpi, by rw [hidx i hpi, hc]⟩

theorem dense_index_bijection_witness :
    TIMER_INDEX exampleTarget 2 = 0 ∧ TIMER_INDEX exampleTarget 3 = 1
    ∧ timerGetNumberByIndex exampleTarget (TIMER_INDEX exampleTarget 3) = 3 :=
  ⟨(dense_index_bijection exampleTarget exampleTarget_mask 2 (by decide)).1.trans (by decide),
    (dense_index_bijection exampleTarget exampleTarget_mask 3 (by decide)).1.trans (by decide),
    (dense_index_bijection exampleTarget exampleTarget_mask 3 (by decide)).2.2.2.2.1⟩

/-! ## Dispatcher: lemmas -/

theorem clzFrom_top (p k : Nat) (hp : p < 2 ^ (k + 1)) (hk : p.testBit k = true) (m : Nat)
    (hm : k < m) : clzFrom m p = m - 1 - k := by
  induction m with
  | zero => omega
  | succ m ih =>
    rw [clzFrom]
    by_cases hb : p.testBit m = true
    · rw [if_pos hb]
      have : m = k := by
        by_contra hne
        have hlt : k + 1 ≤ m := by omega
        have h1 : p < 2 ^ m := lt_of_lt_of_le hp (Nat.pow_le_pow_right (by decide) hlt)
        rw [Nat.testBit_lt_two_pow h1] at hb
        exact absurd hb (by decide)
      omega
    · rw [if_neg hb]
      have hkm : k < m := by
        rcases Nat.lt_or_ge k m with h | h
        · exact h
        · have : m = k := by omega
          subst this
          exact absurd hk hb
      rw [ih hkm]
      omega

theorem builtin_clz_top (p k : Nat) (hp : p < 2 ^ (k + 1)) (hk : p.testBit k = true) (h32 : k < 32) :
    builtin_clz p = 31 - k := by
  unfold builtin_clz
  rw [clzFrom_top p k hp hk 32 h32]

theorem top_mask (k : Nat) (h32 : k < 32) : 0x80000000 >>> (31 - k) = 2 ^ k := by
  interval_cases k <;> rfl

theorem clear_top_testBit (p k i : Nat) (hp : p < 2 ^ (k + 1)) (h32 : k < 32) :
    (p &&& (0xFFFFFFFF ^^^ 2 ^ k)).testBit i = (p.testBit i && decide (i < k)) := by
  by_cases hi : i < 32
  · rw [testBit_and_not p (2 ^ k) i hi, Nat.testBit_two_pow]
    by_cases hik : i < k
    · have : k ≠ i := by omega
      simp [hik, this]
    · by_cases hek : k = i
      · simp [hek]
      · have h1 : p < 2 ^ i :=
          lt_of_lt_of_le hp (Nat.pow_le_pow_right (by decide) (by omega))
        simp [Nat.testBit_lt_two_pow h1]
  · have h1 : p < 2 ^ i := lt_of_lt_of_le hp (Nat.pow_le_pow_right (by decide) (by omega))
    rw [Nat.testBit_and, Nat.testBit_lt_two_pow h1]
    simp

theorem clear_top_lt (p k : Nat) (hp : p < 2 ^ (k + 1)) (h32 : k < 32) :
    p &&& (0xFFFFFFFF ^^^ 2 ^ k) < 2 ^ k := by
  apply Nat.lt_pow_two_of_testBit
  intro i hi
  rw [clear_top_testBit p k i hp h32]
  have : ¬ i < k := by omega
  simp [this]

theorem lt_of_testBit_false (p k : Nat) (hp : p < 2 ^ (k + 1)) (hk : p.testBit k = false) :
    p < 2 ^ k := by
  apply Nat.lt_pow_two_of_testBit
  intro i hi
  rcases Nat.eq_or_lt_of_le hi with h | h
  · rw [← h]
    exact hk
  · exact Nat.testBit_lt_two_pow (lt_of_lt_of_le hp (Nat.pow_le_pow_right (by decide) h))

theorem bitsBelow_succ (k p : Nat) :
    bitsBelow (k + 1) p = if p.testBit k = true then k :: bitsBelow k p else bitsBelow k p := by
  unfold bitsBelow
  rw [List.range_succ, List.reverse_append, List.reverse_singleton, List.singleton_append,
    List.filter_cons]

theorem bitsBelow_congr (k p q : Nat) (h : ∀ i, i < k → p.testBit i = q.testBit i) :
    bitsBelow k p = bitsBelow k q := by
  unfold bitsBelow
  apply List.filter_congr
  intro x hx
  exact h x (List.mem_range.mp (List.mem_reverse.mp hx))

theorem bitsBelow_clear_top (p k : Nat) (hp : p < 2 ^ (k + 1)) (h32 : k < 32) :
    bitsBelow k (p &&& (0xFFFFFFFF ^^^ 2 ^ k)) = bitsBelow k p := by
  apply bitsBelow_congr
  intro i hi
  rw [clear_top_testBit p k i hp h32]
  simp [hi]

theorem overflowChainLoop_ok (capture : Nat) (fuel : Nat) (cb : Ptr) (s : State) (l : List Ptr)
    (h : chainList s.next fuel cb = some l) :
    overflowChainLoop capture fuel cb s
      = Except.ok { s with trace := s.trace ++ l.map (fun c => Event.callOvr c capture) } := by
  induction fuel generalizing cb s l with
  | zero =>
    by_cases hcb : cb = 0
    · simp [chainList, hcb] at h
      subst h
      simp [overflowChainLoop, hcb]
    · simp [chainList, hcb] at h
  | succ fuel ih =>
    by_cases hcb : cb = 0
    · simp [chainList, hcb] at h
      subst h
      simp [overflowChainLoop, hcb]
    · rw [chainList, if_neg hcb] at h
      cases hrec : chainList s.next fuel (s.next cb) with
      | none => simp [hrec] at h
      | some l1 =>
        simp [hrec] at h
        subst h
        rw [overflowChainLoop, if_neg hcb, ih (s.next cb) (logEvent (Event.callOvr cb capture) s) l1
          (by simpa [logEvent] using hrec)]
        simp [logEvent]

theorem overflowCase_ok (fuel tim timer : Nat) (s : State) (chain : List Ptr)
    (h : chainList s.next fuel (s.timerConfig timer).overflowCallbackActive = some chain) :
    ∃ s1, overflowCase fuel tim timer s = Except.ok s1
      ∧ s1.trace = s.trace
          ++ ((if (s.timerConfig timer).forcedOverflowTimerValue ≠ 0 then [Event.storeForced timer 0]
              else [])
            ++ chain.map (fun cb => Event.callOvr cb (overflowCapture tim timer s)))
      ∧ s1.next = s.next ∧ s1.regs = s.regs
      ∧ (s1.timerConfig timer).forcedOverflowTimerValue = 0
      ∧ (s1.timerConfig timer).overflowCallbackActive = (s.timerConfig timer).overflowCallbackActive
      ∧ (s1.timerConfig timer).edgeCallback = (s.timerConfig timer).edgeCallback
      ∧ (s1.timerConfig timer).overflowCallback = (s.timerConfig timer).overflowCallback
      ∧ (s1.timerConfig timer).updateCallback = (s.timerConfig timer).updateCallback := by
  unfold overflowCase
  simp only []
  by_cases hf : (s.timerConfig timer).forcedOverflowTimerValue = 0
  · simp only [hf, ne_eq, not_true_eq_false, if_false]
    rw [overflowChainLoop_ok _ fuel _ s chain h]
    refine ⟨_, rfl, ?_, rfl, rfl, hf, rfl, rfl, rfl, rfl⟩
    simp [overflowCapture, hf]
  · simp only [hf, ne_eq, not_false_eq_true, if_true]
    have h1 : chainList (storeForced timer 0 s).next fuel
        ((storeForced timer 0 s).timerConfig timer).overflowCallbackActive = some chain := by
      simpa [storeForced, logEvent, setAt] using h
    rw [overflowChainLoop_ok _ fuel _ _ chain h1]
    refine ⟨_, rfl, ?_, ?_, ?_, ?_, ?_, ?_, ?_, ?_⟩ <;>
      simp [overflowCapture, hf, storeForced, logEvent, setAt]

theorem builtin_clz_flags :
    builtin_clz TMR_OVF_FLAG = 31 ∧ builtin_clz TMR_C1_FLAG = 30 ∧ builtin_clz TMR_C2_FLAG = 29
    ∧ builtin_clz TMR_C3_FLAG = 28 ∧ builtin_clz TMR_C4_FLAG = 27 := by
  decide

theorem timCCxSwitch_cases (fuel tim timer bit : Nat) (s : State) :
    timCCxSwitch fuel tim timer bit s =
      if bit = 31 then overflowCase fuel tim timer s
      else if bit = 30 then edgeCase ((s.timerConfig timer).edgeCallback 0) (s.regs tim).c1dt s
      else if bit = 29 then edgeCase ((s.timerConfig timer).edgeCallback 1) (s.regs tim).c2dt s
      else if bit = 28 then edgeCase ((s.timerConfig timer).edgeCallback 2) (s.regs tim).c3dt s
      else if bit = 27 then edgeCase ((s.timerConfig timer).edgeCallback 3) (s.regs tim).c4dt s
      else Except.ok s := by
  unfold timCCxSwitch
  rw [builtin_clz_flags.1, builtin_clz_flags.2.1, builtin_clz_flags.2.2.1,
    builtin_clz_flags.2.2.2.1, builtin_clz_flags.2.2.2.2]

theorem storeIsts_frame (tim timer mask : Nat) (s s0 : State) (h : dispatchFrame tim timer s s0) :
    dispatchFrame tim timer s (storeIsts tim mask s0)
    ∧ (storeIsts tim mask s0).trace = s0.trace ++ [Event.storeIsts tim mask]
    ∧ ((storeIsts tim mask s0).regs tim).ists = (s0.regs tim).ists &&& mask
    ∧ ((storeIsts tim mask s0).timerConfig timer).forcedOverflowTimerValue
        = (s0.timerConfig timer).forcedOverflowTimerValue := by
  obtain ⟨a1, a2, a3, a4, a5, a6, a7, a8, a9, a10, a11⟩ := h
  refine ⟨⟨?_, ?_, ?_, ?_, ?_, ?_, ?_, ?_, ?_, ?_, ?_⟩, ?_, ?_, ?_⟩ <;>
    simp [storeIsts, logEvent, setAt, *]

theorem edgeCase_ok (cb : Ptr) (capture : Nat) (s : State) (h : cb ≠ 0) :
    edgeCase cb capture s = Except.ok (logEvent (Event.callEdge cb capture) s) := by
  simp [edgeCase, h]

theorem service_step (fuel tim timer k : Nat) (s s0 : State) (chain : List Ptr) (hk : k < 32)
    (hfr : dispatchFrame tim timer s s0)
    (hforced : k = 0 → (s0.timerConfig timer).forcedOverflowTimerValue
      = (s.timerConfig timer).forcedOverflowTimerValue)
    (hchain : k = 0 →
      chainList s.next fuel (s.timerConfig timer).overflowCallbackActive = some chain)
    (hedge : ∀ j, j < 4 → k = j + 1 → (s.timerConfig timer).edgeCallback j ≠ 0) :
    ∃ s1, timCCxSwitch fuel tim timer (31 - k) (storeIsts tim (0xFFFFFFFF ^^^ 2 ^ k) s0)
        = Except.ok s1
      ∧ s1.trace = s0.trace ++ serviceEvents tim timer s chain k
      ∧ dispatchFrame tim timer s s1
      ∧ (s1.regs tim).ists = (s0.regs tim).ists &&& (0xFFFFFFFF ^^^ 2 ^ k)
      ∧ (s1.timerConfig timer).forcedOverflowTimerValue
          = if k = 0 then 0 else (s0.timerConfig timer).forcedOverflowTimerValue := by
  obtain ⟨f1, f2, f3, f4⟩ := storeIsts_frame tim timer (0xFFFFFFFF ^^^ 2 ^ k) s s0 hfr
  have g := f1
  obtain ⟨a1, a2, a3, a4, a5, a6, a7, a8, a9, a10, a11⟩ := f1
  rw [timCCxSwitch_cases]
  obtain rfl | rfl | rfl | rfl | rfl | h5 : k = 0 ∨ k = 1 ∨ k = 2 ∨ k = 3 ∨ k = 4 ∨ 5 ≤ k := by omega
  · have hc : chainList (storeIsts tim (0xFFFFFFFF ^^^ 2 ^ 0) s0).next fuel
        ((storeIsts tim (0xFFFFFFFF ^^^ 2 ^ 0) s0).timerConfig timer).overflowCallbackActive
          = some chain := by
      rw [a1, a2]
      exact hchain rfl
    obtain ⟨s1, e1, e2, e3, e4, e5, e6, e7, e8, e9⟩ := overflowCase_ok fuel tim timer _ chain hc
    have hcap : overflowCapture tim timer (storeIsts tim (0xFFFFFFFF ^^^ 2 ^ 0) s0)
        = overflowCapture tim timer s := by
      unfold overflowCapture
      rw [f4, hforced rfl, a6]
    refine ⟨s1, by simpa using e1, ?_, ?_, ?_, by simpa using e5⟩
    · rw [e2, f2, f4, hforced rfl, hcap, List.append_assoc]
      simp [serviceEvents]
    · exact ⟨e3.trans a1, e6.trans a2, e7.trans a3, e8.trans a4, e9.trans a5, by rw [e4]; exact a6,
        by rw [e4]; exact a7, by rw [e4]; exact a8, by rw [e4]; exact a9, by rw [e4]; exact a10,
        by rw [e4]; exact a11⟩
    · rw [e4]
      exact f3
  · have hne : ((storeIsts tim (0xFFFFFFFF ^^^ 2 ^ 1) s0).timerConfig timer).edgeCallback 0 ≠ 0 := by
      rw [a3]
      exact hedge 0 (by decide) rfl
    rw [if_neg (by decide), if_pos (by decide), edgeCase_ok _ _ _ hne]
    refine ⟨_, rfl, ?_, ?_, ?_, ?_⟩
    · show (storeIsts tim (0xFFFFFFFF ^^^ 2 ^ 1) s0).trace ++ [_] = _
      rw [f2, a3, a8, List.append_assoc]
      rfl
    · exact ⟨a1, a2, a3, a4, a5, a6, a7, a8, a9, a10, a11⟩
    · exact f3
    · simpa [logEvent] using f4
  · have hne : ((storeIsts tim (0xFFFFFFFF ^^^ 2 ^ 2) s0).timerConfig timer).edgeCallback 1 ≠ 0 := by
      rw [a3]
      exact hedge 1 (by decide) rfl
    rw [if_neg (by decide), if_neg (by decide), if_pos (by decide), edgeCase_ok _ _ _ hne]
    refine ⟨_, rfl, ?_, ?_, ?_, ?_⟩
    · show (storeIsts tim (0xFFFFFFFF ^^^ 2 ^ 2) s0).trace ++ [_] = _
      rw [f2, a3, a9, List.append_assoc]
      rfl
    · exact ⟨a1, a2, a3, a4, a5, a6, a7, a8, a9, a10, a11⟩
    · exact f3
    · simpa [logEvent] using f4
  · have hne : ((storeIsts tim (0xFFFFFFFF ^^^ 2 ^ 3) s0).timerConfig timer).edgeCallback 2 ≠ 0 := by
      rw [a3]
      exact hedge 2 (by decide) rfl
    rw [if_neg (by decide), if_neg (by decide), if_neg (by decide), if_pos (by decide), edgeCase_ok _ _ _ hne]
    refine ⟨_, rfl, ?_, ?_, ?_, ?_⟩
    · show (storeIsts tim (0xFFFFFFFF ^^^ 2 ^ 3) s0).trace ++ [_] = _
      rw [f2, a3, a10, List.append_assoc]
      rfl
    · exact ⟨a1, a2, a3, a4, a5, a6, a7, a8, a9, a10, a11⟩
    · exact f3
    · simpa [logEvent] using f4
  · have hne : ((storeIsts tim (0xFFFFFFFF ^^^ 2 ^ 4) s0).timerConfig timer).edgeCallback 3 ≠ 0 := by
      rw [a3]
      exact hedge 3 (by decide) rfl
    rw [if_neg (by decide), if_neg (by decide), if_neg (by decide), if_neg (by decide), if_pos (by decide), edgeCase_ok _ _ _ hne]
    refine ⟨_, rfl, ?_, ?_, ?_, ?_⟩
    · show (storeIsts tim (0xFFFFFFFF ^^^ 2 ^ 4) s0).trace ++ [_] = _
      rw [f2, a3, a11, List.append_assoc]
      rfl
    · exact ⟨a1, a2, a3, a4, a5, a6, a7, a8, a9, a10, a11⟩
    · exact f3
    · simpa [logEvent] using f4
  · have e1 : ¬ 31 - k = 31 := by omega
    have e2 : ¬ 31 - k = 30 := by omega
    have e3 : ¬ 31 - k = 29 := by omega
    have e4 : ¬ 31 - k = 28 := by omega
    have e5 : ¬ 31 - k = 27 := by omega
    have k0 : ¬ k = 0 := by omega
    have k1 : ¬ k = 1 := by omega
    have k2 : ¬ k = 2 := by omega
    have k3 : ¬ k = 3 := by omega
    have k4 : ¬ k = 4 := by omega
    rw [if_neg e1, if_neg e2, if_neg e3, if_neg e4, if_neg e5]
    refine ⟨_, rfl, ?_, g, f3, ?_⟩
    · rw [f2]
      simp [serviceEvents, k0, k1, k2, k3, k4]
    · rw [f4, if_neg k0]

theorem timCCxLoop_zero (fuel tim timer n : Nat) (s : State) :
    timCCxLoop fuel tim timer n 0 s = Except.ok s := by
  cases n <;> simp [timCCxLoop]

theorem timCCxLoop_below (fuel tim timer : Nat) (s : State) (chain : List Ptr) (k : Nat) :
    k ≤ 32 → ∀ n, k ≤ n → ∀ p, p < 2 ^ k → ∀ s0, dispatchFrame tim timer s s0 →
    (p.testBit 0 = true → (s0.timerConfig timer).forcedOverflowTimerValue
      = (s.timerConfig timer).forcedOverflowTimerValue) →
    (p.testBit 0 = true →
      chainList s.next fuel (s.timerConfig timer).overflowCallbackActive = some chain) →
    (∀ j, j < 4 → p.testBit (j + 1) = true → (s.timerConfig timer).edgeCallback j ≠ 0) →
    ∃ s1, timCCxLoop fuel tim timer n p s0 = Except.ok s1
      ∧ s1.trace = s0.trace ++ (bitsBelow k p).flatMap (serviceEvents tim timer s chain)
      ∧ dispatchFrame tim timer s s1
      ∧ (∀ i, i < 32 →
          (s1.regs tim).ists.testBit i = ((s0.regs tim).ists.testBit i && !p.testBit i))
      ∧ (s1.timerConfig timer).forcedOverflowTimerValue
          = if p.testBit 0 = true then 0 else (s0.timerConfig timer).forcedOverflowTimerValue := by
  induction k with
  | zero =>
    intro _ n _ p hp s0 hfr _ _ _
    have hp0 : p = 0 := by simpa using hp
    subst hp0
    exact ⟨s0, timCCxLoop_zero _ _ _ _ _, by simp [bitsBelow], hfr, by simp, by simp⟩
  | succ k ih =>
    intro hk32 n hn p hp s0 hfr hforced hchain hedge
    by_cases hb : p.testBit k = true
    · obtain ⟨m, rfl⟩ : ∃ m, n = m + 1 := ⟨n - 1, by omega⟩
      have hk : k < 32 := by omega
      have hp0 : p ≠ 0 := by
        intro h
        rw [h] at hb
        simp at hb
      obtain ⟨s1, e1, e2, e3, e4, e5⟩ := service_step fuel tim timer k s s0 chain hk hfr
        (fun h0 => hforced (h0 ▸ hb)) (fun h0 => hchain (h0 ▸ hb))
        (fun j hj hkj => hedge j hj (hkj ▸ hb))
      have hlt := clear_top_lt p k hp hk
      have hbit : ∀ i, (p &&& (0xFFFFFFFF ^^^ 2 ^ k)).testBit i = (p.testBit i && decide (i < k)) :=
        fun i => clear_top_testBit p k i hp hk
      obtain ⟨s2, r1, r2, r3, r4, r5⟩ := ih (by omega) m (by omega) (p &&& (0xFFFFFFFF ^^^ 2 ^ k))
        hlt s1 e3
        (by
          intro h0
          rw [hbit] at h0
          have hk0 : k ≠ 0 := by
            intro hz
            simp [hz] at h0
          rw [e5, if_neg hk0]
          exact hforced (Bool.and_eq_true _ _ ▸ h0).1)
        (by
          intro h0
          rw [hbit] at h0
          exact hchain (Bool.and_eq_true _ _ ▸ h0).1)
        (by
          intro j hj h0
          rw [hbit] at h0
          exact hedge j hj (Bool.and_eq_true _ _ ▸ h0).1)
      refine ⟨s2, ?_, ?_, r3, ?_, ?_⟩
      · rw [timCCxLoop, if_neg hp0]
        simp only []
        rw [builtin_clz_top p k hp hb hk, top_mask k hk, e1]
        exact r1
      · rw [r2, e2, bitsBelow_clear_top p k hp hk, bitsBelow_succ, if_pos hb, List.flatMap_cons,
          List.append_assoc]
      · intro i hi
        rw [r4 i hi, e4, testBit_and_not _ _ i hi, hbit, Nat.testBit_two_pow]
        by_cases hik : i < k
        · have : k ≠ i := by omega
          simp [hik, this]
        · by_cases hek : k = i
          · subst hek
            simp [hb]
          · have h1 : p < 2 ^ i :=
              lt_of_lt_of_le hp (Nat.pow_le_pow_right (by decide) (by omega))
            simp [Nat.testBit_lt_two_pow h1, hek, hik]
      · rw [r5, hbit, e5]
        by_cases hk0 : k = 0
        · subst hk0
          simp [hb]
        · have : 0 < k := by omega
          simp [hk0, this]
    · have hb2 : p.testBit k = false := by simpa using hb
      obtain ⟨s1, r1, r2, r3, r4, r5⟩ := ih (by omega) n (by omega) p
        (lt_of_testBit_false p k hp hb2) s0 hfr hforced hchain hedge
      refine ⟨s1, r1, ?_, r3, r4, r5⟩
      rw [r2, bitsBelow_succ, if_neg hb]

theorem dispatchFrame_refl (tim timer : Nat) (s : State) : dispatchFrame tim timer s s :=
  ⟨rfl, rfl, rfl, rfl, rfl, rfl, rfl, rfl, rfl, rfl, rfl⟩

theorem pendingEvents_lt (tim : Nat) (s : State) : pendingEvents tim s < 2 ^ 32 :=
  Nat.mod_lt _ (by decide)

theorem timCCxHandler_run (fuel tim timer : Nat) (s : State) (chain : List Ptr) (hfuel : 32 ≤ fuel)
    (hchain : (pendingEvents tim s).testBit 0 = true →
      chainList s.next fuel (s.timerConfig timer).overflowCallbackActive = some chain)
    (hedge : ∀ j, j < 4 → (pendingEvents tim s).testBit (j + 1) = true →
      (s.timerConfig timer).edgeCallback j ≠ 0) :
    ∃ s1, timCCxHandler fuel tim timer s = Except.ok s1
      ∧ s1.trace = s.trace
          ++ (bitsBelow 32 (pendingEvents tim s)).flatMap (serviceEvents tim timer s chain)
      ∧ dispatchFrame tim timer s s1
      ∧ (∀ i, i < 32 → (s1.regs tim).ists.testBit i
          = ((s.regs tim).ists.testBit i && !(pendingEvents tim s).testBit i))
      ∧ (s1.timerConfig timer).forcedOverflowTimerValue
          = if (pendingEvents tim s).testBit 0 = true then 0
            else (s.timerConfig timer).forcedOverflowTimerValue :=
  timCCxLoop_below fuel tim timer s chain 32 (le_refl 32) fuel hfuel (pendingEvents tim s)
    (pendingEvents_lt tim s) s (dispatchFrame_refl tim timer s) (fun _ => rfl) hchain hedge

theorem bitsBelow_mem (k p b : Nat) : b ∈ bitsBelow k p ↔ (b < k ∧ p.testBit b = true) := by
  simp [bitsBelow, List.mem_filter]

theorem bitsBelow_nodup (k p : Nat) : (bitsBelow k p).Nodup :=
  List.Nodup.filter _ (List.nodup_reverse.mpr (List.nodup_range k))

/-- C8, amended. For every value of the status and interrupt-enable registers
and every directory in which the edge slot `edgeCallback[N-1]` is non-empty for
each pending-and-enabled compare channel `N` and, when the overflow event is
pending and enabled, the active chain is null-terminated: `timCCxHandler`
returns; its trace is, for each bit set in (status AND enable) at entry taken
once, most significant first, the clear of exactly that flag followed by the
invocations of that bit; on return each of these bits is cleared in the status
register and no other status bit is changed. In particular when the overflow
and the channel-2 compare events are both pending, the channel-2 edge callback
and every callback of the chain are invoked and both flags are cleared. -/
theorem dispatch_services_pending (fuel tim timer : Nat) (s : State) (chain : List Ptr)
    (hfuel : 32 ≤ fuel)
    (hchain : (pendingEvents tim s).testBit 0 = true →
      chainList s.next fuel (s.timerConfig timer).overflowCallbackActive = some chain)
    (hedge : ∀ j, j < 4 → (pendingEvents tim s).testBit (j + 1) = true →
      (s.timerConfig timer).edgeCallback j ≠ 0) :
    ∃ s1, timCCxHandler fuel tim timer s = Except.ok s1
      ∧ s1.trace = s.trace
          ++ (bitsBelow 32 (pendingEvents tim s)).flatMap (serviceEvents tim timer s chain)
      ∧ (bitsBelow 32 (pendingEvents tim s)).Nodup
      ∧ (∀ b, b ∈ bitsBelow 32 (pendingEvents tim s) ↔
          (b < 32 ∧ (pendingEvents tim s).testBit b = true))
      ∧ (∀ i, i < 32 → (s1.regs tim).ists.testBit i
          = ((s.regs tim).ists.testBit i && !(pendingEvents tim s).testBit i))
      ∧ ((pendingEvents tim s).testBit 0 = true → (pendingEvents tim s).testBit 2 = true →
          ∃ es, s1.trace = s.trace ++ es
            ∧ Event.callEdge ((s.timerConfig timer).edgeCallback 1) (s.regs tim).c2dt ∈ es
            ∧ (∀ cb ∈ chain, Event.callOvr cb (overflowCapture tim timer s) ∈ es)
            ∧ (s1.regs tim).ists.testBit 0 = false ∧ (s1.regs tim).ists.testBit 2 = false) := by
  obtain ⟨s1, h1, h2, _, h4, _⟩ := timCCxHandler_run fuel tim timer s chain hfuel hchain hedge
  refine ⟨s1, h1, h2, bitsBelow_nodup _ _, bitsBelow_mem _ _, h4, ?_⟩
  intro hb0 hb2
  refine ⟨_, h2, ?_, ?_, ?_, ?_⟩
  · exact List.mem_flatMap.mpr ⟨2, (bitsBelow_mem _ _ _).mpr ⟨by decide, hb2⟩,
      by simp [serviceEvents]⟩
  · intro cb hcb
    exact List.mem_flatMap.mpr ⟨0, (bitsBelow_mem _ _ _).mpr ⟨by decide, hb0⟩,
      by simp [serviceEvents, hcb]⟩
  · rw [h4 0 (by decide), hb0]
    simp
  · rw [h4 2 (by decide), hb2]
    simp

theorem dispatch_services_pending_witness :
    ∃ s1, timCCxHandler 32 0x40000C00 1 exampleDispatchState = Except.ok s1
      ∧ s1.trace = exampleDispatchState.trace
          ++ [Event.storeIsts 0x40000C00 0xFFFFFFFB, Event.callEdge 21 1234,
              Event.storeIsts 0x40000C00 0xFFFFFFFE, Event.callOvr 7 0xFFFF] := by
  obtain ⟨s1, h1, h2, _⟩ := dispatch_services_pending 32 0x40000C00 1 exampleDispatchState [7]
    (le_refl 32) (fun _ => rfl)
    (by
      intro j hj hb
      interval_cases j
      · exact absurd hb (by decide)
      · decide
      · exact absurd hb (by decide)
      · exact absurd hb (by decide))
  exact ⟨s1, h1, h2.trans (by decide)⟩

/-- C8, counterexample. With the status and interrupt-enable registers both
holding the channel-2 compare bit and the directory as `timerInit` leaves it,
`timCCxHandler` does not return for any bound: it dereferences the null slot
`edgeCallback[1]`. -/
theorem dispatch_null_slot_counterexample :
    (∀ fuel, timCCxHandler (fuel + 1) 0x40000C00 1 exampleEmptySlotState
        = Except.error Fault.nullDeref)
    ∧ ∀ fuel s1, timCCxHandler fuel 0x40000C00 1 exampleEmptySlotState ≠ Except.ok s1 := by
  refine ⟨fun _ => rfl, ?_⟩
  intro fuel s1 h
  cases fuel with
  | zero => exact absurd h (by simp [timCCxHandler, timCCxLoop, exampleEmptySlotState])
  | succ n =>
    have h2 : timCCxHandler (n + 1) 0x40000C00 1 exampleEmptySlotState
        = Except.error Fault.nullDeref := rfl
    rw [h2] at h
    cases h

/-! ## Forced overflow: lemmas -/

theorem ovrCalls_append (a b : List Event) : ovrCalls (a ++ b) = ovrCalls a ++ ovrCalls b := by
  simp [ovrCalls, List.filterMap_append]

theorem ovrCalls_map (chain : List Ptr) (c : Nat) :
    ovrCalls (chain.map (fun cb => Event.callOvr cb c)) = chain.map (fun cb => (cb, c)) := by
  induction chain with
  | nil => rfl
  | cons a l ih =>
    simp only [List.map_cons]
    rw [← ih]
    rfl

theorem ovrCalls_serviceEvents (tim timer : Nat) (s : State) (chain : List Ptr) (b : Nat) :
    ovrCalls (serviceEvents tim timer s chain b)
      = if b = 0 then chain.map (fun cb => (cb, overflowCapture tim timer s)) else [] := by
  unfold serviceEvents
  by_cases h0 : b = 0
  · rw [if_pos h0, if_pos h0]
    have h1 : ovrCalls (if (s.timerConfig timer).forcedOverflowTimerValue ≠ 0 then
        [Event.storeForced timer 0] else []) = [] := by
      split <;> rfl
    show ovrCalls ([Event.storeIsts tim (0xFFFFFFFF ^^^ 2 ^ b)]
      ++ ((if (s.timerConfig timer).forcedOverflowTimerValue ≠ 0 then [Event.storeForced timer 0]
            else [])
          ++ chain.map (fun cb => Event.callOvr cb (overflowCapture tim timer s)))) = _
    rw [ovrCalls_append, ovrCalls_append, h1, ovrCalls_map]
    rfl
  · rw [if_neg h0, if_neg h0]
    split
    · rfl
    · split
      · rfl
      · split
        · rfl
        · split <;> rfl

theorem ovrCalls_bitsBelow (tim timer : Nat) (s : State) (chain : List Ptr) (p k : Nat) :
    ovrCalls ((bitsBelow k p).flatMap (serviceEvents tim timer s chain))
      = if 0 < k ∧ p.testBit 0 = true then chain.map (fun cb => (cb, overflowCapture tim timer s))
        else [] := by
  induction k with
  | zero => simp [bitsBelow, ovrCalls]
  | succ k ih =>
    rw [bitsBelow_succ]
    by_cases hb : p.testBit k = true
    · rw [if_pos hb, List.flatMap_cons, ovrCalls_append, ih, ovrCalls_serviceEvents]
      by_cases hk : k = 0
      · subst hk
        simp [hb]
      · have : 0 < k := by omega
        simp [hk, this]
    · rw [if_neg hb, ih]
      by_cases hk : k = 0
      · subst hk
        simp [hb]
      · have : 0 < k := by omega
        simp [this]

theorem dispatchFrame_trans (tim timer : Nat) (a b c : State) (h1 : dispatchFrame tim timer a b)
    (h2 : dispatchFrame tim timer b c) : dispatchFrame tim timer a c := by
  obtain ⟨a1, a2, a3, a4, a5, a6, a7, a8, a9, a10, a11⟩ := h1
  obtain ⟨b1, b2, b3, b4, b5, b6, b7, b8, b9, b10, b11⟩ := h2
  exact ⟨b1.trans a1, b2.trans a2, b3.trans a3, b4.trans a4, b5.trans a5, b6.trans a6,
    b7.trans a7, b8.trans a8, b9.trans a9, b10.trans a10, b11.trans a11⟩

theorem raiseFlags_frame (tim timer flags : Nat) (s : State) :
    dispatchFrame tim timer s (raiseFlags tim flags s)
    ∧ (raiseFlags tim flags s).trace = s.trace
    ∧ ((raiseFlags tim flags s).timerConfig timer).forcedOverflowTimerValue
        = (s.timerConfig timer).forcedOverflowTimerValue
    ∧ ((raiseFlags tim flags s).regs tim).ists = ((s.regs tim).ists ||| flags) % 2 ^ 32 := by
  refine ⟨⟨?_, ?_, ?_, ?_, ?_, ?_, ?_, ?_, ?_, ?_, ?_⟩, ?_, ?_, ?_⟩ <;> simp [raiseFlags, setAt]

theorem timerForceOverflow_ok (T : Target) (tim : Nat) (s : State)
    (hres : lookupTimerIndex T tim < USED_TIMER_COUNT T) :
    ∃ s1, timerForceOverflow T tim s = Except.ok s1
      ∧ dispatchFrame tim (lookupTimerIndex T tim) s s1
      ∧ (s1.timerConfig (lookupTimerIndex T tim)).forcedOverflowTimerValue
          = ((s.regs tim).cval + 1) % 2 ^ 32
      ∧ s1.trace = s.trace
          ++ [Event.storeForced (lookupTimerIndex T tim) (((s.regs tim).cval + 1) % 2 ^ 32),
              Event.swevt tim] := by
  unfold timerForceOverflow
  simp only []
  rw [if_pos hres]
  refine ⟨_, rfl, ⟨?_, ?_, ?_, ?_, ?_, ?_, ?_, ?_, ?_, ?_, ?_⟩, ?_, ?_⟩ <;>
    simp [storeForced, logEvent, setAt]

theorem pendingEvents_testBit (tim : Nat) (s : State) (i : Nat) (hi : i < 32) :
    (pendingEvents tim s).testBit i = ((s.regs tim).ists.testBit i && (s.regs tim).iden.testBit i) := by
  unfold pendingEvents
  rw [Nat.testBit_mod_two_pow, Nat.testBit_and]
  simp [hi]

theorem dispatch_after_frame (fuel tim timer : Nat) (s st : State) (chain : List Ptr)
    (hfuel : 32 ≤ fuel) (hfr : dispatchFrame tim timer s st)
    (hchain : chainList s.next fuel (s.timerConfig timer).overflowCallbackActive = some chain)
    (hen : (s.regs tim).iden.testBit 0 = true)
    (hedge : ∀ j, j < 4 → (s.regs tim).iden.testBit (j + 1) = true →
      (s.timerConfig timer).edgeCallback j ≠ 0)
    (hflag : (st.regs tim).ists.testBit 0 = true) :
    ∃ s2 es, timCCxHandler fuel tim timer st = Except.ok s2
      ∧ s2.trace = st.trace ++ es
      ∧ ovrCalls es = chain.map (fun cb => (cb, overflowCapture tim timer st))
      ∧ (s2.timerConfig timer).forcedOverflowTimerValue = 0
      ∧ dispatchFrame tim timer s s2 := by
  obtain ⟨a1, a2, a3, a4, a5, a6, a7, a8, a9, a10, a11⟩ := hfr
  have hp0 : (pendingEvents tim st).testBit 0 = true := by
    rw [pendingEvents_testBit tim st 0 (by decide), hflag, a7, hen]
    rfl
  obtain ⟨s2, h1, h2, h3, _, h5⟩ := timCCxHandler_run fuel tim timer st chain hfuel
    (fun _ => by rw [a1, a2]; exact hchain)
    (by
      intro j hj hb
      rw [pendingEvents_testBit tim st (j + 1) (by omega), a7] at hb
      rw [a3]
      exact hedge j hj (Bool.and_eq_true _ _ ▸ hb).2)
  refine ⟨s2, _, h1, h2, ?_, ?_, dispatchFrame_trans tim timer s st s2
    ⟨a1, a2, a3, a4, a5, a6, a7, a8, a9, a10, a11⟩ h3⟩
  · rw [ovrCalls_bitsBelow, if_pos ⟨by decide, hp0⟩]
  · rw [h5, if_pos hp0]

/-- C7, amended. For every resolvable timer whose overflow interrupt is
enabled, whose enabled compare channels have non-empty edge slots and whose
active chain is null-terminated, and for every live counter value `v` of at
most 0xFFFF read by `timerForceOverflow` (the period register being at most
0xFFFF as well): the next dispatch with the overflow event pending invokes the
callbacks of the active chain, each once and in chain order, with
`capture = v`, and resets `forcedOverflowTimerValue` to 0; the following
dispatch with the overflow event pending, with no `timerForceOverflow` in
between, invokes them with the value of the period register. -/
theorem forced_overflow_delivery (T : Target) (tim : Nat) (s : State) (chain : List Ptr)
    (fuel flags1 flags2 : Nat)
    (hres : lookupTimerIndex T tim < USED_TIMER_COUNT T)
    (hv : (s.regs tim).cval ≤ 0xFFFF) (hpr : (s.regs tim).pr ≤ 0xFFFF) (hfuel : 32 ≤ fuel)
    (hchain : chainList s.next fuel
      (s.timerConfig (lookupTimerIndex T tim)).overflowCallbackActive = some chain)
    (hen : (s.regs tim).iden.testBit 0 = true)
    (hedge : ∀ j, j < 4 → (s.regs tim).iden.testBit (j + 1) = true →
      (s.timerConfig (lookupTimerIndex T tim)).edgeCallback j ≠ 0)
    (hf1 : flags1.testBit 0 = true) (hf2 : flags2.testBit 0 = true) :
    ∃ s1 s2 s3 es2 es3, timerForceOverflow T tim s = Except.ok s1
      ∧ timCCxHandler fuel tim (lookupTimerIndex T tim) (raiseFlags tim flags1 s1) = Except.ok s2
      ∧ s2.trace = s1.trace ++ es2
      ∧ ovrCalls es2 = chain.map (fun cb => (cb, (s.regs tim).cval))
      ∧ (s2.timerConfig (lookupTimerIndex T tim)).forcedOverflowTimerValue = 0
      ∧ timCCxHandler fuel tim (lookupTimerIndex T tim) (raiseFlags tim flags2 s2) = Except.ok s3
      ∧ s3.trace = s2.trace ++ es3
      ∧ ovrCalls es3 = chain.map (fun cb => (cb, (s.regs tim).pr)) := by
  obtain ⟨s1, e1, e2, e3, _⟩ := timerForceOverflow_ok T tim s hres
  obtain ⟨r1, r2, r3, r4⟩ := raiseFlags_frame tim (lookupTimerIndex T tim) flags1 s1
  have hflag1 : ((raiseFlags tim flags1 s1).regs tim).ists.testBit 0 = true := by
    rw [r4, testBit_or_mod _ _ 0 (by decide), hf1]
    simp
  obtain ⟨s2, es2, d1, d2, d3, d4, d5⟩ := dispatch_after_frame fuel tim (lookupTimerIndex T tim) s
    (raiseFlags tim flags1 s1) chain hfuel
    (dispatchFrame_trans _ _ _ _ _ e2 r1) hchain hen hedge hflag1
  obtain ⟨q1, q2, q3, q4⟩ := raiseFlags_frame tim (lookupTimerIndex T tim) flags2 s2
  have hflag2 : ((raiseFlags tim flags2 s2).regs tim).ists.testBit 0 = true := by
    rw [q4, testBit_or_mod _ _ 0 (by decide), hf2]
    simp
  obtain ⟨s3, es3, g1, g2, g3, _, _⟩ := dispatch_after_frame fuel tim (lookupTimerIndex T tim) s
    (raiseFlags tim flags2 s2) chain hfuel
    (dispatchFrame_trans _ _ _ _ _ d5 q1) hchain hen hedge hflag2
  have hcap1 : overflowCapture tim (lookupTimerIndex T tim) (raiseFlags tim flags1 s1)
      = (s.regs tim).cval := by
    unfold overflowCapture
    rw [r3, e3]
    have h1 : ((s.regs tim).cval + 1) % 2 ^ 32 = (s.regs tim).cval + 1 :=
      Nat.mod_eq_of_lt (by omega)
    rw [h1, if_pos (by omega)]
    exact Nat.mod_eq_of_lt (by omega)
  have hcap2 : overflowCapture tim (lookupTimerIndex T tim) (raiseFlags tim flags2 s2)
      = (s.regs tim).pr := by
    unfold overflowCapture
    rw [q3, d4]
    have hpr2 : ((raiseFlags tim flags2 s2).regs tim).pr = (s.regs tim).pr :=
      (dispatchFrame_trans _ _ _ _ _ d5 q1).2.2.2.2.2.1
    rw [hpr2]
    simp only [ne_eq, not_true_eq_false, if_false]
    exact Nat.mod_eq_of_lt (by omega)
  refine ⟨s1, s2, s3, es2, es3, e1, d1, ?_, ?_, d4, g1, ?_, ?_⟩
  · rw [d2, r2]
  · rw [d3, hcap1]
  · rw [g2, q2]
  · rw [g3, hcap2]

theorem forced_overflow_delivery_witness :
    ∃ s1 s2 s3 es2 es3, timerForceOverflow exampleTarget 0x40000C00 exampleForceState = Except.ok s1
      ∧ timCCxHandler 32 0x40000C00 (lookupTimerIndex exampleTarget 0x40000C00)
          (raiseFlags 0x40000C00 1 s1) = Except.ok s2
      ∧ s2.trace = s1.trace ++ es2
      ∧ ovrCalls es2 = [7].map (fun cb => (cb, (exampleForceState.regs 0x40000C00).cval))
      ∧ (s2.timerConfig (lookupTimerIndex exampleTarget 0x40000C00)).forcedOverflowTimerValue = 0
      ∧ timCCxHandler 32 0x40000C00 (lookupTimerIndex exampleTarget 0x40000C00)
          (raiseFlags 0x40000C00 1 s2) = Except.ok s3
      ∧ s3.trace = s2.trace ++ es3
      ∧ ovrCalls es3 = [7].map (fun cb => (cb, (exampleForceState.regs 0x40000C00).pr)) :=
  forced_overflow_delivery exampleTarget 0x40000C00 exampleForceState [7] 32 1 1 (by decide)
    (by decide) (by decide) (le_refl 32) rfl (by decide)
    (by
      intro j hj hb
      interval_cases j <;> exact absurd hb (by decide))
    (by decide) (by decide)

/-- C7, counterexample. On a counter whose live value is 0x10000 when
`timerForceOverflow` reads it, the next dispatched overflow event passes
`capture = 0` to the callback of the active chain: the staged value is
truncated to the 16 bits of `capture`. Likewise an overflow event without a
forced value on a timer whose period register holds 0x1FFFF passes 0xFFFF. -/
theorem forced_overflow_truncated_counterexample :
    (exampleForceWideState.regs 0x40000C00).cval = 0x10000
    ∧ (∃ s1 s2, timerForceOverflow exampleTarget 0x40000C00 exampleForceWideState = Except.ok s1
      ∧ timCCxHandler 32 0x40000C00 1 (raiseFlags 0x40000C00 1 s1) = Except.ok s2
      ∧ ovrCalls s2.trace = [(7, 0)])
    ∧ (exampleWidePeriodState.regs 0x40000C00).pr = 0x1FFFF
    ∧ ∃ s2, timCCxHandler 32 0x40000C00 1 exampleWidePeriodState = Except.ok s2
      ∧ ovrCalls s2.trace = [(7, 0xFFFF)] :=
  ⟨rfl, ⟨_, _, rfl, rfl, by decide⟩, rfl, _, rfl, by decide⟩

/-- C10, evaluation of the code at the failing input. With the timers 3 and 20
configured, timer 20 is listed in `usedTimers` and `timerNumbers` at index
`TIMER_INDEX(20) = 1`, but `lookupTimerIndex` has no case for it and returns
the sentinel 254 for its device, so `timerGetTIMNumber` returns 0; timer 3 is
resolved. -/
theorem lookup_misses_timer20 :
    timerNumbers exampleTarget20 = [3, 20]
    ∧ usedTimers exampleTarget20 = [exampleTarget20.TMR_BASE 3, exampleTarget20.TMR_BASE 20]
    ∧ USED_TIMER_COUNT exampleTarget20 = 2
    ∧ TIMER_INDEX exampleTarget20 20 = 1
    ∧ lookupTimerIndex exampleTarget20 (exampleTarget20.TMR_BASE 20) = 254
    ∧ timerGetTIMNumber exampleTarget20 (exampleTarget20.TMR_BASE 20) = 0
    ∧ lookupTimerIndex exampleTarget20 (exampleTarget20.TMR_BASE 3) = 0
    ∧ timerGetTIMNumber exampleTarget20 (exampleTarget20.TMR_BASE 3) = 3 := by
  decide

/-! ## Unresolved identifiers -/

theorem BITCOUNT_le (x : Nat) : BITCOUNT x ≤ 32 := by
  unfold BITCOUNT
  exact (List.length_filter_le _ _).trans (by simp)

theorem lookupCases_sub (i : Nat) (h : i ∈ lookupCases) : i ∈ tableIds := by
  simp only [lookupCases, List.mem_cons, List.mem_singleton, List.not_mem_nil, or_false] at h
  simp only [tableIds, List.mem_cons, List.mem_singleton, List.not_mem_nil, or_false]
  omega

theorem lookupTimerIndex_default (T : Target) (tim : Nat)
    (hnot : ∀ i, i ∈ lookupCases → timerUsed T i = true →
      tim >>> _CASE_SHF ≠ T.TMR_BASE i >>> _CASE_SHF) :
    lookupTimerIndex T tim = 254 := by
  have hnone : (lookupCases.filter (timerUsed T)).find?
      (fun i => decide (tim >>> _CASE_SHF = T.TMR_BASE i >>> _CASE_SHF)) = none := by
    rw [List.find?_eq_none]
    intro x hx
    have hx2 := List.mem_filter.mp hx
    simpa using hnot x hx2.1 hx2.2
  unfold lookupTimerIndex
  rw [hnone]

/-- C11. For every timer device that is not in the configured set (its address
page is the page of no timer listed in `usedTimers`), `lookupTimerIndex`
returns the sentinel 254, which is greater than or equal to
`USED_TIMER_COUNT`, and `timerGetTIMNumber` returns 0 for it; and
`timerGetNumberByIndex` returns 0 for every index greater than or equal to
`USED_TIMER_COUNT`. -/
theorem unresolved_device_sentinel (T : Target) (tim : Nat)
    (hnot : ∀ i, i ∈ tableIds → timerUsed T i = true →
      tim >>> _CASE_SHF ≠ T.TMR_BASE i >>> _CASE_SHF) :
    lookupTimerIndex T tim = 254
    ∧ lookupTimerIndex T tim ≥ USED_TIMER_COUNT T
    ∧ timerGetTIMNumber T tim = 0
    ∧ ∀ index, index ≥ USED_TIMER_COUNT T → timerGetNumberByIndex T index = 0 := by
  have h254 := lookupTimerIndex_default T tim (fun i hi => hnot i (lookupCases_sub i hi))
  have hcount : USED_TIMER_COUNT T ≤ 32 := BITCOUNT_le _
  have hidx : ∀ index, index ≥ USED_TIMER_COUNT T → timerGetNumberByIndex T index = 0 := by
    intro index hi
    unfold timerGetNumberByIndex
    rw [if_neg (by omega)]
  refine ⟨h254, by omega, ?_, hidx⟩
  unfold timerGetTIMNumber
  simp only []
  rw [h254]
  exact hidx 254 (by omega)

theorem unresolved_device_sentinel_witness :
    lookupTimerIndex exampleTarget 0x40001000 = 254
    ∧ lookupTimerIndex exampleTarget 0x40001000 ≥ USED_TIMER_COUNT exampleTarget
    ∧ timerGetTIMNumber exampleTarget 0x40001000 = 0
    ∧ ∀ index, index ≥ USED_TIMER_COUNT exampleTarget →
        timerGetNumberByIndex exampleTarget index = 0 :=
  unresolved_device_sentinel exampleTarget 0x40001000 (by decide)

/-- C13. For every state, `timerChConfigCallbacks` and
`timerConfigUpdateCallback` called with a timer that does not resolve to a
valid dense index return the state they were given: no slot, chain head, forced
value, `next` link or interrupt-enable bit is changed and no store is
performed. -/
theorem unresolved_timer_no_effect (T : Target) (timHw : timerHardware_t)
    (edgeCallback overflowCallback updateCallback : Ptr) (s : State)
    (h : USED_TIMER_COUNT T ≤ lookupTimerIndex T timHw.tim) :
    timerChConfigCallbacks T timHw edgeCallback overflowCallback s = Except.ok s
    ∧ timerConfigUpdateCallback T timHw.tim updateCallback s = s := by
  constructor
  · unfold timerChConfigCallbacks
    simp only []
    rw [if_pos h]
  · unfold timerConfigUpdateCallback
    simp only []
    rw [if_pos h]

theorem unresolved_timer_no_effect_witness :
    timerChConfigCallbacks exampleTarget { tim := 0x40001000, channel := 1 } 21 11 exampleInitState
      = Except.ok exampleInitState
    ∧ timerConfigUpdateCallback exampleTarget 0x40001000 7 exampleInitState = exampleInitState :=
  unresolved_timer_no_effect exampleTarget { tim := 0x40001000, channel := 1 } 21 11 7
    exampleInitState (by decide)

/-- C14, evaluation of the code at the failing input. On the target with the
timers 2 and 3 configured, the device of timer 4 resolves to the sentinel 254,
which is not below `USED_TIMER_COUNT = 2`; `timerForceOverflow` indexes
`timerConfig` with it and stores outside the array, where
`timerConfigUpdateCallback` on the same device returns without a store. The
same happens for the configured timer 20, which the lookup does not resolve. -/
theorem force_overflow_unchecked_index :
    lookupTimerIndex exampleTarget 0x40001000 = 254
    ∧ USED_TIMER_COUNT exampleTarget = 2
    ∧ timerForceOverflow exampleTarget 0x40001000 exampleInitState
        = Except.error Fault.outOfBounds
    ∧ timerConfigUpdateCallback exampleTarget 0x40001000 7 exampleInitState = exampleInitState
    ∧ timerForceOverflow exampleTarget20 (exampleTarget20.TMR_BASE 20)
        (timerInit exampleTarget20 resetState) = Except.error Fault.outOfBounds :=
  ⟨by decide, by decide, rfl, rfl, rfl⟩

/-- C12, amended. For every state: if the channel reference passed to
`timerChInit` does not resolve to a valid dense channel index, the call is a
no-op; if the channel is valid and its owning timer does not resolve to a
valid dense timer index, the only store of the call is the type tag of that
channel: the tags of the other channels, the timer registry, the callback
directories, the record links, the interrupt controller and the device
registers are unchanged. -/
theorem rejected_channel_init (T : Target) (channel type : Nat) (irqPriority : Int) (irq : Nat)
    (s : State) :
    (TIMER_CHANNEL_COUNT T ≤ channel → timerChInit T channel type irqPriority irq s = s)
    ∧ ∀ timHw, T.TIMER_HARDWARE.get? channel = some timHw →
        USED_TIMER_COUNT T ≤ lookupTimerIndex T timHw.tim →
        timerChInit T channel type irqPriority irq s = storeType channel type s
        ∧ (timerChInit T channel type irqPriority irq s).timerChannelInfo
            = setAt s.timerChannelInfo channel type
        ∧ (timerChInit T channel type irqPriority irq s).timerInfo = s.timerInfo
        ∧ (timerChInit T channel type irqPriority irq s).timerConfig = s.timerConfig
        ∧ (timerChInit T channel type irqPriority irq s).next = s.next
        ∧ (timerChInit T channel type irqPriority irq s).regs = s.regs
        ∧ (timerChInit T channel type irqPriority irq s).nvic = s.nvic
        ∧ (timerChInit T channel type irqPriority irq s).trace
            = s.trace ++ [Event.storeType channel type] := by
  constructor
  · intro h
    unfold timerChInit
    rw [if_pos h]
  · intro timHw hget hres
    have hlt : ¬ channel ≥ TIMER_CHANNEL_COUNT T := by
      intro hge
      have hnone : T.TIMER_HARDWARE.get? channel = none := List.get?_eq_none.mpr hge
      rw [hnone] at hget
      cases hget
    have heq : timerChInit T channel type irqPriority irq s = storeType channel type s := by
      unfold timerChInit
      rw [if_neg hlt, hget]
      simp only []
      rw [if_pos hres]
    rw [heq]
    refine ⟨rfl, ?_, ?_, ?_, ?_, ?_, ?_, ?_⟩ <;> simp [storeType, logEvent]

theorem rejected_channel_init_witness :
    timerChInit exampleStrayTarget 7 1 5 29 (timerInit exampleStrayTarget resetState)
      = timerInit exampleStrayTarget resetState
    ∧ (timerChInit exampleStrayTarget 3 1 5 29 (timerInit exampleStrayTarget resetState)).timerInfo
      = (timerInit exampleStrayTarget resetState).timerInfo :=
  ⟨(rejected_channel_init exampleStrayTarget 7 1 5 29 (timerInit exampleStrayTarget resetState)).1
      (by decide),
    ((rejected_channel_init exampleStrayTarget 3 1 5 29
      (timerInit exampleStrayTarget resetState)).2 { tim := 0x40001000, channel := 1 } rfl
      (by decide)).2.2.1⟩

/-- C12, counterexample. Channel index 3 of the channel table is valid and its
owning timer 4 is not configured, so it does not resolve to a valid dense timer
index; `timerChInit` with type tag 1 changes the tag of the channel from
`TYPE_FREE` to 1: the call is not a no-op and the channel does not stay
unclaimed. -/
theorem channel_tagged_before_timer_check_counterexample :
    3 < TIMER_CHANNEL_COUNT exampleStrayTarget
    ∧ USED_TIMER_COUNT exampleStrayTarget ≤ lookupTimerIndex exampleStrayTarget 0x40001000
    ∧ (timerInit exampleStrayTarget resetState).timerChannelInfo 3 = TYPE_FREE
    ∧ (timerChInit exampleStrayTarget 3 1 5 29
        (timerInit exampleStrayTarget resetState)).timerChannelInfo 3 = 1 := by
  refine ⟨?_, ?_, ?_, ?_⟩ <;> decide

/-- C15, evaluation of the code at the failing input. On timer 3 after
`timerInit`: the overflow record 11 is registered on channel 1, then the
overflow record 13 on channel 3, then the callbacks of channel 1 are cleared.
Both channels use the slot `channel >> 2 = 0`, so the second registration
replaces record 11 (the chain is then the single record 13) and the clear of
channel 1 empties the slot of channel 3: the active chain is empty and the
overflow interrupt is disabled, while channel 3 was never cleared. -/
theorem overflow_slots_collide :
    lookupChannelIndex 1 = 0 ∧ lookupChannelIndex 3 = 0
    ∧ ∃ s1 s2 s3,
      timerChConfigCallbacks exampleTarget { tim := 0x40000C00, channel := 1 } 0 11
          exampleInitState = Except.ok s1
      ∧ timerChConfigCallbacks exampleTarget { tim := 0x40000C00, channel := 3 } 0 13 s1
          = Except.ok s2
      ∧ chainList s2.next 5 (s2.timerConfig 1).overflowCallbackActive = some [13]
      ∧ timerChConfigCallbacks exampleTarget { tim := 0x40000C00, channel := 1 } 0 0 s2
          = Except.ok s3
      ∧ chainList s3.next 5 (s3.timerConfig 1).overflowCallbackActive = some []
      ∧ (s3.regs 0x40000C00).iden &&& TMR_OVF_INT = 0 :=
  ⟨rfl, rfl, _, _, _, rfl, rfl, by decide, rfl, by decide, by decide⟩

/-- C17, evaluation of the code at the failing input. After `timerInit`, the
edge callback record 21 is registered on channel 3 of timer 3: the record is
stored in `edgeCallback[3 >> 2]`, slot 0, and the channel-3 compare interrupt
is enabled. A dispatch with only the channel-3 compare event pending reads
`edgeCallback[2]`, which is null, and invokes nothing. -/
theorem edge_callback_not_dispatched :
    ∃ s1, timerChConfigCallbacks exampleTarget { tim := 0x40000C00, channel := 3 } 21 0
        exampleInitState = Except.ok s1
      ∧ (s1.timerConfig 1).edgeCallback 0 = 21
      ∧ (s1.timerConfig 1).edgeCallback 2 = 0
      ∧ pendingEvents 0x40000C00 (raiseFlags 0x40000C00 TMR_C3_FLAG s1) = TMR_C3_FLAG
      ∧ ∀ fuel, timCCxHandler (fuel + 1) 0x40000C00 1 (raiseFlags 0x40000C00 TMR_C3_FLAG s1)
          = Except.error Fault.nullDeref :=
  ⟨_, rfl, by decide, by decide, by decide, fun _ => rfl⟩

/-- C18, amended. For every `timerChInit` call with a valid channel and a
resolvable timer whose committed priority is a `uint8_t` value: if
`irqPriority` is not negative and numerically less than the committed
priority, the period register of the timer is programmed to 0xFFFF, the
counter is started, the interrupt line is enabled with the priority fields of
`irqPriority`, `irqPriority` becomes the committed priority and the channel is
tagged; if `irqPriority` is not less than the committed priority, the only
store of the call is the type tag of the channel, so the timer registry, the
interrupt controller and the device registers are unchanged. -/
theorem escalation_or_skip (T : Target) (channel type : Nat) (irqPriority : Int) (irq : Nat)
    (s : State) (timHw : timerHardware_t)
    (hget : T.TIMER_HARDWARE.get? channel = some timHw)
    (hres : lookupTimerIndex T timHw.tim < USED_TIMER_COUNT T)
    (hq : s.timerInfo (lookupTimerIndex T timHw.tim) ≤ 255) :
    (0 ≤ irqPriority → irqPriority < (s.timerInfo (lookupTimerIndex T timHw.tim) : Int) →
      ((timerChInit T channel type irqPriority irq s).regs
          ((usedTimers T).getD (lookupTimerIndex T timHw.tim) 0)).pr = 0xFFFF
      ∧ ((timerChInit T channel type irqPriority irq s).regs
          ((usedTimers T).getD (lookupTimerIndex T timHw.tim) 0)).tmren = true
      ∧ (timerChInit T channel type irqPriority irq s).nvic irq
          = some (T.NVIC_PRIORITY_BASE irqPriority, T.NVIC_PRIORITY_SUB irqPriority)
      ∧ ((timerChInit T channel type irqPriority irq s).timerInfo (lookupTimerIndex T timHw.tim)
          : Int) = irqPriority
      ∧ (timerChInit T channel type irqPriority irq s).timerChannelInfo channel = type)
    ∧ (¬ irqPriority < (s.timerInfo (lookupTimerIndex T timHw.tim) : Int) →
      timerChInit T channel type irqPriority irq s = storeType channel type s
      ∧ (timerChInit T channel type irqPriority irq s).timerInfo = s.timerInfo
      ∧ (timerChInit T channel type irqPriority irq s).regs = s.regs
      ∧ (timerChInit T channel type irqPriority irq s).nvic = s.nvic
      ∧ (timerChInit T channel type irqPriority irq s).trace
          = s.trace ++ [Event.storeType channel type]) := by
  have hlt : ¬ channel ≥ TIMER_CHANNEL_COUNT T := by
    intro hge
    have hnone : T.TIMER_HARDWARE.get? channel = none := List.get?_eq_none.mpr hge
    rw [hnone] at hget
    cases hget
  have hnot : ¬ lookupTimerIndex T timHw.tim ≥ USED_TIMER_COUNT T := by omega
  have h3 : (storeType channel type s).timerInfo = s.timerInfo := by
    simp [storeType, logEvent]
  constructor
  · intro h0 hp
    have hp2 : irqPriority < ((storeType channel type s).timerInfo (lookupTimerIndex T timHw.tim)
        : Int) := by
      rw [h3]
      exact hp
    have heq : timerChInit T channel type irqPriority irq s
        = storePriority (lookupTimerIndex T timHw.tim) (irqPriority % 256).toNat
            (nvic_irq_enable irq (T.NVIC_PRIORITY_BASE irqPriority) (T.NVIC_PRIORITY_SUB irqPriority)
              (tmr_counter_enable ((usedTimers T).getD (lookupTimerIndex T timHw.tim) 0)
                (configTimeBase T ((usedTimers T).getD (lookupTimerIndex T timHw.tim) 0) 0 1
                  (storeType channel type s)))) := by
      unfold timerChInit
      rw [if_neg hlt, hget]
      simp only []
      rw [if_neg hnot, if_pos hp2]
    have hmod : ((irqPriority % 256).toNat : Int) = irqPriority := by
      rw [Int.toNat_of_nonneg (Int.emod_nonneg _ (by decide))]
      exact Int.emod_eq_of_lt h0 (by omega)
    rw [heq]
    refine ⟨?_, ?_, ?_, ?_, ?_⟩
    · simp [storePriority, nvic_irq_enable, tmr_counter_enable, configTimeBase, tmr_cnt_dir_set,
        tmr_clock_source_div_set, tmr_base_init, logEvent, setAt]
    · simp [storePriority, nvic_irq_enable, tmr_counter_enable, configTimeBase, tmr_cnt_dir_set,
        tmr_clock_source_div_set, tmr_base_init, logEvent, setAt]
    · simp [storePriority, nvic_irq_enable, logEvent, setAt]
    · rw [escalation_timerInfo]
      simp only [setAt, if_true]
      exact hmod
    · simp [storePriority, nvic_irq_enable, tmr_counter_enable, configTimeBase, tmr_cnt_dir_set,
        tmr_clock_source_div_set, tmr_base_init, logEvent, setAt, storeType]
  · intro hp
    have hp2 : ¬ irqPriority < ((storeType channel type s).timerInfo (lookupTimerIndex T timHw.tim)
        : Int) := by
      rw [h3]
      exact hp
    have heq : timerChInit T channel type irqPriority irq s = storeType channel type s := by
      unfold timerChInit
      rw [if_neg hlt, hget]
      simp only []
      rw [if_neg hnot, if_neg hp2]
    rw [heq]
    refine ⟨rfl, ?_, ?_, ?_, ?_⟩ <;> simp [storeType, logEvent]

theorem escalation_or_skip_witness :
    ((timerChInit exampleTarget 0 1 5 29 exampleInitState).timerInfo
        (lookupTimerIndex exampleTarget 0x40000C00) : Int) = 5
    ∧ (timerChInit exampleTarget 1 1 9 29 (timerChInit exampleTarget 0 1 5 29 exampleInitState)).regs
        = (timerChInit exampleTarget 0 1 5 29 exampleInitState).regs :=
  ⟨((escalation_or_skip exampleTarget 0 1 5 29 exampleInitState { tim := 0x40000C00, channel := 1 }
      rfl (by decide) (by decide)).1 (by decide) (by decide)).2.2.2.1,
    ((escalation_or_skip exampleTarget 1 1 9 29 (timerChInit exampleTarget 0 1 5 29 exampleInitState)
      { tim := 0x40000C00, channel := 2 } rfl (by decide) (by decide)).2 (by decide)).2.2.1⟩

/-- C18, counterexample. After `timerInit` the committed priority of timer 3 is
255; a `timerChInit` call with `irqPriority = -1`, which is numerically less
than 255, runs the escalation step and stores -1 truncated to `uint8_t`: the
committed priority is 255, not `irqPriority`. -/
theorem escalation_truncates_counterexample :
    (-1 : Int) < (exampleInitState.timerInfo 1 : Int)
    ∧ ((timerChInit exampleTarget 0 1 (-1) 29 exampleInitState).regs 0x40000C00).tmren = true
    ∧ (timerChInit exampleTarget 0 1 (-1) 29 exampleInitState).timerInfo 1 = 255
    ∧ (255 : Int) ≠ -1 := by
  refine ⟨?_, ?_, ?_, ?_⟩ <;> decide

theorem linkEvents_next (timer : Nat) (r : Ptr) (l : List Ptr) :
    linkEvents timer (ChainLoc.next r) l = List.zipWith Event.storeNext (r :: l) (l ++ [0]) := by
  induction l generalizing r with
  | nil => rfl
  | cons a l ih =>
    rw [linkEvents, ih]
    rfl

/-- C20, amended. The stores of one chain rebuild
(`timerChConfig_UpdateOverflow`) are, in order: when the new chain is the
non-empty list `a :: l`, first the store of `a` into the head field
`overflowCallbackActive`, then the `next` links of the chain in chain order,
the null terminator of the last record being the last memory store; when the
new chain is empty, the single store of null into the head field. The store of
the overflow interrupt enable bit follows. The head is published first and the
links are completed afterwards, inside the `ATOMIC_BLOCK`. -/
theorem rebuild_store_order (timer tim : Nat) (s : State) :
    (∀ a l, presentOverflow (s.timerConfig timer) = a :: l →
      (timerChConfig_UpdateOverflow timer tim s).trace
        = s.trace ++ (Event.storeActive timer a
            :: List.zipWith Event.storeNext (a :: l) (l ++ [0]))
          ++ [Event.interrupt_enable tim TMR_OVF_INT true])
    ∧ (presentOverflow (s.timerConfig timer) = [] →
      (timerChConfig_UpdateOverflow timer tim s).trace
        = s.trace ++ [Event.storeActive timer 0, Event.interrupt_enable tim TMR_OVF_INT false]) := by
  constructor
  · intro a l h
    have ha : a ≠ 0 := presentOverflow_ne_zero (s.timerConfig timer) a (by rw [h]; simp)
    rw [updateOverflow_trace, h, linkEvents, linkEvents_next]
    simp [chainEvent, ha]
  · intro h
    rw [updateOverflow_trace, h]
    simp [linkEvents, chainEvent]

theorem rebuild_store_order_witness :
    (timerChConfig_UpdateOverflow 0 1024 exampleChainState).trace
      = exampleChainState.trace ++ (Event.storeActive 0 7
          :: List.zipWith Event.storeNext (7 :: [3, 5]) ([3, 5] ++ [0]))
        ++ [Event.interrupt_enable 1024 TMR_OVF_INT true] :=
  (rebuild_store_order 0 1024 exampleChainState).1 7 [3, 5] (by decide)

/-- C20, counterexample. For the directory with the update callback 7 and the
overflow callbacks 3 and 5, the memory stores of the rebuild are: head := 7,
then 7.next := 3, 3.next := 5, 5.next := null. The store of the head is the
first store; the last memory store is the null terminator. -/
theorem head_stored_first_counterexample :
    (timerChConfig_UpdateOverflow 0 1024 exampleChainState).trace
      = [Event.storeActive 0 7, Event.storeNext 7 3, Event.storeNext 3 5, Event.storeNext 5 0,
          Event.interrupt_enable 1024 TMR_OVF_INT true] := by
  decide

/-! ## Order of the dispatch -/

theorem invocations_append (a b : List Event) :
    invocations (a ++ b) = invocations a ++ invocations b := by
  simp [invocations, List.filter_append]

theorem invocations_map_ovr (chain : List Ptr) (c : Nat) :
    invocations (chain.map (fun cb => Event.callOvr cb c))
      = chain.map (fun cb => Event.callOvr cb c) := by
  unfold invocations
  rw [List.filter_eq_self]
  intro e he
  obtain ⟨cb, _, rfl⟩ := List.mem_map.mp he
  rfl

theorem invocations_serviceEvents (tim timer : Nat) (s : State) (chain : List Ptr) (b : Nat) :
    invocations (serviceEvents tim timer s chain b) =
      if b = 0 then chain.map (fun cb => Event.callOvr cb (overflowCapture tim timer s))
      else if b = 1 then [Event.callEdge ((s.timerConfig timer).edgeCallback 0) (s.regs tim).c1dt]
      else if b = 2 then [Event.callEdge ((s.timerConfig timer).edgeCallback 1) (s.regs tim).c2dt]
      else if b = 3 then [Event.callEdge ((s.timerConfig timer).edgeCallback 2) (s.regs tim).c3dt]
      else if b = 4 then [Event.callEdge ((s.timerConfig timer).edgeCallback 3) (s.regs tim).c4dt]
      else [] := by
  unfold serviceEvents
  by_cases h0 : b = 0
  · rw [if_pos h0, if_pos h0]
    have h1 : invocations (if (s.timerConfig timer).forcedOverflowTimerValue ≠ 0 then
        [Event.storeForced timer 0] else []) = [] := by
      split <;> rfl
    show invocations ([Event.storeIsts tim (0xFFFFFFFF ^^^ 2 ^ b)]
      ++ ((if (s.timerConfig timer).forcedOverflowTimerValue ≠ 0 then [Event.storeForced timer 0]
            else [])
          ++ chain.map (fun cb => Event.callOvr cb (overflowCapture tim timer s)))) = _
    rw [invocations_append, invocations_append, h1, invocations_map_ovr]
    rfl
  · rw [if_neg h0, if_neg h0]
    split
    · rfl
    · split
      · rfl
      · split
        · rfl
        · split <;> rfl

theorem invocations_bitsBelow_high (tim timer : Nat) (s : State) (chain : List Ptr) (p n : Nat) :
    invocations ((bitsBelow (5 + n) p).flatMap (serviceEvents tim timer s chain))
      = invocations ((bitsBelow 5 p).flatMap (serviceEvents tim timer s chain)) := by
  induction n with
  | zero => rfl
  | succ n ih =>
    have h5 : 5 + (n + 1) = (5 + n) + 1 := by omega
    rw [h5, bitsBelow_succ]
    split
    · rw [List.flatMap_cons, invocations_append, invocations_serviceEvents, ih]
      have e0 : ¬ 5 + n = 0 := by omega
      have e1 : ¬ 5 + n = 1 := by omega
      have e2 : ¬ 5 + n = 2 := by omega
      have e3 : ¬ 5 + n = 3 := by omega
      have e4 : ¬ 5 + n = 4 := by omega
      rw [if_neg e0, if_neg e1, if_neg e2, if_neg e3, if_neg e4]
      rfl
    · exact ih

theorem invocations_bitsBelow_step (tim timer : Nat) (s : State) (chain : List Ptr) (p k : Nat) :
    invocations ((bitsBelow (k + 1) p).flatMap (serviceEvents tim timer s chain))
      = (if p.testBit k = true then invocations (serviceEvents tim timer s chain k) else [])
        ++ invocations ((bitsBelow k p).flatMap (serviceEvents tim timer s chain)) := by
  rw [bitsBelow_succ]
  split
  · rw [List.flatMap_cons, invocations_append]
  · rfl

theorem invocations_bitsBelow (tim timer : Nat) (s : State) (chain : List Ptr) (p : Nat) :
    invocations ((bitsBelow 32 p).flatMap (serviceEvents tim timer s chain))
      = (if p.testBit 4 = true then
          [Event.callEdge ((s.timerConfig timer).edgeCallback 3) (s.regs tim).c4dt] else [])
        ++ ((if p.testBit 3 = true then
          [Event.callEdge ((s.timerConfig timer).edgeCallback 2) (s.regs tim).c3dt] else [])
        ++ ((if p.testBit 2 = true then
          [Event.callEdge ((s.timerConfig timer).edgeCallback 1) (s.regs tim).c2dt] else [])
        ++ ((if p.testBit 1 = true then
          [Event.callEdge ((s.timerConfig timer).edgeCallback 0) (s.regs tim).c1dt] else [])
        ++ (if p.testBit 0 = true then
          chain.map (fun cb => Event.callOvr cb (overflowCapture tim timer s)) else [])))) := by
  have h := invocations_bitsBelow_high tim timer s chain p 27
  have h32 : 5 + 27 = 32 := rfl
  rw [h32] at h
  rw [h, invocations_bitsBelow_step, invocations_bitsBelow_step, invocations_bitsBelow_step,
    invocations_bitsBelow_step, invocations_bitsBelow_step]
  simp only [invocations_serviceEvents]
  have hnil : invocations ((bitsBelow 0 p).flatMap (serviceEvents tim timer s chain)) = [] := rfl
  rw [hnil]
  simp

theorem bitsBelow_descending (k p : Nat) : (bitsBelow k p).Pairwise (fun a b => a > b) := by
  unfold bitsBelow
  apply List.Pairwise.filter
  rw [List.pairwise_reverse]
  exact List.pairwise_lt_range k

/-! ## The update-only dispatcher -/

theorem switch_agree (fuel tim timer bit : Nat) (s : State)
    (h30 : bit ≠ 30) (h29 : bit ≠ 29) (h28 : bit ≠ 28) (h27 : bit ≠ 27) :
    timCCxSwitch fuel tim timer bit s = timUpdateSwitch fuel tim timer bit s := by
  rw [timCCxSwitch_cases]
  unfold timUpdateSwitch
  rw [builtin_clz_flags.1, if_neg h30, if_neg h29, if_neg h28, if_neg h27]

theorem top_bit_exists (m p : Nat) (hp : p < 2 ^ m) (h0 : p ≠ 0) :
    ∃ k, k < m ∧ p.testBit k = true ∧ p < 2 ^ (k + 1) := by
  induction m with
  | zero =>
    have : p = 0 := by simpa using hp
    exact absurd this h0
  | succ m ih =>
    by_cases hb : p.testBit m = true
    · exact ⟨m, by omega, hb, hp⟩
    · have hb2 : p.testBit m = false := by simpa using hb
      obtain ⟨k, hk, h1, h2⟩ := ih (lt_of_testBit_false p m hp hb2)
      exact ⟨k, by omega, h1, h2⟩

theorem loops_agree (fuel tim timer : Nat) (n : Nat) :
    ∀ p s, p < 2 ^ 32 → (∀ j, 1 ≤ j → j ≤ 4 → p.testBit j = false) →
      timUpdateLoop fuel tim timer n p s = timCCxLoop fuel tim timer n p s := by
  induction n with
  | zero =>
    intro p s _ _
    rfl
  | succ n ih =>
    intro p s hp hclear
    by_cases hp0 : p = 0
    · subst hp0
      simp [timUpdateLoop, timCCxLoop]
    · obtain ⟨k, hk, hb, hlt⟩ := top_bit_exists 32 p hp hp0
      have hk14 : ¬ (1 ≤ k ∧ k ≤ 4) := by
        intro h
        rw [hclear k h.1 h.2] at hb
        exact absurd hb (by decide)
      have hclz := builtin_clz_top p k hlt hb hk
      have hsw : ∀ st, timCCxSwitch fuel tim timer (31 - k) st
          = timUpdateSwitch fuel tim timer (31 - k) st :=
        fun st => switch_agree fuel tim timer (31 - k) st (by omega) (by omega) (by omega)
          (by omega)
      have hrest : ∀ st, timUpdateLoop fuel tim timer n (p &&& (0xFFFFFFFF ^^^ 2 ^ k)) st
          = timCCxLoop fuel tim timer n (p &&& (0xFFFFFFFF ^^^ 2 ^ k)) st := by
        intro st
        apply ih
        · exact lt_of_le_of_lt Nat.and_le_left hp
        · intro j h1 h4
          rw [Nat.testBit_and, hclear j h1 h4]
          rfl
      rw [timUpdateLoop, timCCxLoop, if_neg hp0, if_neg hp0]
      simp only []
      rw [hclz, top_mask k hk, hsw]
      cases timUpdateSwitch fuel tim timer (31 - k) (storeIsts tim (0xFFFFFFFF ^^^ 2 ^ k) s) with
      | error f => rfl
      | ok s2 => exact hrest s2

theorem update_step (fuel tim timer k : Nat) (s s0 : State) (chain : List Ptr) (hk : k < 32)
    (hfr : dispatchFrame tim timer s s0)
    (hforced : k = 0 → (s0.timerConfig timer).forcedOverflowTimerValue
      = (s.timerConfig timer).forcedOverflowTimerValue)
    (hchain : k = 0 →
      chainList s.next fuel (s.timerConfig timer).overflowCallbackActive = some chain) :
    ∃ s1, timUpdateSwitch fuel tim timer (31 - k) (storeIsts tim (0xFFFFFFFF ^^^ 2 ^ k) s0)
        = Except.ok s1
      ∧ s1.trace = s0.trace ++ updateEvents tim timer s chain k
      ∧ dispatchFrame tim timer s s1
      ∧ (s1.regs tim).ists = (s0.regs tim).ists &&& (0xFFFFFFFF ^^^ 2 ^ k)
      ∧ (s1.timerConfig timer).forcedOverflowTimerValue
          = if k = 0 then 0 else (s0.timerConfig timer).forcedOverflowTimerValue := by
  by_cases h14 : 1 ≤ k ∧ k ≤ 4
  · obtain ⟨f1, f2, f3, f4⟩ := storeIsts_frame tim timer (0xFFFFFFFF ^^^ 2 ^ k) s s0 hfr
    have hk0 : ¬ k = 0 := by omega
    have hne : ¬ 31 - k = 31 := by omega
    unfold timUpdateSwitch
    rw [builtin_clz_flags.1, if_neg hne]
    refine ⟨_, rfl, ?_, f1, f3, ?_⟩
    · rw [f2]
      simp [updateEvents, hk0]
    · rw [f4, if_neg hk0]
  · have hev : updateEvents tim timer s chain k = serviceEvents tim timer s chain k := by
      unfold updateEvents serviceEvents
      by_cases hk0 : k = 0
      · rw [if_pos hk0, if_pos hk0]
      · have k1 : ¬ k = 1 := by omega
        have k2 : ¬ k = 2 := by omega
        have k3 : ¬ k = 3 := by omega
        have k4 : ¬ k = 4 := by omega
        rw [if_neg hk0, if_neg hk0, if_neg k1, if_neg k2, if_neg k3, if_neg k4]
    rw [← switch_agree fuel tim timer (31 - k) _ (by omega) (by omega) (by omega) (by omega), hev]
    exact service_step fuel tim timer k s s0 chain hk hfr hforced hchain
      (fun j hj hkj => absurd hkj (by omega))

theorem timUpdateLoop_zero (fuel tim timer n : Nat) (s : State) :
    timUpdateLoop fuel tim timer n 0 s = Except.ok s := by
  cases n <;> simp [timUpdateLoop]

theorem timUpdateLoop_below (fuel tim timer : Nat) (s : State) (chain : List Ptr) (k : Nat) :
    k ≤ 32 → ∀ n, k ≤ n → ∀ p, p < 2 ^ k → ∀ s0, dispatchFrame tim timer s s0 →
    (p.testBit 0 = true → (s0.timerConfig timer).forcedOverflowTimerValue
      = (s.timerConfig timer).forcedOverflowTimerValue) →
    (p.testBit 0 = true →
      chainList s.next fuel (s.timerConfig timer).overflowCallbackActive = some chain) →
    ∃ s1, timUpdateLoop fuel tim timer n p s0 = Except.ok s1
      ∧ s1.trace = s0.trace ++ (bitsBelow k p).flatMap (updateEvents tim timer s chain)
      ∧ dispatchFrame tim timer s s1
      ∧ (∀ i, i < 32 →
          (s1.regs tim).ists.testBit i = ((s0.regs tim).ists.testBit i && !p.testBit i))
      ∧ (s1.timerConfig timer).forcedOverflowTimerValue
          = if p.testBit 0 = true then 0 else (s0.timerConfig timer).forcedOverflowTimerValue := by
  induction k with
  | zero =>
    intro _ n _ p hp s0 hfr _ _
    have hp0 : p = 0 := by simpa using hp
    subst hp0
    exact ⟨s0, timUpdateLoop_zero _ _ _ _ _, by simp [bitsBelow], hfr, by simp, by simp⟩
  | succ k ih =>
    intro hk32 n hn p hp s0 hfr hforced hchain
    by_cases hb : p.testBit k = true
    · obtain ⟨m, rfl⟩ : ∃ m, n = m + 1 := ⟨n - 1, by omega⟩
      have hk : k < 32 := by omega
      have hp0 : p ≠ 0 := by
        intro h
        rw [h] at hb
        simp at hb
      obtain ⟨s1, e1, e2, e3, e4, e5⟩ := update_step fuel tim timer k s s0 chain hk hfr
        (fun h0 => hforced (h0 ▸ hb)) (fun h0 => hchain (h0 ▸ hb))
      have hlt := clear_top_lt p k hp hk
      have hbit : ∀ i, (p &&& (0xFFFFFFFF ^^^ 2 ^ k)).testBit i = (p.testBit i && decide (i < k)) :=
        fun i => clear_top_testBit p k i hp hk
      obtain ⟨s2, r1, r2, r3, r4, r5⟩ := ih (by omega) m (by omega) (p &&& (0xFFFFFFFF ^^^ 2 ^ k))
        hlt s1 e3
        (by
          intro h0
          rw [hbit] at h0
          have hk0 : k ≠ 0 := by
            intro hz
            simp [hz] at h0
          rw [e5, if_neg hk0]
          exact hforced (Bool.and_eq_true _ _ ▸ h0).1)
        (by
          intro h0
          rw [hbit] at h0
          exact hchain (Bool.and_eq_true _ _ ▸ h0).1)
      refine ⟨s2, ?_, ?_, r3, ?_, ?_⟩
      · rw [timUpdateLoop, if_neg hp0]
        simp only []
        rw [builtin_clz_top p k hp hb hk, top_mask k hk, e1]
        exact r1
      · rw [r2, e2, bitsBelow_clear_top p k hp hk, bitsBelow_succ, if_pos hb, List.flatMap_cons,
          List.append_assoc]
      · intro i hi
        rw [r4 i hi, e4, testBit_and_not _ _ i hi, hbit, Nat.testBit_two_pow]
        by_cases hik : i < k
        · have : k ≠ i := by omega
          simp [hik, this]
        · by_cases hek : k = i
          · subst hek
            simp [hb]
          · have h1 : p < 2 ^ i :=
              lt_of_lt_of_le hp (Nat.pow_le_pow_right (by decide) (by omega))
            simp [Nat.testBit_lt_two_pow h1, hek, hik]
      · rw [r5, hbit, e5]
        by_cases hk0 : k = 0
        · subst hk0
          simp [hb]
        · have : 0 < k := by omega
          simp [hk0, this]
    · have hb2 : p.testBit k = false := by simpa using hb
      obtain ⟨s1, r1, r2, r3, r4, r5⟩ := ih (by omega) n (by omega) p
        (lt_of_testBit_false p k hp hb2) s0 hfr hforced hchain
      refine ⟨s1, r1, ?_, r3, r4, r5⟩
      rw [r2, bitsBelow_succ, if_neg hb]

theorem timUpdateHandler_run (fuel tim timer : Nat) (s : State) (chain : List Ptr)
    (hfuel : 32 ≤ fuel)
    (hchain : (pendingEvents tim s).testBit 0 = true →
      chainList s.next fuel (s.timerConfig timer).overflowCallbackActive = some chain) :
    ∃ s1, timUpdateHandler fuel tim timer s = Except.ok s1
      ∧ s1.trace = s.trace
          ++ (bitsBelow 32 (pendingEvents tim s)).flatMap (updateEvents tim timer s chain)
      ∧ dispatchFrame tim timer s s1
      ∧ (∀ i, i < 32 → (s1.regs tim).ists.testBit i
          = ((s.regs tim).ists.testBit i && !(pendingEvents tim s).testBit i))
      ∧ (s1.timerConfig timer).forcedOverflowTimerValue
          = if (pendingEvents tim s).testBit 0 = true then 0
            else (s.timerConfig timer).forcedOverflowTimerValue :=
  timUpdateLoop_below fuel tim timer s chain 32 (le_refl 32) fuel hfuel (pendingEvents tim s)
    (pendingEvents_lt tim s) s (dispatchFrame_refl tim timer s) (fun _ => rfl) hchain

theorem edgeCalls_append (a b : List Event) : edgeCalls (a ++ b) = edgeCalls a ++ edgeCalls b := by
  simp [edgeCalls, List.filterMap_append]

theorem edgeCalls_map_ovr (chain : List Ptr) (c : Nat) :
    edgeCalls (chain.map (fun cb => Event.callOvr cb c)) = [] := by
  induction chain with
  | nil => rfl
  | cons a l ih =>
    simp only [List.map_cons]
    show edgeCalls ([Event.callOvr a c] ++ _) = []
    rw [edgeCalls_append, ih]
    rfl

theorem edgeCalls_updateEvents (tim timer : Nat) (s : State) (chain : List Ptr) (b : Nat) :
    edgeCalls (updateEvents tim timer s chain b) = [] := by
  unfold updateEvents
  by_cases h0 : b = 0
  · rw [if_pos h0]
    have h1 : edgeCalls (if (s.timerConfig timer).forcedOverflowTimerValue ≠ 0 then
        [Event.storeForced timer 0] else []) = [] := by
      split <;> rfl
    show edgeCalls ([Event.storeIsts tim (0xFFFFFFFF ^^^ 2 ^ b)]
      ++ ((if (s.timerConfig timer).forcedOverflowTimerValue ≠ 0 then [Event.storeForced timer 0]
            else [])
          ++ chain.map (fun cb => Event.callOvr cb (overflowCapture tim timer s)))) = _
    rw [edgeCalls_append, edgeCalls_append, h1, edgeCalls_map_ovr]
    rfl
  · rw [if_neg h0]
    rfl

theorem edgeCalls_flatMap_nil (f : Nat → List Event) (h : ∀ b, edgeCalls (f b) = [])
    (l : List Nat) : edgeCalls (l.flatMap f) = [] := by
  induction l with
  | nil => rfl
  | cons a l ih => rw [List.flatMap_cons, edgeCalls_append, h a, ih]; rfl

theorem ovrCalls_updateEvents (tim timer : Nat) (s : State) (chain : List Ptr) (b : Nat) :
    ovrCalls (updateEvents tim timer s chain b)
      = ovrCalls (serviceEvents tim timer s chain b) := by
  rw [ovrCalls_serviceEvents]
  unfold updateEvents
  by_cases h0 : b = 0
  · rw [if_pos h0, if_pos h0]
    have h1 : ovrCalls (if (s.timerConfig timer).forcedOverflowTimerValue ≠ 0 then
        [Event.storeForced timer 0] else []) = [] := by
      split <;> rfl
    show ovrCalls ([Event.storeIsts tim (0xFFFFFFFF ^^^ 2 ^ b)]
      ++ ((if (s.timerConfig timer).forcedOverflowTimerValue ≠ 0 then [Event.storeForced timer 0]
            else [])
          ++ chain.map (fun cb => Event.callOvr cb (overflowCapture tim timer s)))) = _
    rw [ovrCalls_append, ovrCalls_append, h1, ovrCalls_map]
    rfl
  · rw [if_neg h0, if_neg h0]
    rfl

theorem ovrCalls_flatMap_congr (f g : Nat → List Event) (h : ∀ b, ovrCalls (f b) = ovrCalls (g b))
    (l : List Nat) : ovrCalls (l.flatMap f) = ovrCalls (l.flatMap g) := by
  induction l with
  | nil => rfl
  | cons a l ih => rw [List.flatMap_cons, List.flatMap_cons, ovrCalls_append, ovrCalls_append, h a, ih]

/-- C16. The update-only dispatcher is a semantic subset of the full
dispatcher. For every state in which no channel-compare bit is
pending-and-enabled, `timUpdateHandler` and `timCCxHandler` give the same
result: the same stores and callback invocations in the same order and the
same final state. For every state (with a null-terminated active chain when
the overflow event is pending) `timUpdateHandler` returns, invokes no edge
callback, and invokes the callbacks of the overflow chain, in chain order with
the dispatch capture value, exactly when the overflow event is pending; these
are the overflow invocations of `timCCxHandler` whenever that one returns, and
the forced value is left the same by both. -/
theorem update_dispatcher_subset (fuel tim timer : Nat) (s : State) (chain : List Ptr) :
    ((∀ j, 1 ≤ j → j ≤ 4 → (pendingEvents tim s).testBit j = false) →
      timUpdateHandler fuel tim timer s = timCCxHandler fuel tim timer s)
    ∧ (32 ≤ fuel →
      ((pendingEvents tim s).testBit 0 = true →
        chainList s.next fuel (s.timerConfig timer).overflowCallbackActive = some chain) →
      ∃ s1 es1, timUpdateHandler fuel tim timer s = Except.ok s1
        ∧ s1.trace = s.trace ++ es1
        ∧ edgeCalls es1 = []
        ∧ ovrCalls es1 = (if (pendingEvents tim s).testBit 0 = true then
            chain.map (fun cb => (cb, overflowCapture tim timer s)) else [])
        ∧ ((∀ j, j < 4 → (pendingEvents tim s).testBit (j + 1) = true →
              (s.timerConfig timer).edgeCallback j ≠ 0) →
            ∃ s2 es2, timCCxHandler fuel tim timer s = Except.ok s2
              ∧ s2.trace = s.trace ++ es2
              ∧ ovrCalls es2 = ovrCalls es1
              ∧ (s2.timerConfig timer).forcedOverflowTimerValue
                  = (s1.timerConfig timer).forcedOverflowTimerValue)) := by
  constructor
  · intro hclear
    exact loops_agree fuel tim timer fuel (pendingEvents tim s) s (pendingEvents_lt tim s) hclear
  · intro hfuel hchain
    obtain ⟨s1, h1, h2, _, _, h5⟩ := timUpdateHandler_run fuel tim timer s chain hfuel hchain
    have hovr : ovrCalls ((bitsBelow 32 (pendingEvents tim s)).flatMap
        (updateEvents tim timer s chain))
        = ovrCalls ((bitsBelow 32 (pendingEvents tim s)).flatMap
            (serviceEvents tim timer s chain)) :=
      ovrCalls_flatMap_congr _ _ (ovrCalls_updateEvents tim timer s chain) _
    refine ⟨s1, _, h1, h2, edgeCalls_flatMap_nil _ (edgeCalls_updateEvents tim timer s chain) _,
      ?_, ?_⟩
    · rw [hovr, ovrCalls_bitsBelow]
      by_cases hb : (pendingEvents tim s).testBit 0 = true
      · rw [if_pos ⟨by decide, hb⟩, if_pos hb]
      · rw [if_neg (fun h => hb h.2), if_neg hb]
    · intro hedge
      obtain ⟨s2, g1, g2, _, _, g5⟩ := timCCxHandler_run fuel tim timer s chain hfuel hchain hedge
      exact ⟨s2, _, g1, g2, hovr.symm, by rw [g5, h5]⟩

theorem update_dispatcher_subset_witness :
    timUpdateHandler 32 0x40000C00 1 exampleWidePeriodState
      = timCCxHandler 32 0x40000C00 1 exampleWidePeriodState
    ∧ ∃ s1 es1, timUpdateHandler 32 0x40000C00 1 exampleDispatchState = Except.ok s1
        ∧ s1.trace = exampleDispatchState.trace ++ es1
        ∧ edgeCalls es1 = []
        ∧ ovrCalls es1 = [(7, 0xFFFF)] := by
  refine ⟨(update_dispatcher_subset 32 0x40000C00 1 exampleWidePeriodState []).1 ?_, ?_⟩
  · intro j h1 h4
    interval_cases j <;> decide
  · obtain ⟨s1, es1, a1, a2, a3, a4, _⟩ :=
      (update_dispatcher_subset 32 0x40000C00 1 exampleDispatchState [7]).2 (le_refl 32)
        (fun _ => rfl)
    exact ⟨s1, es1, a1, a2, a3, a4.trans (by decide)⟩

/-! ## What a returning dispatch implies -/

theorem overflowChainLoop_some (capture : Nat) (fuel : Nat) (cb : Ptr) (s s1 : State)
    (h : overflowChainLoop capture fuel cb s = Except.ok s1) :
    ∃ l, chainList s.next fuel cb = some l := by
  induction fuel generalizing cb s with
  | zero =>
    by_cases hcb : cb = 0
    · exact ⟨[], by simp [chainList, hcb]⟩
    · simp [overflowChainLoop, hcb] at h
  | succ fuel ih =>
    by_cases hcb : cb = 0
    · exact ⟨[], by simp [chainList, hcb]⟩
    · rw [overflowChainLoop, if_neg hcb] at h
      obtain ⟨l, hl⟩ := ih (s.next cb) (logEvent (Event.callOvr cb capture) s) h
      have hl2 : chainList s.next fuel (s.next cb) = some l := by
        simpa [logEvent] using hl
      exact ⟨cb :: l, by rw [chainList, if_neg hcb, hl2]; rfl⟩

theorem overflowCase_some (fuel tim timer : Nat) (s s1 : State)
    (h : overflowCase fuel tim timer s = Except.ok s1) :
    ∃ l, chainList s.next fuel (s.timerConfig timer).overflowCallbackActive = some l := by
  unfold overflowCase at h
  simp only [] at h
  obtain ⟨l, hl⟩ := overflowChainLoop_some _ _ _ _ _ h
  refine ⟨l, ?_⟩
  by_cases hf : (s.timerConfig timer).forcedOverflowTimerValue = 0
  · simpa [hf] using hl
  · simpa [hf, storeForced, logEvent, setAt] using hl

theorem edgeCase_some (cb : Ptr) (capture : Nat) (s s1 : State)
    (h : edgeCase cb capture s = Except.ok s1) : cb ≠ 0 := by
  intro h0
  simp [edgeCase, h0] at h

theorem switch_ok_pre (fuel tim timer k : Nat) (s s0 s2 : State) (hk : k < 32)
    (hfr : dispatchFrame tim timer s s0)
    (h : timCCxSwitch fuel tim timer (31 - k) (storeIsts tim (0xFFFFFFFF ^^^ 2 ^ k) s0)
      = Except.ok s2) :
    (∀ j, j < 4 → k = j + 1 → (s.timerConfig timer).edgeCallback j ≠ 0)
    ∧ (k = 0 → ∃ chain,
        chainList s.next fuel (s.timerConfig timer).overflowCallbackActive = some chain) := by
  obtain ⟨f1, _, _, _⟩ := storeIsts_frame tim timer (0xFFFFFFFF ^^^ 2 ^ k) s s0 hfr
  obtain ⟨a1, a2, a3, _⟩ := f1
  rw [timCCxSwitch_cases] at h
  obtain rfl | rfl | rfl | rfl | rfl | h5 : k = 0 ∨ k = 1 ∨ k = 2 ∨ k = 3 ∨ k = 4 ∨ 5 ≤ k := by omega
  · rw [if_pos (by decide)] at h
    obtain ⟨l, hl⟩ := overflowCase_some _ _ _ _ _ h
    rw [a1, a2] at hl
    exact ⟨fun j _ hj => absurd hj (by omega), fun _ => ⟨l, hl⟩⟩
  · rw [if_neg (by decide), if_pos (by decide)] at h
    have hne := edgeCase_some _ _ _ _ h
    rw [a3] at hne
    refine ⟨fun j _ hj => ?_, fun h0 => absurd h0 (by decide)⟩
    have : j = 0 := by omega
    subst this
    exact hne
  · rw [if_neg (by decide), if_neg (by decide), if_pos (by decide)] at h
    have hne := edgeCase_some _ _ _ _ h
    rw [a3] at hne
    refine ⟨fun j _ hj => ?_, fun h0 => absurd h0 (by decide)⟩
    have : j = 1 := by omega
    subst this
    exact hne
  · rw [if_neg (by decide), if_neg (by decide), if_neg (by decide), if_pos (by decide)] at h
    have hne := edgeCase_some _ _ _ _ h
    rw [a3] at hne
    refine ⟨fun j _ hj => ?_, fun h0 => absurd h0 (by decide)⟩
    have : j = 2 := by omega
    subst this
    exact hne
  · rw [if_neg (by decide), if_neg (by decide), if_neg (by decide), if_neg (by decide),
      if_pos (by decide)] at h
    have hne := edgeCase_some _ _ _ _ h
    rw [a3] at hne
    refine ⟨fun j _ hj => ?_, fun h0 => absurd h0 (by decide)⟩
    have : j = 3 := by omega
    subst this
    exact hne
  · exact ⟨fun j hj hkj => absurd hkj (by omega), fun h0 => absurd h0 (by omega)⟩

theorem timCCxLoop_ok_pre (fuel tim timer : Nat) (s : State) (k : Nat) :
    k ≤ 32 → ∀ n p s0 s1, p < 2 ^ k → dispatchFrame tim timer s s0 →
    timCCxLoop fuel tim timer n p s0 = Except.ok s1 →
    (∀ j, j < 4 → p.testBit (j + 1) = true → (s.timerConfig timer).edgeCallback j ≠ 0)
    ∧ (p.testBit 0 = true → ∃ chain,
        chainList s.next fuel (s.timerConfig timer).overflowCallbackActive = some chain) := by
  induction k with
  | zero =>
    intro _ n p s0 s1 hp _ _
    have hp0 : p = 0 := by simpa using hp
    subst hp0
    exact ⟨fun j _ hb => absurd hb (by simp), fun hb => absurd hb (by simp)⟩
  | succ k ih =>
    intro hk32 n p s0 s1 hp hfr hrun
    by_cases hb : p.testBit k = true
    · have hk : k < 32 := by omega
      have hp0 : p ≠ 0 := by
        intro h
        rw [h] at hb
        simp at hb
      cases n with
      | zero => simp [timCCxLoop, hp0] at hrun
      | succ m =>
        rw [timCCxLoop, if_neg hp0] at hrun
        simp only [] at hrun
        rw [builtin_clz_top p k hp hb hk, top_mask k hk] at hrun
        cases hsw : timCCxSwitch fuel tim timer (31 - k) (storeIsts tim (0xFFFFFFFF ^^^ 2 ^ k) s0) with
        | error f =>
          rw [hsw] at hrun
          cases hrun
        | ok s2 =>
          rw [hsw] at hrun
          simp only [] at hrun
          obtain ⟨pe, pc⟩ := switch_ok_pre fuel tim timer k s s0 s2 hk hfr hsw
          have hbit : ∀ i, (p &&& (0xFFFFFFFF ^^^ 2 ^ k)).testBit i
              = (p.testBit i && decide (i < k)) := fun i => clear_top_testBit p k i hp hk
          have hhigh : ∀ i, k < i → p.testBit i = false := fun i hi =>
            Nat.testBit_lt_two_pow (lt_of_lt_of_le hp (Nat.pow_le_pow_right (by decide) hi))
          by_cases hk0 : k = 0
          · subst hk0
            refine ⟨fun j _ hbj => ?_, fun _ => pc rfl⟩
            rw [hhigh (j + 1) (by omega)] at hbj
            exact absurd hbj (by decide)
          · obtain ⟨s2b, e1, _, e3, _, _⟩ := service_step fuel tim timer k s s0 [] hk hfr
              (fun h0 => absurd h0 hk0) (fun h0 => absurd h0 hk0) pe
            have hs2 : s2b = s2 := by
              rw [hsw] at e1
              injection e1 with e1
              exact e1.symm
            rw [hs2] at e3
            obtain ⟨re, rc⟩ := ih (by omega) m (p &&& (0xFFFFFFFF ^^^ 2 ^ k)) s2 s1
              (clear_top_lt p k hp hk) e3 hrun
            refine ⟨fun j hj hbj => ?_, fun hb0 => ?_⟩
            · rcases Nat.lt_trichotomy (j + 1) k with hlt | heq | hgt
              · exact re j hj (by rw [hbit, hbj]; simp [hlt])
              · exact pe j hj heq.symm
              · rw [hhigh (j + 1) hgt] at hbj
                exact absurd hbj (by decide)
            · exact rc (by rw [hbit, hb0]; simp; omega)
    · have hb2 : p.testBit k = false := by simpa using hb
      exact ih (by omega) n p s0 s1 (lt_of_testBit_false p k hp hb2) hfr hrun

theorem timCCxHandler_ok_pre (fuel tim timer : Nat) (s s1 : State)
    (h : timCCxHandler fuel tim timer s = Except.ok s1) :
    (∀ j, j < 4 → (pendingEvents tim s).testBit (j + 1) = true →
      (s.timerConfig timer).edgeCallback j ≠ 0)
    ∧ ((pendingEvents tim s).testBit 0 = true → ∃ chain,
        chainList s.next fuel (s.timerConfig timer).overflowCallbackActive = some chain) :=
  timCCxLoop_ok_pre fuel tim timer s 32 (le_refl 32) fuel (pendingEvents tim s) s s1
    (pendingEvents_lt tim s) (dispatchFrame_refl tim timer s) h

/-- C19. Within one `timCCxHandler` invocation the pending events are serviced
in strictly descending bit position. For every state, whenever the dispatcher
returns: the trace it adds is the concatenation, over the pending bits most
significant first, of the flag clear and the invocations of that bit; hence
the invocations are the edge callbacks of channel 4, 3, 2, 1 in that order, as
far as pending, followed by the callbacks of the overflow chain in chain order
from the head to the null terminator, all with one and the same capture value.
The dispatcher returns whenever the edge slots of the pending compare channels
are non-empty and the active chain is null-terminated. -/
theorem dispatch_descending_order (fuel tim timer : Nat) (s : State) (hfuel : 32 ≤ fuel) :
    (∀ s1, timCCxHandler fuel tim timer s = Except.ok s1 →
      ∃ chain es,
        ((pendingEvents tim s).testBit 0 = true →
          chainList s.next fuel (s.timerConfig timer).overflowCallbackActive = some chain)
        ∧ s1.trace = s.trace ++ es
        ∧ es = (bitsBelow 32 (pendingEvents tim s)).flatMap (serviceEvents tim timer s chain)
        ∧ (bitsBelow 32 (pendingEvents tim s)).Pairwise (fun a b => a > b)
        ∧ invocations es
          = (if (pendingEvents tim s).testBit 4 = true then
              [Event.callEdge ((s.timerConfig timer).edgeCallback 3) (s.regs tim).c4dt] else [])
            ++ ((if (pendingEvents tim s).testBit 3 = true then
              [Event.callEdge ((s.timerConfig timer).edgeCallback 2) (s.regs tim).c3dt] else [])
            ++ ((if (pendingEvents tim s).testBit 2 = true then
              [Event.callEdge ((s.timerConfig timer).edgeCallback 1) (s.regs tim).c2dt] else [])
            ++ ((if (pendingEvents tim s).testBit 1 = true then
              [Event.callEdge ((s.timerConfig timer).edgeCallback 0) (s.regs tim).c1dt] else [])
            ++ (if (pendingEvents tim s).testBit 0 = true then
              chain.map (fun cb => Event.callOvr cb (overflowCapture tim timer s)) else [])))))
    ∧ (∀ chain,
        ((pendingEvents tim s).testBit 0 = true →
          chainList s.next fuel (s.timerConfig timer).overflowCallbackActive = some chain) →
        (∀ j, j < 4 → (pendingEvents tim s).testBit (j + 1) = true →
          (s.timerConfig timer).edgeCallback j ≠ 0) →
        ∃ s1, timCCxHandler fuel tim timer s = Except.ok s1) := by
  constructor
  · intro s1 hrun
    obtain ⟨hedge, hc⟩ := timCCxHandler_ok_pre fuel tim timer s s1 hrun
    have hex : ∃ chain, (pendingEvents tim s).testBit 0 = true →
        chainList s.next fuel (s.timerConfig timer).overflowCallbackActive = some chain := by
      by_cases hb : (pendingEvents tim s).testBit 0 = true
      · obtain ⟨chain, hchain⟩ := hc hb
        exact ⟨chain, fun _ => hchain⟩
      · exact ⟨[], fun h => absurd h hb⟩
    obtain ⟨chain, hchain⟩ := hex
    obtain ⟨s2, h1, h2, _⟩ := timCCxHandler_run fuel tim timer s chain hfuel hchain hedge
    have hs : s2 = s1 := by
      rw [hrun] at h1
      injection h1 with h1
      exact h1.symm
    rw [hs] at h2
    exact ⟨chain, _, hchain, h2, rfl, bitsBelow_descending _ _, invocations_bitsBelow _ _ _ _ _⟩
  · intro chain hchain hedge
    obtain ⟨s1, h1, _⟩ := timCCxHandler_run fuel tim timer s chain hfuel hchain hedge
    exact ⟨s1, h1⟩

theorem dispatch_descending_order_witness :
    ∃ s1 es, timCCxHandler 32 0x40000C00 1 exampleAllPendingState = Except.ok s1
      ∧ s1.trace = exampleAllPendingState.trace ++ es
      ∧ invocations es = [Event.callEdge 24 104, Event.callEdge 23 103, Event.callEdge 22 102,
          Event.callEdge 21 101, Event.callOvr 7 0xFFFF, Event.callOvr 3 0xFFFF] := by
  have h := dispatch_descending_order 32 0x40000C00 1 exampleAllPendingState (le_refl 32)
  obtain ⟨s1, hrun⟩ := h.2 [7, 3] (fun _ => rfl)
    (by
      intro j hj _
      interval_cases j <;> decide)
  obtain ⟨chain, es, hc, h2, _, _, h5⟩ := h.1 s1 hrun
  have hchain : chain = [7, 3] := by
    have h1 := hc (by decide)
    have h3 : chainList exampleAllPendingState.next 32
        (exampleAllPendingState.timerConfig 1).overflowCallbackActive = some [7, 3] := rfl
    rw [h3] at h1
    injection h1 with h1
    exact h1.symm
  subst hchain
  exact ⟨s1, es, hrun, h2, h5.trans (by decide)⟩

/-! ## Input filter and prescaler: claims -/

theorem getFilterLoop_ge (ticks : Nat) (n i : Nat) (h : i + n = 16) :
    i - 1 ≤ getFilterLoop ticks n i := by
  induction n generalizing i with
  | zero =>
    rw [getFilterLoop]
    omega
  | succ n ih =>
    rw [getFilterLoop]
    split
    · exact le_refl _
    · have := ih (i + 1) (by omega)
      omega

theorem getFilterLoop_le (ticks : Nat) (n i : Nat) (h : i + n = 16) :
    getFilterLoop ticks n i ≤ 15 := by
  induction n generalizing i with
  | zero =>
    rw [getFilterLoop]
  | succ n ih =>
    rw [getFilterLoop]
    split
    · omega
    · exact ih (i + 1) (by omega)

theorem getFilterLoop_bracket (ticks : Nat) (n i : Nat) (h : i + n = 16) (hi : 1 ≤ i)
    (hinv : ftab.getD (i - 1) 0 ≤ ticks) :
    ftab.getD (getFilterLoop ticks n i) 0 ≤ ticks
    ∧ (getFilterLoop ticks n i = 15 ∨ ticks < ftab.getD (getFilterLoop ticks n i + 1) 0) := by
  induction n generalizing i with
  | zero =>
    have hi16 : i = 16 := by omega
    subst hi16
    rw [getFilterLoop]
    exact ⟨hinv, Or.inl rfl⟩
  | succ n ih =>
    rw [getFilterLoop]
    split
    · rename_i hgt
      have h1 : i - 1 + 1 = i := by omega
      refine ⟨hinv, Or.inr ?_⟩
      rw [h1]
      exact hgt
    · rename_i hle
      exact ih (i + 1) (by omega) (by omega) (by simpa using hle)

theorem getFilterLoop_mono (t1 t2 : Nat) (ht : t1 ≤ t2) (n i : Nat) (h : i + n = 16) :
    getFilterLoop t1 n i ≤ getFilterLoop t2 n i := by
  induction n generalizing i with
  | zero =>
    rw [getFilterLoop, getFilterLoop]
  | succ n ih =>
    rw [getFilterLoop, getFilterLoop]
    by_cases h1 : ftab.getD i 0 > t1
    · rw [if_pos h1]
      by_cases h2 : ftab.getD i 0 > t2
      · rw [if_pos h2]
      · rw [if_neg h2]
        have := getFilterLoop_ge t2 n (i + 1) (by omega)
        omega
    · rw [if_neg h1]
      have h2 : ¬ ftab.getD i 0 > t2 := by omega
      rw [if_neg h2]
      exact ih (i + 1) (by omega)

/-- C25. For every `ticks`, `getFilter(ticks)` is an index `r` from 0 to 15 of
the table `ftab = [1,2,4,8,12,16,24,32,48,64,80,96,128,160,192,256]`; when
`ticks` is at least 1, `ftab[r] <= ticks` and `r = 15` or `ticks < ftab[r+1]`;
`getFilter(0) = 0`; and `getFilter` is monotonically non-decreasing. -/
theorem getFilter_spec (ticks : Nat) :
    ftab = [1, 2, 4, 8, 12, 16, 24, 32, 48, 64, 80, 96, 128, 160, 192, 256]
    ∧ getFilter ticks ≤ 15
    ∧ (1 ≤ ticks → ftab.getD (getFilter ticks) 0 ≤ ticks
        ∧ (getFilter ticks = 15 ∨ ticks < ftab.getD (getFilter ticks + 1) 0))
    ∧ getFilter 0 = 0
    ∧ ∀ t2, ticks ≤ t2 → getFilter ticks ≤ getFilter t2 :=
  ⟨rfl, getFilterLoop_le ticks 15 1 rfl,
    fun h1 => getFilterLoop_bracket ticks 15 1 rfl (le_refl 1) h1, rfl,
    fun t2 h => getFilterLoop_mono ticks t2 h 15 1 rfl⟩

theorem getFilter_spec_witness :
    getFilter 100 = 11 ∧ ftab.getD (getFilter 100) 0 ≤ 100
    ∧ (getFilter 100 = 15 ∨ 100 < ftab.getD (getFilter 100 + 1) 0)
    ∧ getFilter 100 ≤ getFilter 300 :=
  ⟨by decide, ((getFilter_spec 100).2.2.1 (by decide)).1,
    ((getFilter_spec 100).2.2.1 (by decide)).2,
    (getFilter_spec 100).2.2.2.2 300 (by decide)⟩

/-- C24. For every timer clock `clk = timerClock(tim)` and every `hz` with
`0 < hz <= clk` and `clk + hz / 2 < 2 ^ 32`, `timerGetPrescalerByDesiredHertz`
divides by a non-zero `hz` and returns `((clk + hz / 2) / hz - 1) mod 2 ^ 16`;
the divider `q = (clk + hz / 2) / hz` is at least 1 and is a nearest integer to
`clk / hz` (`2 * |clk - q * hz| <= hz`), and when `q <= 65536` the result is
`q - 1`. For every `hz > clk` the function returns 0. -/
theorem prescaler_by_desired_hertz (T : Target) (tim hz : Nat) :
    (0 < hz → hz ≤ T.timerClock tim → T.timerClock tim + hz / 2 < 2 ^ 32 →
      timerGetPrescalerByDesiredHertz T tim hz
          = some (((T.timerClock tim + hz / 2) / hz - 1) % 2 ^ 16)
      ∧ 1 ≤ (T.timerClock tim + hz / 2) / hz
      ∧ 2 * ((T.timerClock tim + hz / 2) / hz * hz) ≤ 2 * T.timerClock tim + hz
      ∧ 2 * T.timerClock tim ≤ 2 * ((T.timerClock tim + hz / 2) / hz * hz) + hz
      ∧ ((T.timerClock tim + hz / 2) / hz ≤ 65536 →
          timerGetPrescalerByDesiredHertz T tim hz
            = some ((T.timerClock tim + hz / 2) / hz - 1)))
    ∧ (T.timerClock tim < hz → timerGetPrescalerByDesiredHertz T tim hz = some 0) := by
  refine ⟨fun h0 hle hlt => ?_, fun hgt => ?_⟩
  · have hq : 1 ≤ (T.timerClock tim + hz / 2) / hz :=
      (Nat.le_div_iff_mul_le h0).2 (by omega)
    have hdm := Nat.div_add_mod (T.timerClock tim + hz / 2) hz
    have hm := Nat.mod_lt (T.timerClock tim + hz / 2) h0
    have hcomm : (T.timerClock tim + hz / 2) / hz * hz
        = hz * ((T.timerClock tim + hz / 2) / hz) := Nat.mul_comm _ _
    have hval : timerGetPrescalerByDesiredHertz T tim hz
        = some (((T.timerClock tim + hz / 2) / hz - 1) % 2 ^ 16) := by
      unfold timerGetPrescalerByDesiredHertz
      rw [if_neg (by omega), if_neg (by omega), Nat.mod_eq_of_lt hlt]
      refine congrArg some ?_
      generalize (T.timerClock tim + hz / 2) / hz = q at hq
      omega
    refine ⟨hval, hq, ?_, ?_, fun h65 => ?_⟩
    · rw [hcomm]
      omega
    · rw [hcomm]
      omega
    · rw [hval]
      refine congrArg some ?_
      apply Nat.mod_eq_of_lt
      generalize (T.timerClock tim + hz / 2) / hz = q at h65
      omega
  · unfold timerGetPrescalerByDesiredHertz
    rw [if_pos hgt]

theorem prescaler_by_desired_hertz_witness :
    (timerGetPrescalerByDesiredHertz exampleTarget 0x40000C00 3
        = some (((1000000 + 3 / 2) / 3 - 1) % 2 ^ 16)
      ∧ timerGetPrescalerByDesiredHertz exampleTarget 0x40000C00 3 = some 5652)
    ∧ (timerGetPrescalerByDesiredHertz exampleTarget 0x40000C00 400
        = some ((1000000 + 400 / 2) / 400 - 1)
      ∧ timerGetPrescalerByDesiredHertz exampleTarget 0x40000C00 400 = some 2499)
    ∧ timerGetPrescalerByDesiredHertz exampleTarget 0x40000C00 2000000 = some 0 :=
  ⟨⟨((prescaler_by_desired_hertz exampleTarget 0x40000C00 3).1
        (by decide) (by decide) (by decide)).1, by decide⟩,
    ⟨((prescaler_by_desired_hertz exampleTarget 0x40000C00 400).1
        (by decide) (by decide) (by decide)).2.2.2.2 (by decide), by decide⟩,
    (prescaler_by_desired_hertz exampleTarget 0x40000C00 2000000).2 (by decide)⟩

/-! ## Start-up state and the first request on a timer -/

theorem timerChInit_resolved (T : Target) (channel type : Nat) (p : Int) (irq : Nat) (s : State)
    (hw : timerHardware_t) (hget : T.TIMER_HARDWARE.get? channel = some hw)
    (hres : lookupTimerIndex T hw.tim < USED_TIMER_COUNT T) :
    timerChInit T channel type p irq s
      = if p < (s.timerInfo (lookupTimerIndex T hw.tim) : Int) then
          storePriority (lookupTimerIndex T hw.tim) (p % 256).toNat
            (nvic_irq_enable irq (T.NVIC_PRIORITY_BASE p) (T.NVIC_PRIORITY_SUB p)
              (tmr_counter_enable ((usedTimers T).getD (lookupTimerIndex T hw.tim) 0)
                (configTimeBase T ((usedTimers T).getD (lookupTimerIndex T hw.tim) 0) 0 1
                  (storeType channel type s))))
        else storeType channel type s := by
  have hlt : ¬ channel ≥ TIMER_CHANNEL_COUNT T := by
    intro hge
    have hnone : T.TIMER_HARDWARE.get? channel = none := List.get?_eq_none.mpr hge
    rw [hnone] at hget
    cases hget
  have hnot : ¬ lookupTimerIndex T hw.tim ≥ USED_TIMER_COUNT T := by omega
  have h3 : (storeType channel type s).timerInfo = s.timerInfo := by
    simp [storeType, logEvent]
  unfold timerChInit
  rw [if_neg hlt, hget]
  simp only []
  rw [if_neg hnot, h3]

theorem timerChInit_timerInfo_other (T : Target) (channel type : Nat) (p : Int) (irq : Nat)
    (s : State) (timer : Nat)
    (hother : ∀ hw, T.TIMER_HARDWARE.get? channel = some hw → lookupTimerIndex T hw.tim ≠ timer) :
    (timerChInit T channel type p irq s).timerInfo timer = s.timerInfo timer := by
  unfold timerChInit
  split
  · rfl
  · split
    · rfl
    · rename_i timHw hget
      have hne := hother timHw hget
      simp only []
      split
      · rfl
      · split
        · rw [escalation_timerInfo]
          simp [setAt, storeType, logEvent, Ne.symm hne]
        · rfl

theorem runChInit_timerInfo_other (T : Target) (timer : Nat) (calls : List ChInitCall) (s : State)
    (hother : ∀ c ∈ calls, ∀ hw, T.TIMER_HARDWARE.get? c.channel = some hw →
      lookupTimerIndex T hw.tim ≠ timer) :
    (runChInit T calls s).timerInfo timer = s.timerInfo timer := by
  induction calls generalizing s with
  | nil => rfl
  | cons c cs ih =>
    have h1 : runChInit T (c :: cs) s
        = runChInit T cs (timerChInit T c.channel c.type c.irqPriority c.irq s) := rfl
    rw [h1, ih _ (fun x hx => hother x (List.mem_cons_of_mem c hx)),
      timerChInit_timerInfo_other T c.channel c.type c.irqPriority c.irq s timer
        (hother c (List.mem_cons_self c cs))]

theorem escalation_trace (T : Target) (tim : Nat) (irq : Nat) (p : Int) (timer : Nat) (s : State) :
    (storePriority timer (p % 256).toNat
      (nvic_irq_enable irq (T.NVIC_PRIORITY_BASE p) (T.NVIC_PRIORITY_SUB p)
        (tmr_counter_enable tim (configTimeBase T tim 0 1 s)))).trace
      = s.trace ++ [Event.base_init tim 0xFFFF ((T.timerClock tim / 1 + 2 ^ 32 - 1) % 2 ^ 32),
          Event.clock_source_div_set tim, Event.cnt_dir_set tim, Event.counter_enable tim,
          Event.nvic_irq_enable irq (T.NVIC_PRIORITY_BASE p) (T.NVIC_PRIORITY_SUB p),
          Event.storePriority timer (p % 256).toNat] := by
  simp [storePriority, nvic_irq_enable, tmr_counter_enable, configTimeBase, tmr_cnt_dir_set,
    tmr_clock_source_div_set, tmr_base_init, logEvent]

/-- C23. After `timerInit` every channel is tagged `TYPE_FREE`, the committed
priority of every timer is 255 and every callback directory is empty (no
update, edge or overflow callback, a null chain head whose traversal is the
empty list, forced value 0). Consequently, for the first `timerChInit` on a
resolvable timer (earlier calls, if any, were on other timers) with requested
priority `p`: the call commits `p` and starts the counter of the timer if and
only if `0 <= p <= 254`; in that case the counter is enabled and the interrupt
line is enabled with the priority fields of `p`; and a first request with
`p = 255` only stores the type tag of the channel, so the device registers
and the interrupt controller are unchanged and the committed priority stays
255. -/
theorem first_request_after_init (T : Target) (s0 : State) (calls : List ChInitCall)
    (channel type : Nat) (p : Int) (irq : Nat) (hw : timerHardware_t)
    (hget : T.TIMER_HARDWARE.get? channel = some hw)
    (hres : lookupTimerIndex T hw.tim < USED_TIMER_COUNT T)
    (hother : ∀ c ∈ calls, ∀ h, T.TIMER_HARDWARE.get? c.channel = some h →
      lookupTimerIndex T h.tim ≠ lookupTimerIndex T hw.tim) :
    (∀ i, i < TIMER_CHANNEL_COUNT T → (timerInit T s0).timerChannelInfo i = TYPE_FREE)
    ∧ (∀ i, i < USED_TIMER_COUNT T →
        (timerInit T s0).timerInfo i = 255
        ∧ ((timerInit T s0).timerConfig i).updateCallback = 0
        ∧ (∀ j, ((timerInit T s0).timerConfig i).edgeCallback j = 0)
        ∧ (∀ j, ((timerInit T s0).timerConfig i).overflowCallback j = 0)
        ∧ ((timerInit T s0).timerConfig i).overflowCallbackActive = 0
        ∧ ((timerInit T s0).timerConfig i).forcedOverflowTimerValue = 0
        ∧ ∀ fuel, chainList (timerInit T s0).next fuel
            ((timerInit T s0).timerConfig i).overflowCallbackActive = some [])
    ∧ ((((timerChInit T channel type p irq (runChInit T calls (timerInit T s0))).timerInfo
            (lookupTimerIndex T hw.tim) : Int) = p
          ∧ Event.counter_enable ((usedTimers T).getD (lookupTimerIndex T hw.tim) 0)
              ∈ (timerChInit T channel type p irq (runChInit T calls (timerInit T s0))).trace.drop
                  (runChInit T calls (timerInit T s0)).trace.length)
        ↔ (0 ≤ p ∧ p ≤ 254))
    ∧ (0 ≤ p → p ≤ 254 →
        ((timerChInit T channel type p irq (runChInit T calls (timerInit T s0))).regs
            ((usedTimers T).getD (lookupTimerIndex T hw.tim) 0)).tmren = true
        ∧ (timerChInit T channel type p irq (runChInit T calls (timerInit T s0))).nvic irq
            = some (T.NVIC_PRIORITY_BASE p, T.NVIC_PRIORITY_SUB p))
    ∧ (p = 255 →
        timerChInit T channel type p irq (runChInit T calls (timerInit T s0))
          = storeType channel type (runChInit T calls (timerInit T s0))
        ∧ (timerChInit T channel type p irq (runChInit T calls (timerInit T s0))).regs
            = (runChInit T calls (timerInit T s0)).regs
        ∧ (timerChInit T channel type p irq (runChInit T calls (timerInit T s0))).nvic
            = (runChInit T calls (timerInit T s0)).nvic
        ∧ (timerChInit T channel type p irq (runChInit T calls (timerInit T s0))).timerInfo
            (lookupTimerIndex T hw.tim) = 255) := by
  have hS : (runChInit T calls (timerInit T s0)).timerInfo (lookupTimerIndex T hw.tim) = 255 := by
    rw [runChInit_timerInfo_other T _ calls _ hother, timerInit_timerInfo T s0 _ hres]
  generalize runChInit T calls (timerInit T s0) = S at hS
  have heq := timerChInit_resolved T channel type p irq S hw hget hres
  rw [hS] at heq
  refine ⟨fun i hi => ?_, fun i hi => ?_, ?_, ?_, ?_⟩
  · simp [timerInit, logEvent, hi]
  · have hc : (timerInit T s0).timerConfig i = zeroConfig := by
      simp [timerInit, logEvent, hi]
    rw [hc]
    refine ⟨timerInit_timerInfo T s0 i hi, rfl, fun _ => rfl, fun _ => rfl, rfl, rfl, fun fuel => ?_⟩
    cases fuel <;> rfl
  · by_cases hp : p < ((255 : Nat) : Int)
    · rw [if_pos hp] at heq
      rw [heq, escalation_timerInfo, escalation_trace]
      have hp254 : p ≤ 254 := by omega
      constructor
      · rintro ⟨h1, _⟩
        simp only [setAt, if_true] at h1
        have h2 : (0 : Int) ≤ ((p % 256).toNat : Int) := Int.ofNat_nonneg _
        rw [h1] at h2
        exact ⟨h2, hp254⟩
      · rintro ⟨h0, _⟩
        constructor
        · simp only [setAt, if_true]
          rw [Int.toNat_of_nonneg (Int.emod_nonneg _ (by decide))]
          exact Int.emod_eq_of_lt h0 (by omega)
        · simp [storeType, logEvent]
    · rw [if_neg hp] at heq
      rw [heq]
      constructor
      · rintro ⟨_, h2⟩
        simp [storeType, logEvent] at h2
      · rintro ⟨_, h2⟩
        omega
  · intro h0 h254
    have hp : p < ((255 : Nat) : Int) := by omega
    rw [if_pos hp] at heq
    rw [heq]
    constructor
    · simp [storePriority, nvic_irq_enable, tmr_counter_enable, configTimeBase, tmr_cnt_dir_set,
        tmr_clock_source_div_set, tmr_base_init, logEvent, setAt]
    · simp [storePriority, nvic_irq_enable, logEvent, setAt]
  · intro h255
    have hp : ¬ p < ((255 : Nat) : Int) := by omega
    rw [if_neg hp] at heq
    rw [heq]
    refine ⟨rfl, ?_, ?_, ?_⟩
    · simp [storeType, logEvent]
    · simp [storeType, logEvent]
    · simpa [storeType, logEvent] using hS

theorem first_request_after_init_witness :
    ((((timerChInit exampleTarget 0 1 5 29
            (runChInit exampleTarget [{ channel := 2, type := 1, irqPriority := 3, irq := 28 }]
              (timerInit exampleTarget resetState))).timerInfo
            (lookupTimerIndex exampleTarget 0x40000C00) : Int) = 5
        ∧ Event.counter_enable
            ((usedTimers exampleTarget).getD (lookupTimerIndex exampleTarget 0x40000C00) 0)
          ∈ (timerChInit exampleTarget 0 1 5 29
              (runChInit exampleTarget [{ channel := 2, type := 1, irqPriority := 3, irq := 28 }]
                (timerInit exampleTarget resetState))).trace.drop
              (runChInit exampleTarget [{ channel := 2, type := 1, irqPriority := 3, irq := 28 }]
                (timerInit exampleTarget resetState)).trace.length))
    ∧ (timerChInit exampleTarget 0 1 255 29 (timerInit exampleTarget resetState)).regs
        = (timerInit exampleTarget resetState).regs
    ∧ ((timerChInit exampleTarget 0 1 255 29 (timerInit exampleTarget resetState)).regs
        0x40000C00).tmren = false :=
  ⟨(first_request_after_init exampleTarget resetState
      [{ channel := 2, type := 1, irqPriority := 3, irq := 28 }] 0 1 5 29
      { tim := 0x40000C00, channel := 1 } rfl (by decide)
      (fun c hc h hh => by
        obtain rfl := List.mem_singleton.1 hc
        have hh2 : some ({ tim := 0x40000800, channel := 1 } : timerHardware_t) = some h := hh
        injection hh2 with hh3
        subst hh3
        decide)).2.2.1.2 ⟨by decide, by decide⟩,
    ((first_request_after_init exampleTarget resetState [] 0 1 255 29
      { tim := 0x40000C00, channel := 1 } rfl (by decide)
      (fun c hc => absurd hc (List.not_mem_nil c))).2.2.2.2 rfl).2.1,
    by decide⟩

/-! ## Frame of the callback registration -/

theorem storeChain_frame (timer : Nat) (loc : ChainLoc) (v : Ptr) (s : State) :
    (∀ t, t ≠ timer → (storeChain timer loc v s).timerConfig t = s.timerConfig t)
    ∧ (storeChain timer loc v s).timerChannelInfo = s.timerChannelInfo
    ∧ (storeChain timer loc v s).timerInfo = s.timerInfo
    ∧ (storeChain timer loc v s).nvic = s.nvic := by
  cases loc
  · refine ⟨fun t ht => ?_, rfl, rfl, rfl⟩
    simp [storeChain, storeActive, logEvent, setAt, ht]
  · exact ⟨fun t ht => rfl, rfl, rfl, rfl⟩

theorem linkFrom_frame (timer : Nat) (loc : ChainLoc) (l : List Ptr) (s : State) :
    (∀ t, t ≠ timer → (linkFrom timer loc l s).timerConfig t = s.timerConfig t)
    ∧ (linkFrom timer loc l s).timerChannelInfo = s.timerChannelInfo
    ∧ (linkFrom timer loc l s).timerInfo = s.timerInfo
    ∧ (linkFrom timer loc l s).nvic = s.nvic := by
  induction l generalizing loc s with
  | nil => exact storeChain_frame timer loc 0 s
  | cons a l ih =>
    rw [linkFrom]
    have h1 := ih (ChainLoc.next a) (storeChain timer loc a s)
    have h2 := storeChain_frame timer loc a s
    exact ⟨fun t ht => (h1.1 t ht).trans (h2.1 t ht), h1.2.1.trans h2.2.1,
      h1.2.2.1.trans h2.2.2.1, h1.2.2.2.trans h2.2.2.2⟩

theorem linkFrom_active_next_other (timer : Nat) (l : List Ptr) (s : State) (x : Ptr)
    (hl : x ∉ l) : (linkFrom timer ChainLoc.active l s).next x = s.next x := by
  cases l with
  | nil => rfl
  | cons a l =>
    simp only [List.mem_cons, not_or] at hl
    rw [linkFrom, linkFrom_next_other timer l a _ x hl.1 hl.2]
    rfl

theorem interrupt_enable_frame (tim mask : Nat) (en : Bool) (s : State) :
    (tmr_interrupt_enable tim mask en s).nvic = s.nvic
    ∧ (∀ d, d ≠ tim → (tmr_interrupt_enable tim mask en s).regs d = s.regs d)
    ∧ { (tmr_interrupt_enable tim mask en s).regs tim with iden := (s.regs tim).iden }
        = s.regs tim := by
  refine ⟨rfl, fun d hd => ?_, ?_⟩
  · simp [tmr_interrupt_enable, logEvent, setAt, hd]
  · simp [tmr_interrupt_enable, logEvent, setAt]

theorem updateOverflow_frame (timer tim : Nat) (s : State) :
    (∀ t, t ≠ timer → (timerChConfig_UpdateOverflow timer tim s).timerConfig t = s.timerConfig t)
    ∧ (timerChConfig_UpdateOverflow timer tim s).timerChannelInfo = s.timerChannelInfo
    ∧ (timerChConfig_UpdateOverflow timer tim s).timerInfo = s.timerInfo
    ∧ (timerChConfig_UpdateOverflow timer tim s).nvic = s.nvic
    ∧ (∀ x, x ∉ presentOverflow (s.timerConfig timer) →
        (timerChConfig_UpdateOverflow timer tim s).next x = s.next x)
    ∧ (∀ d, d ≠ tim → (timerChConfig_UpdateOverflow timer tim s).regs d = s.regs d)
    ∧ { (timerChConfig_UpdateOverflow timer tim s).regs tim with iden := (s.regs tim).iden }
        = s.regs tim := by
  have hf := linkFrom_frame timer ChainLoc.active (presentOverflow (s.timerConfig timer)) s
  have hr := linkFrom_regs timer ChainLoc.active (presentOverflow (s.timerConfig timer)) s
  have hc := updateOverflow_config timer tim s
  have hi := interrupt_enable_fields tim TMR_OVF_INT
    (decide (((rebuildChain timer s).timerConfig timer).overflowCallbackActive ≠ 0))
    (rebuildChain timer s)
  have hn := interrupt_enable_frame tim TMR_OVF_INT
    (decide (((rebuildChain timer s).timerConfig timer).overflowCallbackActive ≠ 0))
    (rebuildChain timer s)
  have hu : timerChConfig_UpdateOverflow timer tim s
      = tmr_interrupt_enable tim TMR_OVF_INT
          (decide (((rebuildChain timer s).timerConfig timer).overflowCallbackActive ≠ 0))
          (rebuildChain timer s) := rfl
  rw [← hu] at hi hn
  rw [rebuildChain_eq] at hc hi hn
  refine ⟨fun t ht => ?_, ?_, ?_, ?_, fun x hx => ?_, fun d hd => ?_, ?_⟩
  · rw [hc.1]
    exact hf.1 t ht
  · rw [hi.2.2.2]
    exact hf.2.1
  · rw [hi.2.2.1]
    exact hf.2.2.1
  · rw [hn.1]
    exact hf.2.2.2
  · rw [hc.2]
    exact linkFrom_active_next_other timer _ s x hx
  · rw [hn.2.1 d hd, hr]
  · have h3 := hn.2.2
    rw [hr] at h3
    exact h3

theorem configSlots_frame (timer : Nat) (timHw : timerHardware_t) (cb ovf : Ptr) (s : State) :
    (timerChConfigCallbacksSlots timer timHw cb ovf s).timerConfig
        = setAt s.timerConfig timer
            { s.timerConfig timer with
              edgeCallback := setAt (s.timerConfig timer).edgeCallback
                (lookupChannelIndex timHw.channel) cb
              overflowCallback := setAt (s.timerConfig timer).overflowCallback
                (lookupChannelIndex timHw.channel) ovf }
    ∧ (timerChConfigCallbacksSlots timer timHw cb ovf s).timerChannelInfo = s.timerChannelInfo
    ∧ (timerChConfigCallbacksSlots timer timHw cb ovf s).timerInfo = s.timerInfo
    ∧ (timerChConfigCallbacksSlots timer timHw cb ovf s).nvic = s.nvic
    ∧ (timerChConfigCallbacksSlots timer timHw cb ovf s).next = s.next
    ∧ (∀ d, d ≠ timHw.tim →
        (timerChConfigCallbacksSlots timer timHw cb ovf s).regs d = s.regs d)
    ∧ { (timerChConfigCallbacksSlots timer timHw cb ovf s).regs timHw.tim with
          iden := (s.regs timHw.tim).iden } = s.regs timHw.tim := by
  unfold timerChConfigCallbacksSlots
  by_cases hcb : cb = 0
  · refine ⟨?_, ?_, ?_, ?_, ?_, fun d hd => ?_, ?_⟩ <;>
      simp [hcb, storeOverflow, storeEdge, tmr_interrupt_enable, logEvent, setAt]
    · funext t
      unfold setAt
      by_cases ht : t = timer <;> simp [ht]
    · simp [hd]
  · refine ⟨?_, ?_, ?_, ?_, ?_, fun d hd => ?_, ?_⟩ <;>
      simp [hcb, storeOverflow, storeEdge, tmr_interrupt_enable, logEvent, setAt]
    · funext t
      unfold setAt
      by_cases ht : t = timer <;> simp [ht]
    · simp [hd]

theorem TIM_IT_CCx_pow (c : Nat) (h1 : 1 ≤ c) (h15 : c ≤ 15) : TIM_IT_CCx c = 2 ^ c := by
  interval_cases c <;> rfl

theorem updateOverflow_slots (timer tim : Nat) (s : State) :
    ((timerChConfig_UpdateOverflow timer tim s).timerConfig timer).overflowCallback
        = (s.timerConfig timer).overflowCallback
    ∧ ((timerChConfig_UpdateOverflow timer tim s).timerConfig timer).updateCallback
        = (s.timerConfig timer).updateCallback
    ∧ ((timerChConfig_UpdateOverflow timer tim s).timerConfig timer).edgeCallback
        = (s.timerConfig timer).edgeCallback
    ∧ ((timerChConfig_UpdateOverflow timer tim s).timerConfig timer).forcedOverflowTimerValue
        = (s.timerConfig timer).forcedOverflowTimerValue := by
  rw [(updateOverflow_config timer tim s).1, rebuildChain_eq]
  exact linkFrom_slots timer ChainLoc.active (presentOverflow (s.timerConfig timer)) s timer

/-- C22. For every state and every `timerChConfigCallbacks` call on a
resolvable timer with a channel number `c` from 1 to 15 (the channel numbers
for which the shift of `TIM_IT_CCx` and the slot index are defined), the call
returns, and afterwards: the directory of every other timer is unchanged; the
update callback, the forced-overflow value and every edge and overflow slot
other than the one at index `lookupChannelIndex(c)` of this timer are
unchanged, and the two slots at that index hold the arguments; the channel
table, the timer registry and the interrupt controller are unchanged; the
`next` link of every record that is not registered in an overflow slot of this
timer is unchanged; the registers of every other device are unchanged; and of
the registers of this device only `iden` can differ, where every bit other
than bit 0 (`TMR_OVF_INT`) and bit `c` (`TIM_IT_CCx(c)`) is unchanged. -/
theorem config_callbacks_frame (T : Target) (timHw : timerHardware_t) (cb ovf : Ptr) (s : State)
    (hres : lookupTimerIndex T timHw.tim < USED_TIMER_COUNT T)
    (h1 : 1 ≤ timHw.channel) (h15 : timHw.channel ≤ 15) :
    ∃ s1, timerChConfigCallbacks T timHw cb ovf s = Except.ok s1
      ∧ (∀ t, t ≠ lookupTimerIndex T timHw.tim → s1.timerConfig t = s.timerConfig t)
      ∧ (s1.timerConfig (lookupTimerIndex T timHw.tim)).updateCallback
          = (s.timerConfig (lookupTimerIndex T timHw.tim)).updateCallback
      ∧ (s1.timerConfig (lookupTimerIndex T timHw.tim)).forcedOverflowTimerValue
          = (s.timerConfig (lookupTimerIndex T timHw.tim)).forcedOverflowTimerValue
      ∧ (∀ j, j ≠ lookupChannelIndex timHw.channel →
          (s1.timerConfig (lookupTimerIndex T timHw.tim)).edgeCallback j
              = (s.timerConfig (lookupTimerIndex T timHw.tim)).edgeCallback j
          ∧ (s1.timerConfig (lookupTimerIndex T timHw.tim)).overflowCallback j
              = (s.timerConfig (lookupTimerIndex T timHw.tim)).overflowCallback j)
      ∧ (s1.timerConfig (lookupTimerIndex T timHw.tim)).edgeCallback
          (lookupChannelIndex timHw.channel) = cb
      ∧ (s1.timerConfig (lookupTimerIndex T timHw.tim)).overflowCallback
          (lookupChannelIndex timHw.channel) = ovf
      ∧ s1.timerChannelInfo = s.timerChannelInfo
      ∧ s1.timerInfo = s.timerInfo
      ∧ s1.nvic = s.nvic
      ∧ (∀ x, x ∉ presentOverflow (s1.timerConfig (lookupTimerIndex T timHw.tim)) →
          s1.next x = s.next x)
      ∧ (∀ d, d ≠ timHw.tim → s1.regs d = s.regs d)
      ∧ { s1.regs timHw.tim with iden := (s.regs timHw.tim).iden } = s.regs timHw.tim
      ∧ (∀ i, i < 32 → i ≠ 0 → i ≠ timHw.channel →
          (s1.regs timHw.tim).iden.testBit i = (s.regs timHw.tim).iden.testBit i)
      ∧ TMR_OVF_INT = 2 ^ 0 ∧ TIM_IT_CCx timHw.channel = 2 ^ timHw.channel := by
  have hS := configSlots_frame (lookupTimerIndex T timHw.tim) timHw cb ovf s
  have hU := updateOverflow_frame (lookupTimerIndex T timHw.tim) timHw.tim
    (timerChConfigCallbacksSlots (lookupTimerIndex T timHw.tim) timHw cb ovf s)
  have hL := updateOverflow_slots (lookupTimerIndex T timHw.tim) timHw.tim
    (timerChConfigCallbacksSlots (lookupTimerIndex T timHw.tim) timHw cb ovf s)
  have hpow := TIM_IT_CCx_pow timHw.channel h1 h15
  have hcfg : (timerChConfigCallbacksSlots (lookupTimerIndex T timHw.tim) timHw cb ovf
        s).timerConfig (lookupTimerIndex T timHw.tim)
      = { s.timerConfig (lookupTimerIndex T timHw.tim) with
          edgeCallback := setAt (s.timerConfig (lookupTimerIndex T timHw.tim)).edgeCallback
            (lookupChannelIndex timHw.channel) cb
          overflowCallback := setAt (s.timerConfig (lookupTimerIndex T timHw.tim)).overflowCallback
            (lookupChannelIndex timHw.channel) ovf } := by
    rw [hS.1]
    simp [setAt]
  refine ⟨_, configCallbacks_ok T timHw cb ovf s hres h1 h15, ?_⟩
  unfold timerChConfigCallbacksBody
  refine ⟨fun t ht => ?_, ?_, ?_, fun j hj => ⟨?_, ?_⟩, ?_, ?_, ?_, ?_, ?_, fun x hx => ?_,
    fun d hd => ?_, ?_, fun i hi hi0 hic => ?_, rfl, hpow⟩
  · rw [hU.1 t ht, hS.1]
    simp [setAt, ht]
  · rw [hL.2.1, hcfg]
  · rw [hL.2.2.2, hcfg]
  · rw [hL.2.2.1, hcfg]
    simp [setAt, hj]
  · rw [hL.1, hcfg]
    simp [setAt, hj]
  · rw [hL.2.2.1, hcfg]
    simp [setAt]
  · rw [hL.1, hcfg]
    simp [setAt]
  · rw [hU.2.1, hS.2.1]
  · rw [hU.2.2.1, hS.2.2.1]
  · rw [hU.2.2.2.1, hS.2.2.2.1]
  · have hp : presentOverflow ((timerChConfig_UpdateOverflow (lookupTimerIndex T timHw.tim)
          timHw.tim (timerChConfigCallbacksSlots (lookupTimerIndex T timHw.tim) timHw cb ovf
            s)).timerConfig (lookupTimerIndex T timHw.tim))
        = presentOverflow ((timerChConfigCallbacksSlots (lookupTimerIndex T timHw.tim) timHw cb
            ovf s).timerConfig (lookupTimerIndex T timHw.tim)) := by
      unfold presentOverflow overflowSlots
      rw [hL.1, hL.2.1]
    rw [hp] at hx
    rw [hU.2.2.2.2.1 x hx, hS.2.2.2.2.1]
  · rw [hU.2.2.2.2.2.1 d hd, hS.2.2.2.2.2.1 d hd]
  · have h2 := hU.2.2.2.2.2.2
    have h3 := hS.2.2.2.2.2.2
    rw [← h3, ← h2]
  · rw [updateOverflow_regs _ _ _ i hi hi0, configSlots_iden _ _ _ _ _ i hi, hpow,
      Nat.testBit_two_pow]
    have hne : ¬ timHw.channel = i := fun h => hic h.symm
    by_cases hcb : cb = 0 <;> simp [hcb, hne]

theorem config_callbacks_frame_witness :
    ∃ s1, timerChConfigCallbacks exampleTarget { tim := 0x40000C00, channel := 2 } 21 9
        exampleInitState = Except.ok s1
      ∧ (∀ t, t ≠ lookupTimerIndex exampleTarget 0x40000C00 →
          s1.timerConfig t = exampleInitState.timerConfig t)
      ∧ s1.timerInfo = exampleInitState.timerInfo
      ∧ (∀ d, d ≠ 0x40000C00 → s1.regs d = exampleInitState.regs d) :=
  Exists.elim
    (config_callbacks_frame exampleTarget { tim := 0x40000C00, channel := 2 } 21 9
      exampleInitState (by decide) (by decide) (by decide))
    (fun s1 h => ⟨s1, h.1, h.2.1, h.2.2.2.2.2.2.2.2.1, h.2.2.2.2.2.2.2.2.2.2.2.1⟩)

/-! ## Acyclicity of the rebuilt chain -/

theorem linkFrom_walk (timer : Nat) (l : List Ptr) (r : Ptr) (s : State)
    (h0 : ∀ y ∈ r :: l, y ≠ 0) (x : Ptr) (hx : x ∈ r :: l) (fuel : Nat)
    (hf : (r :: l).length ≤ fuel) :
    ∃ t, chainList (linkFrom timer (ChainLoc.next r) l s).next fuel x = some (x :: t)
      ∧ (x :: t).Nodup ∧ (∀ y ∈ t, y ∈ l) ∧ (x :: t).length ≤ (r :: l).length := by
  induction l generalizing r s x fuel with
  | nil =>
    obtain ⟨k, rfl⟩ : ∃ k, fuel = k + 1 := ⟨fuel - 1, by simp at hf; omega⟩
    have hxr : x = r := by simpa using hx
    subst hxr
    have hr : x ≠ 0 := h0 x (by simp)
    refine ⟨[], ?_, by simp, by simp, by simp⟩
    simp [chainList, hr, linkFrom, storeChain, storeNext, logEvent, setAt, chainList_null]
  | cons a l ih =>
    have h0a : ∀ y ∈ a :: l, y ≠ 0 := fun y hy => h0 y (List.mem_cons_of_mem r hy)
    by_cases hxa : x ∈ a :: l
    · obtain ⟨t, h1, h2, h3, h4⟩ := ih a (storeChain timer (ChainLoc.next r) a s) h0a x hxa fuel
        (by simp at hf ⊢; omega)
      rw [linkFrom]
      exact ⟨t, h1, h2, fun y hy => List.mem_cons_of_mem a (h3 y hy),
        by simp at h4 ⊢; omega⟩
    · have hxr : x = r := by
        rcases List.mem_cons.1 hx with h | h
        · exact h
        · exact absurd h hxa
      subst hxr
      obtain ⟨k, rfl⟩ : ∃ k, fuel = k + 1 := ⟨fuel - 1, by simp at hf; omega⟩
      have hr : x ≠ 0 := h0 x (by simp)
      have hxa2 : x ≠ a ∧ x ∉ l := by
        simpa [List.mem_cons, not_or] using hxa
      have hn : (linkFrom timer (ChainLoc.next x) (a :: l) s).next x = a := by
        rw [linkFrom, linkFrom_next_other timer l a _ x hxa2.1 hxa2.2]
        simp [storeChain, storeNext, logEvent, setAt]
      obtain ⟨t, h1, h2, h3, h4⟩ := ih a (storeChain timer (ChainLoc.next x) a s) h0a a
        (List.mem_cons_self a l) k (by simp at hf ⊢; omega)
      refine ⟨a :: t, ?_, ?_, ?_, ?_⟩
      · rw [chainList, if_neg hr, hn]
        rw [linkFrom, h1]
        rfl
      · refine List.nodup_cons.2 ⟨?_, h2⟩
        intro hmem
        rcases List.mem_cons.1 hmem with h | h
        · exact hxa2.1 h
        · exact hxa2.2 (h3 x h)
      · intro y hy
        rcases List.mem_cons.1 hy with h | h
        · rw [h]
          exact List.mem_cons_self a l
        · exact List.mem_cons_of_mem a (h3 y h)
      · simp at h4 ⊢
        omega

theorem linkFrom_active_walk (timer : Nat) (l : List Ptr) (s : State)
    (h0 : ∀ y ∈ l, y ≠ 0) (fuel : Nat) (hf : l.length ≤ fuel) :
    ∃ t, chainList (linkFrom timer ChainLoc.active l s).next fuel
        ((linkFrom timer ChainLoc.active l s).timerConfig timer).overflowCallbackActive = some t
      ∧ t.Nodup ∧ (∀ y ∈ t, y ∈ l) ∧ t.length ≤ l.length := by
  rw [linkFrom_active_head]
  cases l with
  | nil => exact ⟨[], by simp [chainList_null], List.nodup_nil, by simp, by simp⟩
  | cons a l =>
    obtain ⟨t, h1, h2, h3, h4⟩ := linkFrom_walk timer l a (storeChain timer ChainLoc.active a s)
      h0 a (List.mem_cons_self a l) fuel hf
    rw [linkFrom]
    refine ⟨a :: t, h1, h2, ?_, h4⟩
    intro y hy
    rcases List.mem_cons.1 hy with h | h
    · rw [h]
      exact List.mem_cons_self a l
    · exact List.mem_cons_of_mem a (h3 y h)

/-- C21. For every state, that is for every assignment of records to the
update-callback slot and the four per-channel overflow slots of a timer,
including assignments in which one record occupies several slots, and for all
previous `next` links: after the rebuild of `timerChConfig_UpdateOverflow` the
traversal from `overflowCallbackActive` through the `next` links reaches the
null pointer within 5 steps, visits no record twice and visits only non-null
records registered in the slots; and the chain walk of the overflow dispatch
returns after invoking exactly the records of that traversal. -/
theorem rebuilt_chain_acyclic (timer tim : Nat) (s : State) (fuel : Nat) (hf : 5 ≤ fuel) :
    ∃ l, chainList (timerChConfig_UpdateOverflow timer tim s).next fuel
          ((timerChConfig_UpdateOverflow timer tim s).timerConfig timer).overflowCallbackActive
        = some l
      ∧ l.Nodup ∧ l.length ≤ 5
      ∧ (∀ x ∈ l, x ≠ 0 ∧ x ∈ overflowSlots (s.timerConfig timer))
      ∧ ∃ s1, overflowCase fuel tim timer (timerChConfig_UpdateOverflow timer tim s) = Except.ok s1
          ∧ invocations (s1.trace.drop (timerChConfig_UpdateOverflow timer tim s).trace.length)
            = l.map (fun cb => Event.callOvr cb
                (overflowCapture tim timer (timerChConfig_UpdateOverflow timer tim s))) := by
  have hc := updateOverflow_config timer tim s
  have hlen := presentOverflow_length (s.timerConfig timer)
  obtain ⟨l, h1, h2, h3, h4⟩ := linkFrom_active_walk timer (presentOverflow (s.timerConfig timer)) s
    (presentOverflow_ne_zero _) fuel (hlen.trans hf)
  rw [← rebuildChain_eq, ← hc.1, ← hc.2] at h1
  refine ⟨l, h1, h2, h4.trans hlen, fun x hx => ?_, ?_⟩
  · exact ⟨presentOverflow_ne_zero _ x (h3 x hx), (List.mem_filter.mp (h3 x hx)).1⟩
  · obtain ⟨s1, ha, hb, _⟩ := overflowCase_ok fuel tim timer _ l h1
    refine ⟨s1, ha, ?_⟩
    rw [hb, List.drop_left]
    by_cases hfo : ((timerChConfig_UpdateOverflow timer tim s).timerConfig
        timer).forcedOverflowTimerValue = 0
    · simp [hfo, invocations, isCall, List.filter_map, Function.comp_def]
    · simp [hfo, invocations, isCall, List.filter_map, Function.comp_def]

theorem rebuilt_chain_acyclic_witness :
    presentOverflow (exampleDuplicateState.timerConfig 0) = [7, 3, 7, 3]
    ∧ chainList exampleDuplicateState.next 5 7 = none
    ∧ ∃ l, chainList (timerChConfig_UpdateOverflow 0 1024 exampleDuplicateState).next 5
          ((timerChConfig_UpdateOverflow 0 1024 exampleDuplicateState).timerConfig
            0).overflowCallbackActive = some l
        ∧ l.Nodup ∧ l.length ≤ 5
        ∧ chainList (timerChConfig_UpdateOverflow 0 1024 exampleDuplicateState).next 5
          ((timerChConfig_UpdateOverflow 0 1024 exampleDuplicateState).timerConfig
            0).overflowCallbackActive = some [7, 3] :=
  ⟨by decide, by decide,
    Exists.elim (rebuilt_chain_acyclic 0 1024 exampleDuplicateState 5 (le_refl 5))
      (fun l h => ⟨l, h.1, h.2.1, h.2.2.1, by decide⟩)⟩

end TimerAtbsp
